import Mathlib

/-!
# Anomaly-detection engine of `hackathon.js`

A shallow embedding of the comparison and anomaly-detection code of
`src/hackathon.js` (`validateSelectionsAndFetchData`, `writeOneTimeReportToSheet`,
`writeRecurringReportToSheet`, `createAnomalyReportHTML`).

Conventions of the embedding.

* JavaScript numbers are elements of a linearly ordered field `α` (exact
  arithmetic; `ℚ` for the concrete evaluations).  Every element of `α` is a finite
  number, so `isFinite` is constantly `true` and `isNaN` constantly `false`; a
  value that may be `NaN` (the result of `parseFloat` or `Number`) is an
  `Option α`, `none` standing for `NaN`.
* `Math.sqrt`, `parseFloat` and `Number` are library functions of the host; they
  are parameters `sqrt : α → α`, `parseFloat : String → Option α` and
  `toNumber : String → Option α` of the definitions that call them.
* A JavaScript object used as a dictionary is a function `String → Option _`.
* Code that can throw returns an `Except JsError _`; code that reads or writes the
  document properties, fetches or writes the sheet takes and returns the state
  `World` of these services.
* A table row as returned by `getGA4Report` is a `List String`.
-/

namespace Hackathon

/-! ## Numbers -/

/-- The host's `isFinite` on a number of the model: every element of `α` is finite. -/
def isFinite {α : Type} (_x : α) : Bool := true

/-- The host's `isNaN` on a number of the model: no element of `α` is `NaN`. -/
def isNaN {α : Type} (_x : α) : Bool := false

/-- The idiom `parseFloat(v) || 0`, where `v` is a row element or `undefined`
(`none`, an index past the end of the row): `NaN` and `0` both give `0`. -/
def parseOrZero {α : Type} [Zero α] (parseFloat : String → Option α) :
    Option String → α
  | some s => (parseFloat s).getD 0
  | none => 0

/-- An exception object: `name` is `"Error"` for the objects that the code creates
with `new Error(message)`, and the name of the host's error class otherwise. -/
structure JsError where
  name : String
  message : String
  deriving DecidableEq, Repr

/-- The expression `new Error(message)`. -/
def newError (message : String) : JsError := { name := "Error", message := message }

/-- The `TypeError` that the engine raises when a property of `undefined` or
`null` is read or called (the text of the message is the engine's). -/
def typeError : JsError :=
  { name := "TypeError", message := "Cannot read properties of undefined" }

/-- The method `error.toString()` of an exception object. -/
def JsError.toString (error : JsError) : String := error.name ++ ": " ++ error.message

/-- A value of a table or sheet cell: a string or a number. -/
inductive Cell (α : Type) where
  | str (s : String)
  | num (x : α)
  deriving DecidableEq, Repr

/-- The per-cell record of `varianceData`.  The hourly branch builds it with
`currentValue`, `historicalMean`, `stdDev`, `zScore` and `variancePercent`
(lines 1310-1316); the daily branch builds it with `historicalMean`, `stdDev`
and `values` (lines 1459-1463) and assigns `zScore` later (line 1498).  A
property that the object does not have is `none`. -/
structure CellStatistics (α : Type) where
  currentValue : Option α
  historicalMean : α
  stdDev : α
  zScore : Option α
  variancePercent : Option α
  values : Option (List α)
  deriving DecidableEq, Repr

section Statistics

variable {α : Type} [LinearOrderedField α]

/-! ## Hourly branch: statistics of one cell (lines 1251-1317) -/

/-- Lines 1255-1260: the mean of the historical samples, `0` without samples. -/
def hourlyMean (historicalValues : List α) : α :=
  if historicalValues.length > 0 then
    historicalValues.foldl (fun acc val => acc + val) 0 / (historicalValues.length : α)
  else 0

/-- Lines 1262-1277: `stdDev`, the square root of the sum of squared differences
divided by `n - 1`, computed only when there are more than one sample. -/
def hourlyStdDev (sqrt : α → α) (historicalValues : List α) : α :=
  let historicalMean := hourlyMean historicalValues
  if historicalValues.length > 1 then
    let sumOfSquaredDiffs :=
      historicalValues.foldl (fun acc val => acc + (val - historicalMean) * (val - historicalMean)) 0
    let variance := sumOfSquaredDiffs / ((historicalValues.length : α) - 1)
    sqrt variance
  else 0

/-- Lines 1279-1292: the z-score of the hourly branch. -/
def hourlyZScore (currentValueNum historicalMean stdDev : α) : α :=
  if stdDev > 0 then
    let zScore := (currentValueNum - historicalMean) / stdDev
    if !isFinite zScore || isNaN zScore then 0 else zScore
  else if currentValueNum ≠ historicalMean then
    (if currentValueNum > historicalMean then 10 else -10)
  else 0

/-- Lines 1294-1300: the percentage difference of the hourly branch. -/
def hourlyVariancePercent (currentValueNum historicalMean : α) : α :=
  if historicalMean ≠ 0 then
    ((currentValueNum - historicalMean) / historicalMean) * 100
  else if currentValueNum ≠ 0 then 100
  else 0

/-- Lines 1251-1317: the statistics record of one metric of one current row,
from the parsed current value and the historical samples looked up for the cell. -/
def hourlyStatistics (sqrt : α → α) (historicalValues : List α) (currentValueNum : α) :
    CellStatistics α :=
  let historicalMean := hourlyMean historicalValues
  let stdDev := hourlyStdDev sqrt historicalValues
  { currentValue := some currentValueNum
    historicalMean := historicalMean
    stdDev := stdDev
    zScore := some (hourlyZScore currentValueNum historicalMean stdDev)
    variancePercent := some (hourlyVariancePercent currentValueNum historicalMean)
    values := none }

/-! ## Daily branch: statistics of one cell (lines 1445-1502) -/

/-- Lines 1449-1451: the mean of the samples, `0` without samples. -/
def dailyMean (values : List α) : α :=
  let sum := values.foldl (fun acc val => acc + val) 0
  if values.length > 0 then sum / (values.length : α) else 0

/-- Lines 1453-1457: the square root of the average squared difference. -/
def dailyStdDev (sqrt : α → α) (values : List α) : α :=
  let mean := dailyMean values
  let squaredDiffs := values.map (fun val => (val - mean) ^ 2)
  let avgSquaredDiff :=
    if squaredDiffs.length > 0 then
      squaredDiffs.foldl (fun acc val => acc + val) 0 / (squaredDiffs.length : α)
    else 0
  sqrt avgSquaredDiff

/-- Lines 1448-1464: the record stored for one sample list. -/
def dailyStatistics (sqrt : α → α) (values : List α) : CellStatistics α :=
  { currentValue := none
    historicalMean := dailyMean values
    stdDev := dailyStdDev sqrt values
    zScore := none
    variancePercent := none
    values := some values }

/-- Lines 1484-1495: the z-score of the daily branch, for a cell that has a record. -/
def dailyZScore (currentValueNum historicalMean stdDev : α) : α :=
  let zScore :=
    if stdDev > 0 then (currentValueNum - historicalMean) / stdDev
    else if currentValueNum ≠ historicalMean then
      (if currentValueNum > historicalMean then 10 else -10)
    else 0
  if isNaN zScore || !isFinite zScore then 0 else zScore

/-- Lines 1476-1501 for one metric: given the record looked up for the cell
(`none` when `calculatedVarianceData[dimensionKey]` or its entry `i` is missing),
the pair `(historicalMean, zScore)` pushed to the enhanced row and the record
after the assignment of line 1498. -/
def dailyEnhanceCell (entry : Option (CellStatistics α)) (currentValueNum : α) :
    (α × α) × Option (CellStatistics α) :=
  match entry with
  | some e =>
    let historicalMean := e.historicalMean
    let zScore := dailyZScore currentValueNum historicalMean e.stdDev
    ((historicalMean, zScore), some { e with zScore := some zScore })
  | none => ((0, 0), none)

end Statistics

/-! ## Tables -/

/-- The table returned by `getGA4Report` / `formatGA4Response` (lines 2201-2216):
rows of strings, each the dimension values followed by the metric values. -/
structure Report where
  headers : List String
  dimensionHeaders : List String
  rows : List (List String)
  rowCount : Nat
  deriving DecidableEq, Repr

/-- The names of the properties that a plain object (`{}`) inherits from
`Object.prototype`: those of the language standard and, last, the legacy ones of
the runtime.  The value of each is a function, that of `__proto__` the prototype
object; all are truthy and none has an entry at an array index. -/
def objectPrototypeNames : List String :=
  ["constructor", "hasOwnProperty", "isPrototypeOf", "propertyIsEnumerable", "toLocaleString",
    "toString", "valueOf", "__proto__", "__defineGetter__", "__defineSetter__",
    "__lookupGetter__", "__lookupSetter__"]

/-- The test that `key` names a property inherited from `Object.prototype`: on a
plain object without own property `key`, the lookup `object[key]` gives the
inherited value instead of `undefined`. -/
def inheritedName (key : String) : Bool := objectPrototypeNames.contains key

/-- A value stored in `varianceData[r]`: the array of records of the key, or, for
a key that names a property inherited from `Object.prototype` (daily branch, line
1513), the inherited value of that name. -/
inductive VarianceEntry (α : Type) where
  | records (stats : List (CellStatistics α))
  | inherited (name : String)
  deriving DecidableEq, Repr

/-- The expression `entry[i]` on a value stored in `varianceData[r]`; an inherited
value has no entry at an index. -/
def VarianceEntry.recordAt {α : Type} : VarianceEntry α → Nat → Option (CellStatistics α)
  | VarianceEntry.records stats, i => stats[i]?
  | VarianceEntry.inherited _, _ => none

/-- The `report2` object of a recurring run (lines 1336-1341 and 1520-1525).
`varianceData` is a sparse array: index `r` is `none` where nothing was assigned. -/
structure EnrichedReport (α : Type) where
  headers : List String
  dimensionHeaders : List String
  rows : List (List (Cell α))
  varianceData : List (Option (VarianceEntry α))

/-- The tables returned by a recurring branch of `validateSelectionsAndFetchData`. -/
structure RecurringResult (α : Type) where
  report1 : Report
  report2 : EnrichedReport α

/-- The expression `row.slice(0, dimensionCount).join('||')` (lines 1211, 1220,
1247, 1327, 1431, 1471, 1511). -/
def dimensionKey (dimensionCount : Nat) (row : List String) : String :=
  String.intercalate "||" (row.take dimensionCount)

/-- The test `report && report.rows && report.rows.length > 0` (lines 1166, 1217,
1405), and the negation of the test of lines 1182 and 1379. -/
def hasRows : Option Report → Bool
  | some report => decide (report.rows.length > 0)
  | none => false

section Hourly

variable {α : Type} [LinearOrderedField α]

/-! ## Hourly branch: collection of the historical samples (lines 1199-1239)

`historicalDataByDimension[key]` is an array of references to array objects.
The state keeps the array objects in `arrays`, addressed by position, and the
array of references of each key in `byKey`. -/

/-- The object `historicalDataByDimension` together with the arrays it refers to. -/
structure HistoricalStore (α : Type) where
  arrays : List (List α)
  byKey : String → Option (List Nat)

/-- Lines 1210-1213, one current row: the literal `[]` creates one array object,
and `Array(metricObjects.length).fill([])` stores a reference to that one object
at every metric index. -/
def initRow (dimensionCount metricCount : Nat) (store : HistoricalStore α)
    (row : List String) : HistoricalStore α :=
  { arrays := store.arrays ++ [[]]
    byKey := Function.update store.byKey (dimensionKey dimensionCount row)
      (some (List.replicate metricCount store.arrays.length)) }

/-- Lines 1201 and 1210-1213: the store after the initialisation loop. -/
def initStore (dimensionCount metricCount : Nat) (currentRows : List (List String)) :
    HistoricalStore α :=
  currentRows.foldl (initRow dimensionCount metricCount) { arrays := [], byKey := fun _ => none }

/-- The call `array.push(metricValue)` on the array object at address `addr`. -/
def pushAt (store : HistoricalStore α) (addr : Nat) (metricValue : α) : HistoricalStore α :=
  { store with arrays := store.arrays.modify (fun array => array ++ [metricValue]) addr }

/-- Lines 1218-1237, one historical row.  A key that is not in the store is
skipped (line 1223).  Every entry of the array of references is an array (it was
stored by `fill([])`), so the guard of line 1229 never replaces one; an index
without an entry cannot occur, the array of references having
`metricObjects.length` entries. -/
def collectRow (parseFloat : String → Option α) (dimensionCount metricCount : Nat)
    (store : HistoricalStore α) (row : List String) : HistoricalStore α :=
  match store.byKey (dimensionKey dimensionCount row) with
  | none => store
  | some refs =>
    (List.range metricCount).foldl
      (fun st metricIndex =>
        let metricValue := parseOrZero parseFloat row[dimensionCount + metricIndex]?
        match refs[metricIndex]? with
        | some addr => pushAt st addr metricValue
        | none => st)
      store

/-- Lines 1216-1239: the loop over the historical reports. -/
def collectReports (parseFloat : String → Option α) (dimensionCount metricCount : Nat)
    (store : HistoricalStore α) (historicalReports : List (Option Report)) :
    HistoricalStore α :=
  historicalReports.foldl
    (fun st report =>
      match report with
      | some r =>
        if r.rows.length > 0 then
          r.rows.foldl (collectRow parseFloat dimensionCount metricCount) st
        else st
      | none => st)
    store

/-- Line 1253: `historicalDataByDimension[dimensionKey][metricIndex] || []`.
An array object is truthy even when empty, so `|| []` only replaces a missing
entry.  The key of a current row is always in the store (lines 1210-1213). -/
def historicalValues (store : HistoricalStore α) (key : String) (metricIndex : Nat) : List α :=
  match store.byKey key with
  | some refs =>
    match refs[metricIndex]? with
    | some addr => store.arrays.getD addr []
    | none => []
  | none => []

/-- Lines 1246-1317: the `statistics` array of one current row. -/
def rowStatistics (sqrt : α → α) (parseFloat : String → Option α) (dimensionCount : Nat)
    (store : HistoricalStore α) (row : List String) : List (CellStatistics α) :=
  (row.drop dimensionCount).enum.map
    (fun p =>
      hourlyStatistics sqrt (historicalValues store (dimensionKey dimensionCount row) p.1)
        (parseOrZero parseFloat (some p.2)))

/-- Lines 1242-1321: the object `calculatedVarianceData` after the `map` over the
current rows; a later row with the same key overwrites the entry of an earlier one. -/
def hourlyCalculatedVarianceData (sqrt : α → α) (parseFloat : String → Option α)
    (dimensionCount : Nat) (store : HistoricalStore α) (currentRows : List (List String)) :
    String → Option (List (CellStatistics α)) :=
  currentRows.foldl
    (fun calculated row =>
      Function.update calculated (dimensionKey dimensionCount row)
        (some (rowStatistics sqrt parseFloat dimensionCount store row)))
    (fun _ => none)

/-- Lines 1186-1196: the placeholder report of the hourly branch. -/
def placeholderReport (dimensions metrics : List String) : Report :=
  { headers := dimensions ++ metrics
    dimensionHeaders := dimensions
    rows := [List.replicate dimensions.length "No Data" ++ List.replicate metrics.length "0"]
    rowCount := 1 }

/-- Lines 1158-1345: the hourly branch of `validateSelectionsAndFetchData`, from
the selected dimension and metric names and the results of the calls of
`getGA4Report` (`historicalFetches` in the order of the historical date ranges,
then `currentFetch`). -/
def hourlyBranch (sqrt : α → α) (parseFloat : String → Option α)
    (dimensions metrics : List String) (historicalFetches : List (Option Report))
    (currentFetch : Option Report) : RecurringResult α :=
  let historicalReports := historicalFetches.map (fun report => if hasRows report then report else none)
  let currentReport :=
    match currentFetch with
    | some report => if report.rows.length = 0 then placeholderReport dimensions metrics else report
    | none => placeholderReport dimensions metrics
  let dimensionCount := dimensions.length
  let metricCount := metrics.length
  let store := collectReports parseFloat dimensionCount metricCount
    (initStore dimensionCount metricCount currentReport.rows) historicalReports
  let calculatedVarianceData :=
    hourlyCalculatedVarianceData sqrt parseFloat dimensionCount store currentReport.rows
  let enhancedRows := currentReport.rows.map (fun row => row.map Cell.str)
  let varianceData :=
    currentReport.rows.map
      (fun row =>
        (calculatedVarianceData (dimensionKey dimensionCount row)).map VarianceEntry.records)
  { report1 := currentReport
    report2 :=
      { headers := currentReport.headers
        dimensionHeaders := currentReport.dimensionHeaders
        rows := enhancedRows
        varianceData := varianceData } }

end Hourly

section Daily

variable {α : Type} [LinearOrderedField α]

/-! ## Daily branch (lines 1376-1529) -/

/-- Lines 1437-1439: `metricValues.forEach((value, i) => historicalData[key][i].push(..))`.
`arrays` is `historicalData[dimensionKey]`; where it has no entry `i`, the call of
`push` on `undefined` raises a `TypeError`. -/
def dailyPushMetrics (parseFloat : String → Option α) (arrays : List (List α))
    (metricValues : List String) : Except JsError (List (List α)) :=
  metricValues.enum.foldlM
    (fun arrs p =>
      match arrs[p.1]? with
      | some _ => pure (arrs.modify (fun array => array ++ [parseOrZero parseFloat (some p.2)]) p.1)
      | none => throw typeError)
    arrays

/-- Lines 1427-1440, one historical row.  `historicalData` holds the own properties
of the plain object.  When the object has no own property `key` and `key` does not
name an inherited property, the entry is created with `metricCount` distinct empty
arrays (`Array(metricCount).fill().map(() => [])`); then the metric values of the
row are pushed.  When `key` names an inherited property, `historicalData[key]` is
the inherited value, which is truthy, so that no entry is created (line 1433), and
which has no entry at any index, so that the first push raises a `TypeError` (line
1438) and a row without metric values leaves the object unchanged. -/
def dailyCollectRow (parseFloat : String → Option α) (dimensionCount metricCount : Nat)
    (historicalData : String → Option (List (List α))) (row : List String) :
    Except JsError (String → Option (List (List α))) :=
  let metricValues := row.drop dimensionCount
  let key := dimensionKey dimensionCount row
  match historicalData key with
  | some arrays =>
    (dailyPushMetrics parseFloat arrays metricValues).map
      (fun arrays => Function.update historicalData key (some arrays))
  | none =>
    if inheritedName key then
      (dailyPushMetrics parseFloat [] metricValues).map (fun _ => historicalData)
    else
      (dailyPushMetrics parseFloat (List.replicate metricCount []) metricValues).map
        (fun arrays => Function.update historicalData key (some arrays))

/-- Lines 1425-1440: the own properties of the object `historicalData` after the
loop over the historical rows, or the `TypeError` that the loop raises. -/
def dailyHistoricalData (parseFloat : String → Option α) (dimensionCount metricCount : Nat)
    (historicalRows : List (List String)) : Except JsError (String → Option (List (List α))) :=
  historicalRows.foldlM (dailyCollectRow parseFloat dimensionCount metricCount) (fun _ => none)

/-- Lines 1443-1465: the own properties of the object `calculatedVarianceData`, one
record per own key of `historicalData` (`Object.keys`) and per sample array of the
key. -/
def dailyCalculatedVarianceData (sqrt : α → α)
    (historicalData : String → Option (List (List α))) :
    String → Option (List (CellStatistics α)) :=
  fun key => (historicalData key).map (fun arrays => arrays.map (dailyStatistics sqrt))

/-- The lookup `calculatedVarianceData[key]` (lines 1480 and 1513) on the plain
object whose own properties are `calculated`: the array of records of an own
property, else the inherited value when `key` names an inherited property, else
`undefined`. -/
def dailyLookup (calculated : String → Option (List (CellStatistics α))) (key : String) :
    Option (VarianceEntry α) :=
  match calculated key with
  | some stats => some (VarianceEntry.records stats)
  | none => if inheritedName key then some (VarianceEntry.inherited key) else none

/-- Lines 1475-1502, one metric value of a current row with key `key`: the three
cells pushed to the enhanced row, and `calculatedVarianceData` after the assignment
of line 1498.  `acc` is the enhanced row so far and the own properties of the
object so far, `p` the index and the value. -/
def dailyEnhanceMetric (parseFloat : String → Option α) (key : String)
    (acc : List (Cell α) × (String → Option (List (CellStatistics α)))) (p : Nat × String) :
    List (Cell α) × (String → Option (List (CellStatistics α))) :=
  let currentValueNum := parseOrZero parseFloat (some p.2)
  let entry := (dailyLookup acc.2 key).bind (fun value => value.recordAt p.1)
  let result := dailyEnhanceCell entry currentValueNum
  let calculated' :=
    match result.2 with
    | some e => Function.update acc.2 key ((acc.2 key).map (fun stats => stats.set p.1 e))
    | none => acc.2
  (acc.1 ++ [Cell.num currentValueNum, Cell.num result.1.1, Cell.num result.1.2], calculated')

/-- Lines 1469-1504, one current row: the enhanced row, and `calculatedVarianceData`
after the assignments of line 1498. -/
def dailyEnhanceRow (parseFloat : String → Option α) (dimensionCount : Nat)
    (calculated : String → Option (List (CellStatistics α))) (row : List String) :
    List (Cell α) × (String → Option (List (CellStatistics α))) :=
  let dimensionValues := row.take dimensionCount
  let metricValues := row.drop dimensionCount
  let key := dimensionKey dimensionCount row
  metricValues.enum.foldl (dailyEnhanceMetric parseFloat key)
    (dimensionValues.map Cell.str, calculated)

/-- Lines 1468-1505: the `map` over the current rows. -/
def dailyEnhanceRows (parseFloat : String → Option α) (dimensionCount : Nat)
    (calculated : String → Option (List (CellStatistics α))) (currentRows : List (List String)) :
    List (List (Cell α)) × (String → Option (List (CellStatistics α))) :=
  currentRows.foldl
    (fun acc row =>
      let result := dailyEnhanceRow parseFloat dimensionCount acc.2 row
      (acc.1 ++ [result.1], result.2))
    ([], calculated)

/-- The rows of the historical tables that have rows, in the order of the
fetches: `historicalRows` of the daily branch (lines 1384-1410), and the rows that
the loop of lines 1216-1239 of the hourly branch visits. -/
def historicalRowsOf (historicalFetches : List (Option Report)) : List (List String) :=
  historicalFetches.flatMap
    (fun report =>
      match report with
      | some r => if r.rows.length > 0 then r.rows else []
      | none => [])

/-- Lines 1376-1529: the daily branch of `validateSelectionsAndFetchData`, from the
selected dimension and metric names and the results of the calls of `getGA4Report`
(`currentFetch`, then `historicalFetches` in the order of the historical dates).
`varianceData[r]` is assigned the value looked up for the key of row `r` when it is
truthy (line 1513): the array of records, or the inherited value of a key that
names an inherited property. -/
def dailyBranch (sqrt : α → α) (parseFloat : String → Option α)
    (dimensions metrics : List String) (currentFetch : Option Report)
    (historicalFetches : List (Option Report)) : Except JsError (RecurringResult α) :=
  match currentFetch with
  | none => throw (newError "No data available for yesterday")
  | some currentReport =>
    if currentReport.rows.length = 0 then throw (newError "No data available for yesterday")
    else do
      let historicalRows := historicalRowsOf historicalFetches
      let dimensionCount := dimensions.length
      let metricCount := metrics.length
      let historicalData ← dailyHistoricalData parseFloat dimensionCount metricCount historicalRows
      let calculatedVarianceData := dailyCalculatedVarianceData sqrt historicalData
      let enhanced := dailyEnhanceRows parseFloat dimensionCount calculatedVarianceData currentReport.rows
      let varianceData :=
        currentReport.rows.map (fun row => dailyLookup enhanced.2 (dimensionKey dimensionCount row))
      pure
        { report1 := currentReport
          report2 :=
            { headers := currentReport.headers
              dimensionHeaders := currentReport.dimensionHeaders
              rows := enhanced.1
              varianceData := varianceData } }

end Daily

/-! ## Selections and document properties -/

/-- A date range of the selections or of a request. -/
structure DateRange where
  startDate : String
  endDate : String
  deriving DecidableEq, Repr

/-- The `dates` object of the selections payload; a property that the object
does not have is `none`. -/
structure Dates where
  range1 : Option DateRange
  range2 : Option DateRange
  recurringOption : Option String
  deriving DecidableEq, Repr

/-- The selections payload sent by the sidebar (lines 987-1009); a property that
the object does not have is `none`. -/
structure Selections where
  reportType : String
  dates : Option Dates
  variance : String
  zScoreThreshold : Option String
  dimensions : Option (List String)
  metrics : Option (List String)
  deriving DecidableEq, Repr

/-- The document properties that the code reads and writes; `none` is a property
that was never stored (`getProperty` returns `null`).  The property `selections`
holds `JSON.stringify` of a payload, read back with `JSON.parse`; the model keeps
the payload itself. -/
structure DocumentProperties where
  selectedPropertyId : Option String
  varianceThreshold : Option String
  zScoreThreshold : Option String
  metricCount : Option String
  dimensionCount : Option String
  latestSheetName : Option String
  selections : Option Selections
  deriving DecidableEq, Repr

section Sheet

variable {α : Type} [LinearOrderedField α]

/-! ## The report sheet

A sheet is the list of its rows as written, from sheet row 1 on.  The writers
below give the values they write (styling, number formats and conditional
formatting are left out).  `getValues` is `sheet.getDataRange().getValues()` on a
sheet that holds nothing else: a rectangle as wide as the longest row, an
empty cell reading as the empty string, every other cell reading as written. -/

/-- The values of `sheet.getDataRange().getValues()`. -/
def getValues (written : List (List (Cell α))) : List (List (Cell α)) :=
  let width := (written.map List.length).foldl max 0
  written.map (fun row => row ++ List.replicate (width - row.length) (Cell.str ""))

/-- Lines 1789-1802: the combined row of the current row `row1` at index `i`.  A
missing `report2.rows[i]` is replaced by `Array(row1.length).fill(0)`, every element
of which parses to `0`. -/
def combinedRow (parseFloat : String → Option α) (report1 report2 : Report) (i : Nat)
    (row1 : List String) : List (Cell α) :=
  let dimensions := row1.take report1.dimensionHeaders.length
  let metrics1 := row1.drop report1.dimensionHeaders.length
  let groupedMetrics :=
    metrics1.enum.flatMap
      (fun q =>
        let val1Num := parseOrZero parseFloat (some q.2)
        let val2Num : α :=
          match report2.rows[i]? with
          | some row2 => parseOrZero parseFloat (row2.drop report1.dimensionHeaders.length)[q.1]?
          | none => 0
        let variance := if val2Num ≠ 0 then ((val1Num - val2Num) / val2Num) * 100 else 0
        [Cell.num val1Num, Cell.num val2Num, Cell.num variance])
  dimensions.map Cell.str ++ groupedMetrics

/-- Lines 1788-1803: `combinedData` of `writeOneTimeReportToSheet`. -/
def combinedData (parseFloat : String → Option α) (report1 report2 : Report) :
    List (List (Cell α)) :=
  report1.rows.enum.map (fun p => combinedRow parseFloat report1 report2 p.1 p.2)

/-- Lines 1682-1809: the rows written by `writeOneTimeReportToSheet`: the date
range headers (row 1), the metric headers (row 2) and `combinedData` from row 3
on.  `currentDateRange` and `previousDateRange` are the formatted date ranges of
lines 1689-1690.  The rows of `combinedData` are taken of equal length, as
`setValues` requires. -/
def writeOneTimeReportToSheet (parseFloat : String → Option α)
    (currentDateRange previousDateRange : String) (report1 report2 : Report) :
    List (List (Cell α)) :=
  let dimensionHeaders := report1.headers.take report1.dimensionHeaders.length
  let metricHeaders := report1.headers.drop report1.dimensionHeaders.length
  let dateRangeHeaders : List (Cell α) :=
    List.replicate dimensionHeaders.length (Cell.str "Dimensions") ++
      metricHeaders.flatMap
        (fun _ => [Cell.str currentDateRange, Cell.str previousDateRange, Cell.str "Difference (%)"])
  let metricGroupHeaders : List (Cell α) :=
    dimensionHeaders.map Cell.str ++ metricHeaders.flatMap (fun h => [Cell.str h, Cell.str h, Cell.str h])
  [dateRangeHeaders, metricGroupHeaders] ++ combinedData parseFloat report1 report2

/-- Lines 2013-2019: the historical mean written for the metric `metricIndex` of
the data row `rowIndex`.  The test of line 2016 fails on a hole of `varianceData`
and on a missing entry. -/
def writtenHistoricalMean (varianceData : List (Option (VarianceEntry α)))
    (rowIndex metricIndex : Nat) : α :=
  match (varianceData[rowIndex]?.join).bind (fun entry => entry.recordAt metricIndex) with
  | some e => e.historicalMean
  | none => 0

/-- Lines 2013-2019: the z-score written for the metric `metricIndex` of the data
row `rowIndex`; `zScore || 0` is `0` for a record without `zScore`. -/
def writtenZScore (varianceData : List (Option (VarianceEntry α)))
    (rowIndex metricIndex : Nat) : α :=
  match (varianceData[rowIndex]?.join).bind (fun entry => entry.recordAt metricIndex) with
  | some e => e.zScore.getD 0
  | none => 0

/-- Lines 1997-2030: the data row of `writeRecurringReportToSheet` for the current
row at `rowIndex`. -/
def recurringDataRow (parseFloat : String → Option α) (dimensionCount : Nat)
    (varianceData : List (Option (VarianceEntry α))) (rowIndex : Nat)
    (currentRow : List String) : List (Cell α) :=
  let dimensions := currentRow.take dimensionCount
  let metrics := currentRow.drop dimensionCount
  dimensions.map Cell.str ++
    metrics.enum.flatMap
      (fun p =>
        [Cell.num (parseOrZero parseFloat (some p.2)),
          Cell.num (writtenHistoricalMean varianceData rowIndex p.1),
          Cell.num (writtenZScore varianceData rowIndex p.1)])

/-- Lines 1875-2035: the rows written by `writeRecurringReportToSheet`: the title
(row 1, one merged cell), the two header rows (rows 2 and 3) and the data rows from
row 4 on.  `title` is the text of line 1903.  The data rows are taken of equal
length, as `setValues` requires. -/
def writeRecurringReportToSheet (parseFloat : String → Option α) (title : String)
    (currentReport : Report) (historicalReport : EnrichedReport α) : List (List (Cell α)) :=
  let dimensionHeaders := currentReport.dimensionHeaders
  let metricHeaders := currentReport.headers.drop dimensionHeaders.length
  let varianceData := historicalReport.varianceData
  let headerRow1 : List (Cell α) :=
    List.replicate dimensionHeaders.length (Cell.str "Dimensions") ++
      metricHeaders.flatMap (fun _ => [Cell.str "Current", Cell.str "Historical Avg", Cell.str "Z-Score"])
  let headerRow2 : List (Cell α) :=
    dimensionHeaders.map Cell.str ++ metricHeaders.flatMap (fun h => [Cell.str h, Cell.str h, Cell.str h])
  let dataRows :=
    currentReport.rows.enum.map
      (fun p => recurringDataRow parseFloat dimensionHeaders.length varianceData p.1 p.2)
  [[Cell.str title], headerRow1, headerRow2] ++ dataRows

/-! ## `createAnomalyReportHTML` (lines 2220-2423) -/

/-- The object returned by `createAnomalyReportHTML` (lines 2419-2422).  Of the
HTML of `anomalyTable` the model keeps the data rows that are rendered, in order. -/
structure AnomalyReport (α : Type) where
  anomalyCount : Nat
  renderedRows : List (List (Cell α))
  deriving DecidableEq, Repr

/-- The value returned by `createAnomalyReportHTML`: the string of line 2225, or
the object of lines 2419-2422. -/
inductive AnomalyResult (α : Type) where
  | text (html : String)
  | report (r : AnomalyReport α)
  deriving DecidableEq, Repr

/-- The idiom `Number(getProperty(name)) || dflt` (lines 2231-2232): `Number(null)`
is `0`, and `0` and `NaN` are both replaced by the default. -/
def numberOr (toNumber : String → Option α) (property : Option String) (dflt : α) : α :=
  match property with
  | none => dflt
  | some s =>
    match toNumber s with
    | some x => if x = 0 then dflt else x
    | none => dflt

/-- The expression `Number(row[col])`: `NaN` (`none`) for `undefined`. -/
def cellNumber (toNumber : String → Option α) : Option (Cell α) → Option α
  | some (Cell.num x) => some x
  | some (Cell.str s) => toNumber s
  | none => none

/-- The test `Math.abs(Number(row[col])) > threshold` (lines 2325-2326 and
2337-2338); a comparison with `NaN` is false. -/
def exceeds (toNumber : String → Option α) (threshold : α) (cell : Option (Cell α)) : Bool :=
  match cellNumber toNumber cell with
  | some x => decide (|x| > threshold)
  | none => false

/-- Line 2235: the detection of a recurring report from the second sheet row. -/
def isRecurringHeader (row : List (Cell α)) : Bool :=
  row.any (fun cell =>
    cell == Cell.str "Current" || cell == Cell.str "Historical Avg" || cell == Cell.str "Z-Score")

/-- Lines 2240-2242: the dimension count, from the position of `'Current'` in the
second sheet row, else from the position of the first cell of the third sheet
row, else from the stored property (`parseInt(..) || 1`). -/
def detectDimensionCount (parseInt : String → Option Nat) (data1 data2 : List (Cell α))
    (property : Option String) : Nat :=
  let fromProperty : Nat :=
    match property.bind parseInt with
    | some n => if n = 0 then 1 else n
    | none => 1
  if data1.indexOf (Cell.str "Current") < data1.length then data1.indexOf (Cell.str "Current")
  else
    match data2[0]? with
    | some cell => if data1.indexOf cell < data1.length then data1.indexOf cell else fromProperty
    | none => fromProperty

/-- Lines 2318-2345: `hasAnomaly` of one sheet row. -/
def hasAnomaly (toNumber : String → Option α) (isRecurring : Bool)
    (dimensionCount metricCount : Nat) (zScoreThreshold percentThreshold : α)
    (row : List (Cell α)) : Bool :=
  let metricGroupSize := if isRecurring then 3 else 3
  if isRecurring then
    (List.range metricCount).any
      (fun j => exceeds toNumber zScoreThreshold row[dimensionCount + j * metricGroupSize + 2]?)
  else
    (List.range metricCount).any
      (fun j => exceeds toNumber percentThreshold row[dimensionCount + j * metricGroupSize + 2]?)

/-- Lines 2309-2398: the loop over the sheet rows from `startRow` on; a row with
an anomaly is counted once and rendered while fewer than 20 rows are rendered. -/
def scanRows (toNumber : String → Option α) (isRecurring : Bool)
    (dimensionCount metricCount : Nat) (zScoreThreshold percentThreshold : α)
    (rows : List (List (Cell α))) : AnomalyReport α :=
  rows.foldl
    (fun acc row =>
      if hasAnomaly toNumber isRecurring dimensionCount metricCount zScoreThreshold percentThreshold row then
        { anomalyCount := acc.anomalyCount + 1
          renderedRows := if acc.renderedRows.length < 20 then acc.renderedRows ++ [row] else acc.renderedRows }
      else acc)
    { anomalyCount := 0, renderedRows := [] }

/-- Lines 2220-2423: `createAnomalyReportHTML` on the values `data` of the active
sheet. -/
def createAnomalyReportHTML (toNumber : String → Option α) (parseInt : String → Option Nat)
    (properties : DocumentProperties) (data : List (List (Cell α))) : AnomalyResult α :=
  if data.length ≤ 3 then AnomalyResult.text "<p>No anomaly data available.</p>"
  else
    let zScoreThreshold := numberOr toNumber properties.zScoreThreshold 3
    let percentThreshold := numberOr toNumber properties.varianceThreshold 10
    let isRecurring := isRecurringHeader (data.getD 1 [])
    let dimensionCount := detectDimensionCount parseInt (data.getD 1 []) (data.getD 2 []) properties.dimensionCount
    let metricGroupSize := if isRecurring then 3 else 3
    let metricCount := ((data.getD 1 []).length - dimensionCount) / metricGroupSize
    let startRow := if isRecurring then 3 else 3
    AnomalyResult.report
      (scanRows toNumber isRecurring dimensionCount metricCount zScoreThreshold percentThreshold
        (data.drop startRow))

end Sheet

/-! ## The analytics service: `getGA4Report` and `formatGA4Response` (lines 2092-2217) -/

/-- A row of the response of the analytics service. -/
structure ApiRow where
  dimensionValues : List String
  metricValues : List String
  deriving DecidableEq, Repr

/-- The response of `AnalyticsData.Properties.runReport`; `rows` is `none` when the
response has no `rows` property. -/
structure ApiResponse where
  dimensionHeaders : List String
  metricHeaders : List String
  rows : Option (List ApiRow)
  rowCount : Nat
  deriving DecidableEq, Repr

/-- The request built by `getGA4Report` (lines 2095-2150): the resource name, the
dimension and metric names, the date ranges and, when the hour filter is set, the
value of the exact-match filter on the field `hour`. -/
structure ApiRequest where
  property : String
  dimensions : List String
  metrics : List String
  dateRanges : List DateRange
  hourFilter : Option String
  deriving DecidableEq, Repr

/-- The `options` argument of `getGA4Report`; the default `{}` is
`{ hourly := false, hour := none }`. -/
structure FetchOptions where
  hourly : Bool
  hour : Option Nat
  deriving DecidableEq, Repr

/-- Lines 2174-2217: `formatGA4Response`; `none` is `null`. -/
def formatGA4Response (response : Option ApiResponse) (options : FetchOptions) : Option Report :=
  match response with
  | none => none
  | some response =>
    match response.rows with
    | none => none
    | some apiRows =>
      let dimensionHeaders := response.dimensionHeaders
      let metricHeaders := response.metricHeaders
      let headers := dimensionHeaders ++ metricHeaders
      let rows := apiRows.map (fun row => row.dimensionValues ++ row.metricValues)
      if options.hourly && dimensionHeaders.contains "hour" then
        let hourIndex := dimensionHeaders.indexOf "hour"
        let filteredDimensionHeaders := dimensionHeaders.eraseIdx hourIndex
        some
          { headers := filteredDimensionHeaders ++ metricHeaders
            dimensionHeaders := filteredDimensionHeaders
            rows := rows.map (fun row => row.eraseIdx hourIndex)
            rowCount := response.rowCount }
      else
        some
          { headers := headers
            dimensionHeaders := dimensionHeaders
            rows := rows
            rowCount := response.rowCount }

/-- Lines 2095-2150: the request that `getGA4Report` sends. -/
def buildRequest (propertyId : String) (dimensions metrics : List String)
    (dateRange : DateRange) (options : FetchOptions) : ApiRequest :=
  match options.hour with
  | some hour =>
    if options.hourly then
      { property := "properties/" ++ propertyId
        dimensions := if dimensions.any (fun d => d == "hour") then dimensions else "hour" :: dimensions
        metrics := metrics
        dateRanges := [dateRange]
        hourFilter := some (toString hour) }
    else
      { property := "properties/" ++ propertyId, dimensions := dimensions, metrics := metrics
        dateRanges := [dateRange], hourFilter := none }
  | none =>
    { property := "properties/" ++ propertyId, dimensions := dimensions, metrics := metrics
      dateRanges := [dateRange], hourFilter := none }

/-- Lines 2092-2171: `getGA4Report`; an exception of the service is caught and
gives `null`.  `runReport` is the call of the analytics service. -/
def getGA4Report (runReport : ApiRequest → Except JsError (Option ApiResponse))
    (propertyId : String) (dimensions metrics : List String) (dateRange : DateRange)
    (options : FetchOptions) : Option Report :=
  match runReport (buildRequest propertyId dimensions metrics dateRange options) with
  | Except.ok response => formatGA4Response response options
  | Except.error _ => none

/-! ## The host and the state of its services -/

/-- The services of the host that the code calls and the values it reads from
them during one run: the analytics service, the clock (`today` is the day number
of `new Date()`, `currentHour` its hour, the `format` functions are
`Utilities.formatDate` with the patterns `yyyy-MM-dd`, `yyyy/MM/dd`; `timeOfDay` and
`timeStamp` are the formatted current time, `HH:mm` and `yyyy-MM-dd HH:mm`), the
numeric library, and `sheetError`, the exception, if any, that the spreadsheet
service raises while the rows are written and formatted. -/
structure Host (α : Type) where
  runReport : ApiRequest → Except JsError (Option ApiResponse)
  today : Int
  currentHour : Nat
  formatDate : Int → String
  formatDateSlash : Int → String
  timeOfDay : String
  timeStamp : String
  sqrt : α → α
  parseFloat : String → Option α
  toNumber : String → Option α
  parseInt : String → Option Nat
  sheetError : List (List (Cell α)) → Option JsError

/-- The state of the services: the document properties, the requests sent to the
analytics service (oldest first), the values of the active sheet and the results
of `createAnomalyReportHTML` that were mailed (oldest first). -/
structure World (α : Type) where
  properties : DocumentProperties
  requests : List ApiRequest
  activeSheet : List (List (Cell α))
  emails : List (AnomalyResult α)

section Orchestration

variable {α : Type} [LinearOrderedField α]

/-! ## `validateSelectionsAndFetchData` (lines 1090-1583) -/

/-- A call of `getGA4Report` in the state `world`: the table, and the state with
the request recorded. -/
def fetchReport (host : Host α) (propertyId : String) (dimensions metrics : List String)
    (options : FetchOptions) (world : World α) (dateRange : DateRange) :
    Option Report × World α :=
  (getGA4Report host.runReport propertyId dimensions metrics dateRange options,
    { world with
      requests := world.requests ++ [buildRequest propertyId dimensions metrics dateRange options] })

/-- The calls of `getGA4Report` for the date ranges `dateRanges`, in order (the
loops of lines 1160-1173 and 1388-1410). -/
def fetchReports (host : Host α) (propertyId : String) (dimensions metrics : List String)
    (options : FetchOptions) (world : World α) (dateRanges : List DateRange) :
    List (Option Report) × World α :=
  dateRanges.foldl
    (fun acc dateRange =>
      let fetched := fetchReport host propertyId dimensions metrics options acc.2 dateRange
      (acc.1 ++ [fetched.1], fetched.2))
    ([], world)

/-- The single-day date range of the day `day`. -/
def singleDay (host : Host α) (day : Int) : DateRange :=
  { startDate := host.formatDate day, endDate := host.formatDate day }

/-- Lines 1128-1145 and 1388-1400: the historical date ranges, the days
`7 * weekOffset` before `yesterday` for `weekOffset = 1 .. numberOfWeeks`. -/
def historicalDateRanges (host : Host α) (yesterday : Int) (numberOfWeeks : Nat) :
    List DateRange :=
  (List.range numberOfWeeks).map (fun k => singleDay host (yesterday - 7 * ((k : Int) + 1)))

/-- The tables of the object returned by `validateSelectionsAndFetchData`:
those of a recurring branch, those of the one-time branch, or `report1: null,
report2: null` (lines 1533-1539). -/
inductive ReportData (α : Type) where
  | recurring (result : RecurringResult α)
  | oneTime (report1 report2 : Report)
  | missing

/-- The object returned by `validateSelectionsAndFetchData`.  `dateRanges` lists
the current date range followed by the historical ones for a recurring run, the
two ranges for a one-time run, and is empty for `dateRanges: null`. -/
structure ValidationResult (α : Type) where
  reports : ReportData α
  varianceThreshold : String
  zScoreThreshold : Option String
  dateRanges : List DateRange

/-- Lines 1206-1207, 1421-1422 and 1561-1562: the counts saved to the document
properties. -/
def saveCounts (dimensionCount metricCount : Nat) (world : World α) : World α :=
  { world with
    properties :=
      { world.properties with
        metricCount := some (toString metricCount)
        dimensionCount := some (toString dimensionCount) } }

/-- Lines 1096-1102: the thresholds saved to the document properties; the z-score
threshold is saved when it is truthy (present and not the empty string). -/
def saveThresholds (selections : Selections) (world : World α) : World α :=
  { world with
    properties :=
      { world.properties with
        varianceThreshold := some selections.variance
        zScoreThreshold :=
          match selections.zScoreThreshold with
          | some z => if z = "" then world.properties.zScoreThreshold else some z
          | none => world.properties.zScoreThreshold } }

/-- Lines 1108-1345: the hourly branch with its fetches, the four historical
ones first, then the current one. -/
def validateHourly (host : Host α) (propertyId : String) (selections : Selections)
    (world : World α) : Except JsError (ValidationResult α) × World α :=
  match selections.dimensions, selections.metrics with
  | some dimensions, some metrics =>
    let yesterday := host.today - 1
    let options : FetchOptions := { hourly := true, hour := some host.currentHour }
    let historical := historicalDateRanges host yesterday 4
    let currentDateRange := singleDay host yesterday
    let historicalFetches := fetchReports host propertyId dimensions metrics options world historical
    let currentFetch :=
      fetchReport host propertyId dimensions metrics options historicalFetches.2 currentDateRange
    let world' := saveCounts dimensions.length metrics.length currentFetch.2
    (pure
      { reports := ReportData.recurring
          (hourlyBranch host.sqrt host.parseFloat dimensions metrics historicalFetches.1 currentFetch.1)
        varianceThreshold := selections.variance
        zScoreThreshold := selections.zScoreThreshold
        dateRanges := currentDateRange :: historical },
      world')
  | _, _ => (throw typeError, world)

/-- Lines 1347-1529: the daily branch with its fetches, the current one first;
the historical ones are made only when the current table has rows. -/
def validateDaily (host : Host α) (propertyId : String) (selections : Selections)
    (world : World α) : Except JsError (ValidationResult α) × World α :=
  match selections.dimensions, selections.metrics with
  | some dimensions, some metrics =>
    let yesterday := host.today - 1
    let options : FetchOptions := { hourly := false, hour := none }
    let currentDateRange := singleDay host yesterday
    let currentFetch := fetchReport host propertyId dimensions metrics options world currentDateRange
    if hasRows currentFetch.1 then
      let historical := historicalDateRanges host yesterday 4
      let historicalFetches :=
        fetchReports host propertyId dimensions metrics options currentFetch.2 historical
      let world' := saveCounts dimensions.length metrics.length historicalFetches.2
      ((dailyBranch host.sqrt host.parseFloat dimensions metrics currentFetch.1
          historicalFetches.1).map
        (fun result =>
          { reports := ReportData.recurring result
            varianceThreshold := selections.variance
            zScoreThreshold := selections.zScoreThreshold
            dateRanges := currentDateRange :: historical }),
        world')
    else (throw (newError "No data available for yesterday"), currentFetch.2)
  | _, _ => (throw typeError, world)

/-- Lines 1540-1578: the one-time branch. -/
def validateOneTime (host : Host α) (propertyId : String) (selections : Selections)
    (world : World α) : Except JsError (ValidationResult α) × World α :=
  match selections.dates with
  | none => (throw typeError, world)
  | some dates =>
    match dates.range1, dates.range2, selections.dimensions, selections.metrics with
    | some range1, some range2, some dimensions, some metrics =>
      let options : FetchOptions := { hourly := false, hour := none }
      let world1 := saveCounts dimensions.length metrics.length world
      let fetch1 := fetchReport host propertyId dimensions metrics options world1 range1
      let fetch2 := fetchReport host propertyId dimensions metrics options fetch1.2 range2
      match fetch1.1, fetch2.1 with
      | some report1, some report2 =>
        (pure
          { reports := ReportData.oneTime report1 report2
            varianceThreshold := selections.variance
            zScoreThreshold := selections.zScoreThreshold
            dateRanges := [range1, range2] },
          fetch2.2)
      | _, _ => (throw (newError "Failed to fetch reports"), fetch2.2)
    | _, _, _, _ => (throw typeError, world)

/-- Lines 1090-1583: `validateSelectionsAndFetchData`.  `selections` is `none` for
`undefined` or `null`; the exception, if any, is the one that `handleError`
rethrows, and the state is the one in which it was raised. -/
def validateSelectionsAndFetchData (host : Host α) (selections : Option Selections)
    (world : World α) : Except JsError (ValidationResult α) × World α :=
  match world.properties.selectedPropertyId with
  | none => (throw (newError "No property selected"), world)
  | some propertyId =>
    if propertyId = "" then (throw (newError "No property selected"), world)
    else
      match selections with
      | none => (throw typeError, world)
      | some selections =>
        let world1 := saveThresholds selections world
        if selections.reportType = "recurring" then
          match selections.dates with
          | none => (throw typeError, world1)
          | some dates =>
            if dates.recurringOption = some "hourly" then
              validateHourly host propertyId selections world1
            else if dates.recurringOption = some "daily" then
              validateDaily host propertyId selections world1
            else
              (pure
                { reports := ReportData.missing
                  varianceThreshold := selections.variance
                  zScoreThreshold := selections.zScoreThreshold
                  dateRanges := [] },
                world1)
        else validateOneTime host propertyId selections world1

/-! ## `writeReportsToSheet` and the entry point (lines 1585-1679, 2426-2463) -/

/-- The object `{success, message}` returned by `writeReportsToSheet`. -/
structure RunResult where
  success : Bool
  message : String
  deriving DecidableEq, Repr

/-- Lines 1896-1903: the title of a recurring report sheet. -/
def recurringTitle (host : Host α) (recurringOption : String) : String :=
  recurringOption.capitalize ++ " Recurring Report - " ++ host.formatDateSlash (host.today - 1)
    ++ " " ++ host.timeOfDay ++ " (24h Delayed Data)"

/-- Lines 1688-1690: a date range as displayed in the one-time header. -/
def displayDateRange (dateRange : DateRange) : String :=
  dateRange.startDate.replace "-" "/" ++ "-" ++ dateRange.endDate.replace "-" "/"

/-- Lines 1657-1663: the rows that the writer selected by `selections.reportType`
writes; `writeRecurringReportToSheet` throws when a report is missing (lines
1878-1881). -/
def reportRows (host : Host α) (selections : Selections) (result : ValidationResult α) :
    Except JsError (List (List (Cell α))) :=
  if selections.reportType = "recurring" then
    match result.reports with
    | ReportData.recurring r =>
      match selections.dates.bind (fun dates => dates.recurringOption) with
      | some recurringOption =>
        pure (writeRecurringReportToSheet host.parseFloat (recurringTitle host recurringOption)
          r.report1 r.report2)
      | none => throw typeError
    | _ => throw (newError "Missing report data for recurring report")
  else
    match result.reports, result.dateRanges with
    | ReportData.oneTime report1 report2, [range1, range2] =>
      pure (writeOneTimeReportToSheet host.parseFloat (displayDateRange range1)
        (displayDateRange range2) report1 report2)
    | _, _ => throw typeError

/-- Lines 1621-1671: the body of the `try` block of `writeReportsToSheet`. -/
def writeReportsToSheetBody (host : Host α) (selections : Option Selections)
    (world : World α) : Except JsError Unit × World α :=
  match validateSelectionsAndFetchData host selections world with
  | (Except.error error, world1) => (Except.error error, world1)
  | (Except.ok result, world1) =>
    let world2 : World α :=
      { world1 with
        properties := { world1.properties with latestSheetName := some ("Report " ++ host.timeStamp) } }
    match selections with
    | none => (throw typeError, world2)
    | some selections =>
      match reportRows host selections result with
      | Except.error error => (Except.error error, world2)
      | Except.ok rows =>
        match host.sheetError rows with
        | some error => (Except.error error, world2)
        | none => (pure (), { world2 with activeSheet := rows })

/-- Lines 1620-1679: `writeReportsToSheet`. -/
def writeReportsToSheet (host : Host α) (selections : Option Selections) (world : World α) :
    RunResult × World α :=
  match writeReportsToSheetBody host selections world with
  | (Except.ok _, world1) => ({ success := true, message := "Report generated successfully" }, world1)
  | (Except.error error, world1) => ({ success := false, message := error.toString }, world1)

/-- Lines 2426-2463: `sendAnomalyEmail`.  The destructuring of line 2434 gives
`anomalyCount = undefined` when `createAnomalyReportHTML` returns the string of
line 2225, and `undefined === 0` is false. -/
def sendAnomalyEmail (host : Host α) (world : World α) : World α :=
  match createAnomalyReportHTML host.toNumber host.parseInt world.properties world.activeSheet with
  | AnomalyResult.report r =>
    if r.anomalyCount = 0 then world
    else { world with emails := world.emails ++ [AnomalyResult.report r] }
  | AnomalyResult.text html => { world with emails := world.emails ++ [AnomalyResult.text html] }

/-- The argument of `writeReportsToSheetAndSendAnomalyEmail`: nothing (`undefined`
or `null`), an event object of the scheduler (an object with the property
`day-of-month`, `triggerUid` or `authMode`), or a selections payload. -/
inductive TriggerArgument where
  | absent
  | metadata
  | selections (payload : Selections)
  deriving DecidableEq, Repr

/-- Lines 1585-1617: `writeReportsToSheetAndSendAnomalyEmail`; the returned value
is `none` for `undefined` (the function has no `return` with a value). -/
def writeReportsToSheetAndSendAnomalyEmail (host : Host α) (trigger : TriggerArgument)
    (world : World α) : Option RunResult × World α :=
  match trigger with
  | TriggerArgument.metadata =>
    match world.properties.selections with
    | none => (none, world)
    | some saved => (none, sendAnomalyEmail host (writeReportsToSheet host (some saved) world).2)
  | TriggerArgument.selections payload =>
    let world1 : World α :=
      { world with properties := { world.properties with selections := some payload } }
    (none, sendAnomalyEmail host (writeReportsToSheet host (some payload) world1).2)
  | TriggerArgument.absent =>
    (none, sendAnomalyEmail host (writeReportsToSheet host none world).2)

end Orchestration

/-! ## The sample lists as the specification describes them -/

section Samples

variable {α : Type} [LinearOrderedField α]

/-- The sample list of the cell `(key, i)` as the specification describes it: the
numeric values of metric `i` taken from the rows with dimension key `key`, in the
order of the rows. -/
def cellSamples (parseFloat : String → Option α) (dimensionCount : Nat)
    (rows : List (List String)) (key : String) (i : Nat) : List α :=
  (rows.filter (fun row => dimensionKey dimensionCount row == key)).filterMap
    (fun row => row[dimensionCount + i]?.map (fun v => parseOrZero parseFloat (some v)))

/-- The grouping of the historical rows as the specification describes it: a key
has an entry when a row has it, and the entry holds the sample list of each of the
`metricCount` metrics. -/
def groupedSamples (parseFloat : String → Option α) (dimensionCount metricCount : Nat)
    (rows : List (List String)) : String → Option (List (List α)) :=
  fun key =>
    if rows.any (fun row => dimensionKey dimensionCount row == key) then
      some ((List.range metricCount).map (cellSamples parseFloat dimensionCount rows key))
    else none

/-- The sample list that the hourly branch looks up for every metric of the key
`key`, as the pushes of lines 1226-1235 on the one shared array build it: for each
row with the key, in order, the numeric values of its `metricCount` metrics. -/
def sharedSamples (parseFloat : String → Option α) (dimensionCount metricCount : Nat)
    (rows : List (List String)) (key : String) : List α :=
  (rows.filter (fun row => dimensionKey dimensionCount row == key)).flatMap
    (fun row =>
      (List.range metricCount).map
        (fun i => parseOrZero parseFloat row[dimensionCount + i]?))

/-- The statistics of a record of `varianceData`: the record without its property
`values`, the sample list. -/
def withoutSamples (e : CellStatistics α) : CellStatistics α :=
  { e with values := none }

/-- The statistics of the object `calculatedVarianceData`: its records without
their sample lists. -/
def statisticsOf (calculated : String → Option (List (CellStatistics α))) :
    String → Option (List (CellStatistics α)) :=
  fun key => (calculated key).map (List.map withoutSamples)

/-- A record of `varianceData` without its property `zScore`, the one property
that the enhancement of the current rows assigns (line 1498). -/
def withoutZScore (e : CellStatistics α) : CellStatistics α :=
  { e with zScore := none }

/-- The test that the grouping loop of the daily branch (lines 1427-1440) passes
a historical row: a row whose key names an inherited property must have no metric
value, another row no more metric values than there are metrics. -/
def dailyRowAccepted (dimensionCount metricCount : Nat) (row : List String) : Bool :=
  if inheritedName (dimensionKey dimensionCount row) then (row.drop dimensionCount).isEmpty
  else decide ((row.drop dimensionCount).length ≤ metricCount)

/-- The rows whose dimension key names no inherited property: the rows for which
the grouping loop of the daily branch creates or extends an entry. -/
def ownKeyRows (dimensionCount : Nat) (rows : List (List String)) : List (List String) :=
  rows.filter (fun row => !inheritedName (dimensionKey dimensionCount row))

/-- The statistics of a value stored in `varianceData[r]`: its records without
their sample lists; an inherited value is kept. -/
def statisticsOfEntry : VarianceEntry α → VarianceEntry α
  | VarianceEntry.records stats => VarianceEntry.records (stats.map withoutSamples)
  | VarianceEntry.inherited name => VarianceEntry.inherited name

end Samples

/-- The historical rows that can matter for a current table: the rows of the
historical tables, in order, whose dimension key is the key of a current row. -/
def relevantRows (dimensionCount : Nat) (currentRows : List (List String))
    (historicalFetches : List (Option Report)) : List (List String) :=
  (historicalRowsOf historicalFetches).filter
    (fun row =>
      currentRows.any (fun current =>
        dimensionKey dimensionCount current == dimensionKey dimensionCount row))

/-! ## The invariant of the hourly store -/

/-- Every reference of the store is the address of an array, an address belongs
to one key only, and every array is empty: the state after lines 1210-1213. -/
structure FreshStore (store : HistoricalStore α) : Prop where
  bound : ∀ k refs a, store.byKey k = some refs → a ∈ refs → a < store.arrays.length
  separate : ∀ k k' refs refs' a, store.byKey k = some refs → store.byKey k' = some refs' →
    a ∈ refs → a ∈ refs' → k = k'
  empty : ∀ a, store.arrays.getD a [] = []

/-! ## The anomaly test of a sheet -/

section AnomalyTest

variable {α : Type} [LinearOrderedField α]

/-- The test `hasAnomaly` that the loop of `createAnomalyReportHTML` applies to the
rows of the sheet `data`, with the thresholds, the kind of report and the counts
that lines 2231-2245 derive from the properties and from the sheet. -/
def anomalousRow (toNumber : String → Option α) (parseInt : String → Option Nat)
    (properties : DocumentProperties) (data : List (List (Cell α))) (row : List (Cell α)) : Bool :=
  hasAnomaly toNumber (isRecurringHeader (data.getD 1 []))
    (detectDimensionCount parseInt (data.getD 1 []) (data.getD 2 []) properties.dimensionCount)
    (((data.getD 1 []).length
      - detectDimensionCount parseInt (data.getD 1 []) (data.getD 2 []) properties.dimensionCount) / 3)
    (numberOr toNumber properties.zScoreThreshold 3)
    (numberOr toNumber properties.varianceThreshold 10) row

end AnomalyTest

/-! ## Host functions for the concrete evaluations -/

/-- A `parseFloat` (and `Number`) for the concrete evaluations: it reads the
unsigned decimal integers and is `NaN` elsewhere. -/
def parseNatural (s : String) : Option ℚ := s.toNat?.map Nat.cast

/-- A host for the concrete evaluations: the analytics service `runReport`, a fixed
clock, dates formatted as day numbers, `Rat.sqrt`, `parseNatural` and a spreadsheet
service that raises no exception. -/
def evaluationHost (runReport : ApiRequest → Except JsError (Option ApiResponse)) : Host ℚ :=
  { runReport := runReport
    today := 20000
    currentHour := 9
    formatDate := fun day => toString day
    formatDateSlash := fun day => toString day
    timeOfDay := "09:00"
    timeStamp := "2024-10-04 09:00"
    sqrt := Rat.sqrt
    parseFloat := parseNatural
    toNumber := parseNatural
    parseInt := String.toNat?
    sheetError := fun _ => none }

/-- A state for the concrete evaluations: the property `selectedPropertyId` stored,
the given selections persisted, an empty sheet, no request and no mail. -/
def evaluationWorld (saved : Option Selections) : World ℚ :=
  { properties :=
      { selectedPropertyId := some "189677427"
        varianceThreshold := none
        zScoreThreshold := none
        metricCount := none
        dimensionCount := none
        latestSheetName := none
        selections := saved }
    requests := []
    activeSheet := []
    emails := [] }

/-- A selections payload for the concrete evaluations: browser and users, percent
threshold `10`, z-score threshold `3`. -/
def evaluationSelections (reportType : String) (recurringOption : Option String) : Selections :=
  { reportType := reportType
    dates := some
      { range1 := some { startDate := "2024-11-01", endDate := "2024-11-30" }
        range2 := some { startDate := "2024-12-01", endDate := "2024-12-31" }
        recurringOption := recurringOption }
    variance := "10"
    zScoreThreshold := some "3"
    dimensions := some ["browser"]
    metrics := some ["users"] }

/-- An analytics service for the concrete evaluations that answers every request
with one dimension header per requested dimension, in request order, one metric
header per requested metric, and one row with one value per requested dimension
and metric. -/
def echoService (request : ApiRequest) : Except JsError (Option ApiResponse) :=
  Except.ok (some
    { dimensionHeaders := request.dimensions
      metricHeaders := request.metrics
      rows := some
        [{ dimensionValues := request.dimensions.map (fun d => "value of " ++ d)
           metricValues := request.metrics.map (fun _ => "5") }]
      rowCount := 1 })

/-- A recurring sheet for the concrete evaluations: one dimension, two metrics and
three data rows; both z-scores of the first data row and one of the third exceed
`3`. -/
def evaluationSheet : List (List (Cell ℚ)) :=
  [[Cell.str "Daily Recurring Report"],
    [Cell.str "Dimensions", Cell.str "Current", Cell.str "Historical Avg", Cell.str "Z-Score",
      Cell.str "Current", Cell.str "Historical Avg", Cell.str "Z-Score"],
    [Cell.str "browser", Cell.str "users", Cell.str "users", Cell.str "users",
      Cell.str "sessions", Cell.str "sessions", Cell.str "sessions"],
    [Cell.str "Chrome", Cell.num 10, Cell.num 2, Cell.num 8, Cell.num 20, Cell.num 2, Cell.num 9],
    [Cell.str "Edge", Cell.num 5, Cell.num 5, Cell.num 0, Cell.num 7, Cell.num 7, Cell.num 0],
    [Cell.str "Safari", Cell.num 5, Cell.num 5, Cell.num 0, Cell.num 1, Cell.num 9, Cell.num (-4)]]

/-! # Theorems -/

section CellTheorems

variable {α : Type} [LinearOrderedField α]

theorem foldl_add_eq_sum (l : List α) : l.foldl (fun acc val => acc + val) 0 = l.sum := by
  rw [List.sum_eq_foldl]

theorem foldl_add_map_eq_sum {β : Type} (f : β → α) (l : List β) :
    l.foldl (fun acc val => acc + f val) 0 = (l.map f).sum := by
  rw [List.sum_eq_foldl, List.foldl_map]

theorem length_pos_of_two_le {β : Type} (S : List β) (h : 2 ≤ S.length) : S.length > 0 := by
  omega

/-- The mean of the hourly branch is the arithmetic mean of a non-empty list. -/
theorem hourlyMean_eq_sum_div (S : List α) (h : S ≠ []) :
    hourlyMean S = S.sum / (S.length : α) := by
  have hpos : S.length > 0 := List.length_pos.mpr h
  simp [hourlyMean, hpos, foldl_add_eq_sum]

/-- The mean of the daily branch is the arithmetic mean of a non-empty list. -/
theorem dailyMean_eq_sum_div (S : List α) (h : S ≠ []) :
    dailyMean S = S.sum / (S.length : α) := by
  have hpos : S.length > 0 := List.length_pos.mpr h
  simp [dailyMean, hpos, foldl_add_eq_sum]

/-- C1: in both recurring modes, for every current value `c` and every sample
list `S` of a cell whose computed standard deviation is strictly positive, the
reported z-score is `(c - mean) / stdDev`: the `zScore` of the hourly record, and
in the daily branch both the z-score pushed to the enhanced row and the `zScore`
assigned to the stored record. -/
theorem zScore_of_positive_stdDev (sqrt : α → α) (S : List α) (c : α) :
    (0 < (hourlyStatistics sqrt S c).stdDev →
      (hourlyStatistics sqrt S c).zScore
        = some ((c - (hourlyStatistics sqrt S c).historicalMean) / (hourlyStatistics sqrt S c).stdDev)) ∧
    (0 < (dailyStatistics sqrt S).stdDev →
      (dailyEnhanceCell (some (dailyStatistics sqrt S)) c).1.2
          = (c - (dailyStatistics sqrt S).historicalMean) / (dailyStatistics sqrt S).stdDev ∧
        (dailyEnhanceCell (some (dailyStatistics sqrt S)) c).2.bind (fun e => e.zScore)
          = some ((c - (dailyStatistics sqrt S).historicalMean) / (dailyStatistics sqrt S).stdDev)) := by
  refine ⟨fun h => ?_, fun h => ?_⟩
  · simp only [hourlyStatistics] at h
    simp [hourlyStatistics, hourlyZScore, h, isFinite, isNaN]
  · simp only [dailyStatistics] at h
    simp [dailyEnhanceCell, dailyStatistics, dailyZScore, h, isFinite, isNaN]

/-- Witness of C1: samples `[1, 3]` and current value `5`, with `Rat.sqrt`. -/
theorem zScore_of_positive_stdDev_witness :
    (0 < (hourlyStatistics Rat.sqrt [1, 3] (5 : ℚ)).stdDev ∧
      (hourlyStatistics Rat.sqrt [1, 3] (5 : ℚ)).zScore
        = some ((5 - (hourlyStatistics Rat.sqrt [1, 3] (5 : ℚ)).historicalMean)
            / (hourlyStatistics Rat.sqrt [1, 3] (5 : ℚ)).stdDev)) ∧
    (0 < (dailyStatistics Rat.sqrt [(1 : ℚ), 3]).stdDev ∧
      (dailyEnhanceCell (some (dailyStatistics Rat.sqrt [(1 : ℚ), 3])) 5).1.2
        = (5 - (dailyStatistics Rat.sqrt [(1 : ℚ), 3]).historicalMean)
            / (dailyStatistics Rat.sqrt [(1 : ℚ), 3]).stdDev) :=
  ⟨⟨by decide!, (zScore_of_positive_stdDev Rat.sqrt [1, 3] (5 : ℚ)).1 (by decide!)⟩,
    ⟨by decide!, ((zScore_of_positive_stdDev Rat.sqrt [1, 3] (5 : ℚ)).2 (by decide!)).1⟩⟩

/-- C2: in both recurring modes, for a cell whose computed standard deviation is
`0` (in particular one with at least one historical sample), the reported z-score
is `+10` when the current value is greater than the historical mean, `-10` when it
is smaller and `0` when it equals the mean; with a square root that maps `0` to
`0`, current `10` against history `[5, 5, 5, 5]` gives `+10` and current `5` gives
`0`. -/
theorem zScore_of_zero_stdDev (sqrt : α → α) (S : List α) (c : α) :
    ((hourlyStatistics sqrt S c).stdDev = 0 →
      (hourlyStatistics sqrt S c).zScore
        = some (if c > (hourlyStatistics sqrt S c).historicalMean then 10
            else if c < (hourlyStatistics sqrt S c).historicalMean then -10 else 0)) ∧
    ((dailyStatistics sqrt S).stdDev = 0 →
      (dailyEnhanceCell (some (dailyStatistics sqrt S)) c).1.2
        = (if c > (dailyStatistics sqrt S).historicalMean then 10
            else if c < (dailyStatistics sqrt S).historicalMean then -10 else 0)) ∧
    (sqrt 0 = 0 →
      (hourlyStatistics sqrt [5, 5, 5, 5] 10).zScore = some 10 ∧
      (hourlyStatistics sqrt [5, 5, 5, 5] 5).zScore = some 0 ∧
      (dailyEnhanceCell (some (dailyStatistics sqrt [5, 5, 5, 5])) 10).1.2 = 10 ∧
      (dailyEnhanceCell (some (dailyStatistics sqrt [5, 5, 5, 5])) 5).1.2 = 0) := by
  refine ⟨fun h => ?_, fun h => ?_, fun h0 => ?_⟩
  · simp only [hourlyStatistics] at h
    simp only [hourlyStatistics, hourlyZScore, h, lt_irrefl, if_false]
    rcases lt_trichotomy c (hourlyMean S) with hlt | heq | hgt
    · simp [hlt, hlt.ne, not_lt.mpr hlt.le]
    · simp [heq]
    · simp [hgt, hgt.ne', not_lt.mpr hgt.le]
  · simp only [dailyStatistics] at h
    simp only [dailyEnhanceCell, dailyStatistics, dailyZScore, h, lt_irrefl, if_false]
    rcases lt_trichotomy c (dailyMean S) with hlt | heq | hgt
    · simp [hlt, hlt.ne, not_lt.mpr hlt.le, isFinite, isNaN]
    · simp [heq, isFinite, isNaN]
    · simp [hgt, hgt.ne', not_lt.mpr hgt.le, isFinite, isNaN]
  · have hm : hourlyMean ([5, 5, 5, 5] : List α) = 5 := by
      norm_num [hourlyMean]
    have hd : dailyMean ([5, 5, 5, 5] : List α) = 5 := by
      norm_num [dailyMean]
    have hs : hourlyStdDev sqrt ([5, 5, 5, 5] : List α) = 0 := by
      norm_num [hourlyStdDev, hm, h0]
    have hds : dailyStdDev sqrt ([5, 5, 5, 5] : List α) = 0 := by
      norm_num [dailyStdDev, hd, h0]
    refine ⟨?_, ?_, ?_, ?_⟩
    · norm_num [hourlyStatistics, hourlyZScore, hm, hs]
    · norm_num [hourlyStatistics, hourlyZScore, hm, hs]
    · norm_num [dailyEnhanceCell, dailyStatistics, dailyZScore, hd, hds, isFinite, isNaN]
    · norm_num [dailyEnhanceCell, dailyStatistics, dailyZScore, hd, hds, isFinite, isNaN]

/-- Witness of C2: history `[5, 5, 5, 5]` with `Rat.sqrt`, current value `10`. -/
theorem zScore_of_zero_stdDev_witness :
    (hourlyStatistics Rat.sqrt [5, 5, 5, 5] (10 : ℚ)).stdDev = 0 ∧
    (hourlyStatistics Rat.sqrt [5, 5, 5, 5] (10 : ℚ)).zScore
      = some (if (10 : ℚ) > (hourlyStatistics Rat.sqrt [5, 5, 5, 5] (10 : ℚ)).historicalMean then 10
          else if (10 : ℚ) < (hourlyStatistics Rat.sqrt [5, 5, 5, 5] (10 : ℚ)).historicalMean then -10
          else 0) ∧
    (dailyStatistics Rat.sqrt [(5 : ℚ), 5, 5, 5]).stdDev = 0 ∧
    Rat.sqrt 0 = 0 ∧
    (hourlyStatistics Rat.sqrt [5, 5, 5, 5] (10 : ℚ)).zScore = some 10 :=
  ⟨by decide!, (zScore_of_zero_stdDev Rat.sqrt [5, 5, 5, 5] (10 : ℚ)).1 (by decide!),
    by decide!, by decide!,
    ((zScore_of_zero_stdDev Rat.sqrt [5, 5, 5, 5] (10 : ℚ)).2.2 (by decide!)).1⟩

/-- C3: in hourly recurring mode, for every sample list `S` used for a cell, the
reported `stdDev` is the sample standard deviation
`sqrt (sum ((x - mean S) ^ 2) / (len S - 1))` when `S` has at least two samples,
and `0` when it has fewer than two. -/
theorem hourly_stdDev_sample_formula (sqrt : α → α) (S : List α) (c : α) :
    (2 ≤ S.length →
      (hourlyStatistics sqrt S c).stdDev
        = sqrt ((S.map (fun x => (x - S.sum / (S.length : α)) ^ 2)).sum / ((S.length : α) - 1))) ∧
    (S.length < 2 → (hourlyStatistics sqrt S c).stdDev = 0) := by
  refine ⟨fun h => ?_, fun h => ?_⟩
  · have hne : S ≠ [] := by
      intro h0
      simp [h0] at h
    have h1 : S.length > 1 := by omega
    simp only [hourlyStatistics, hourlyStdDev, h1, if_true, hourlyMean_eq_sum_div S hne]
    congr 2
    rw [foldl_add_map_eq_sum]
    congr 1
    apply List.map_congr_left
    intro x _
    ring
  · have h1 : ¬ S.length > 1 := by omega
    simp [hourlyStatistics, hourlyStdDev, h1]

theorem hourly_stdDev_sample_formula_witness :
    (2 ≤ ([0, 2, 4] : List ℚ).length ∧
      (hourlyStatistics Rat.sqrt [0, 2, 4] (5 : ℚ)).stdDev
        = Rat.sqrt ((([0, 2, 4] : List ℚ).map
            (fun x => (x - ([0, 2, 4] : List ℚ).sum / (([0, 2, 4] : List ℚ).length : ℚ)) ^ 2)).sum
              / ((([0, 2, 4] : List ℚ).length : ℚ) - 1))) ∧
    (([7] : List ℚ).length < 2 ∧ (hourlyStatistics Rat.sqrt [7] (5 : ℚ)).stdDev = 0) :=
  ⟨⟨by decide, (hourly_stdDev_sample_formula Rat.sqrt [0, 2, 4] (5 : ℚ)).1 (by decide)⟩,
    ⟨by decide, (hourly_stdDev_sample_formula Rat.sqrt [7] (5 : ℚ)).2 (by decide)⟩⟩

/-- C5: in hourly recurring mode, for every current value `c` and historical mean
`m` of a cell, the reported `variancePercent` is `(c - m) / m * 100` when `m` is
not `0`, `100` when `m` is `0` and `c` is not `0`, and `0` when both are `0`. -/
theorem hourly_variancePercent_cases (sqrt : α → α) (S : List α) (c : α) :
    ((hourlyStatistics sqrt S c).historicalMean ≠ 0 →
      (hourlyStatistics sqrt S c).variancePercent
        = some ((c - (hourlyStatistics sqrt S c).historicalMean)
            / (hourlyStatistics sqrt S c).historicalMean * 100)) ∧
    ((hourlyStatistics sqrt S c).historicalMean = 0 → c ≠ 0 →
      (hourlyStatistics sqrt S c).variancePercent = some 100) ∧
    ((hourlyStatistics sqrt S c).historicalMean = 0 → c = 0 →
      (hourlyStatistics sqrt S c).variancePercent = some 0) := by
  refine ⟨fun h => ?_, fun h hc => ?_, fun h hc => ?_⟩
  · simp only [hourlyStatistics] at h
    simp [hourlyStatistics, hourlyVariancePercent, h]
  · simp only [hourlyStatistics] at h
    simp [hourlyStatistics, hourlyVariancePercent, h, hc]
  · simp only [hourlyStatistics] at h
    simp [hourlyStatistics, hourlyVariancePercent, h, hc]

theorem hourly_variancePercent_cases_witness :
    ((hourlyStatistics Rat.sqrt [1, 3] (5 : ℚ)).historicalMean ≠ 0 ∧
      (hourlyStatistics Rat.sqrt [1, 3] (5 : ℚ)).variancePercent = some 150) ∧
    ((hourlyStatistics Rat.sqrt [] (5 : ℚ)).historicalMean = 0 ∧ (5 : ℚ) ≠ 0 ∧
      (hourlyStatistics Rat.sqrt [] (5 : ℚ)).variancePercent = some 100) ∧
    ((hourlyStatistics Rat.sqrt [] (0 : ℚ)).historicalMean = 0 ∧ (0 : ℚ) = 0 ∧
      (hourlyStatistics Rat.sqrt [] (0 : ℚ)).variancePercent = some 0) :=
  ⟨⟨by decide!, by
      have h := (hourly_variancePercent_cases Rat.sqrt [1, 3] (5 : ℚ)).1 (by decide!)
      rw [h]; decide!⟩,
    ⟨by decide!, by decide!, (hourly_variancePercent_cases Rat.sqrt [] (5 : ℚ)).2.1 (by decide!) (by decide!)⟩,
    ⟨by decide!, rfl, (hourly_variancePercent_cases Rat.sqrt [] (0 : ℚ)).2.2 (by decide!) rfl⟩⟩

end CellTheorems

section DailyTheorems

variable {α : Type} [LinearOrderedField α]

theorem cellSamples_append (parseFloat : String → Option α) (dc : Nat)
    (pre : List (List String)) (row : List String) (key : String) (i : Nat) :
    cellSamples parseFloat dc (pre ++ [row]) key i
      = cellSamples parseFloat dc pre key i ++
        (if dimensionKey dc row = key then
          (row[dc + i]?.map (fun v => parseOrZero parseFloat (some v))).toList
        else []) := by
  unfold cellSamples
  rw [List.filter_append, List.filterMap_append]
  congr 1
  by_cases h : dimensionKey dc row = key
  · simp only [h, if_true]
    rw [List.filter_cons_of_pos (by simp [h])]
    cases hrow : row[dc + i]? <;> simp [List.filterMap_cons, hrow]
  · simp only [h, if_false]
    rw [List.filter_cons_of_neg (by simp [h])]
    simp

theorem cellSamples_of_no_row (parseFloat : String → Option α) (dc : Nat)
    (rows : List (List String)) (key : String) (i : Nat)
    (h : rows.any (fun row => dimensionKey dc row == key) = false) :
    cellSamples parseFloat dc rows key i = [] := by
  unfold cellSamples
  have : rows.filter (fun row => dimensionKey dc row == key) = [] := by
    rw [List.filter_eq_nil_iff]
    intro r hr
    have := List.any_eq_false.mp h r hr
    simpa using this
  rw [this]
  rfl

/-- The pushes of one row (lines 1437-1439) succeed when the row has no more
metric values than there are arrays, and append value `i` to array `i`. -/
theorem dailyPush_enumFrom (parseFloat : String → Option α) :
    ∀ (metricValues : List String) (n : Nat) (arrays : List (List α)),
      n + metricValues.length ≤ arrays.length →
      ∃ arrays' : List (List α),
        (metricValues.enumFrom n).foldlM
          (fun arrs p =>
            match arrs[p.1]? with
            | some _ =>
              (pure (arrs.modify (fun array => array ++ [parseOrZero parseFloat (some p.2)]) p.1) :
                Except JsError (List (List α)))
            | none => throw typeError)
          arrays = Except.ok arrays' ∧
        arrays'.length = arrays.length ∧
        ∀ i, arrays'[i]? = arrays[i]?.map
          (fun a => a ++ (if n ≤ i then
            (metricValues[i - n]?.map (fun v => parseOrZero parseFloat (some v))).toList else [])) := by
  intro metricValues
  induction metricValues with
  | nil =>
    intro n arrays _
    refine ⟨arrays, rfl, rfl, fun i => ?_⟩
    cases arrays[i]? <;> simp
  | cons v rest ih =>
    intro n arrays h
    simp only [List.length_cons] at h
    have hn : n < arrays.length := by omega
    obtain ⟨a0, ha0⟩ : ∃ a0, arrays[n]? = some a0 := ⟨arrays[n], List.getElem?_eq_getElem hn⟩
    obtain ⟨arrays', hfold, hlen, hget⟩ :=
      ih (n + 1) (arrays.modify (fun array => array ++ [parseOrZero parseFloat (some v)]) n)
        (by rw [List.length_modify]; omega)
    refine ⟨arrays', ?_, ?_, fun i => ?_⟩
    · rw [List.enumFrom_cons, List.foldlM_cons]
      simp only [ha0]
      exact hfold
    · rw [hlen, List.length_modify]
    · rw [hget i, List.getElem?_modify]
      cases hi : arrays[i]? with
      | none => simp
      | some a =>
        simp only [Option.map_eq_map, Option.map_some', Option.some.injEq]
        by_cases h1 : n = i
        · subst h1
          simp
        · by_cases h2 : n + 1 ≤ i
          · have h3 : n ≤ i := by omega
            have h4 : i - n = (i - (n + 1)) + 1 := by omega
            simp [h1, h2, h3, h4]
          · have h3 : ¬ n ≤ i := by omega
            simp [h1, h2, h3]

/-- One historical row whose key names no inherited property: the entry of the
key is created when it is missing, then the metric values are pushed. -/
theorem dailyCollectRow_of_own (parseFloat : String → Option α) (dc mc : Nat)
    (historicalData : String → Option (List (List α))) (row : List String)
    (hown : inheritedName (dimensionKey dc row) = false) :
    dailyCollectRow parseFloat dc mc historicalData row
      = (dailyPushMetrics parseFloat
          (match historicalData (dimensionKey dc row) with
            | some arrays => arrays
            | none => List.replicate mc [])
          (row.drop dc)).map
        (fun arrays => Function.update historicalData (dimensionKey dc row) (some arrays)) := by
  unfold dailyCollectRow
  simp only [hown, Bool.false_eq_true, if_false]
  cases hdata : historicalData (dimensionKey dc row) with
  | none => rfl
  | some arrays => rfl

/-- One historical row (lines 1427-1440) whose key names no inherited property
takes the grouping of the rows before it to the grouping that includes it. -/
theorem dailyCollectRow_grouped (parseFloat : String → Option α) (dc mc : Nat)
    (pre : List (List String)) (row : List String) (hrow : (row.drop dc).length ≤ mc)
    (hown : inheritedName (dimensionKey dc row) = false) :
    dailyCollectRow parseFloat dc mc (groupedSamples parseFloat dc mc pre) row
      = Except.ok (groupedSamples parseFloat dc mc (pre ++ [row])) := by
  have harr : (match groupedSamples parseFloat dc mc pre (dimensionKey dc row) with
      | some arrays => arrays
      | none => List.replicate mc [])
      = (List.range mc).map (cellSamples parseFloat dc pre (dimensionKey dc row)) := by
    unfold groupedSamples
    by_cases hany : pre.any (fun r => dimensionKey dc r == dimensionKey dc row) = true
    · simp only [hany, if_true]
    · have hany' : pre.any (fun r => dimensionKey dc r == dimensionKey dc row) = false := by
        simpa using hany
      simp only [hany', Bool.false_eq_true, if_false]
      apply List.ext_getElem?
      intro n
      rw [List.getElem?_replicate, List.getElem?_map]
      by_cases hn : n < mc
      · simp [hn, List.getElem?_range hn, cellSamples_of_no_row parseFloat dc pre _ _ hany']
      · simp [hn, List.getElem?_eq_none (l := List.range mc) (by simpa using hn)]
  obtain ⟨arrays', hfold, hlen, hget⟩ :=
    dailyPush_enumFrom parseFloat (row.drop dc) 0
      ((List.range mc).map (cellSamples parseFloat dc pre (dimensionKey dc row)))
      (by simpa using hrow)
  rw [dailyCollectRow_of_own parseFloat dc mc _ row hown]
  unfold dailyPushMetrics
  simp only [harr, List.enum]
  rw [hfold]
  simp only [Except.map]
  congr 1
  funext key
  by_cases hk : key = dimensionKey dc row
  · subst hk
    rw [Function.update_same]
    unfold groupedSamples
    have hany : (pre ++ [row]).any (fun r => dimensionKey dc r == dimensionKey dc row) = true := by
      simp
    simp only [hany, if_true, Option.some.injEq]
    apply List.ext_getElem?
    intro n
    rw [hget n, List.getElem?_map, List.getElem?_map]
    cases hr : (List.range mc)[n]? with
    | none => simp
    | some m =>
      have hm : m = n := by
        have hlt : n < (List.range mc).length := by
          by_contra hc
          rw [List.getElem?_eq_none (by omega)] at hr
          exact Option.noConfusion hr
        rw [List.getElem?_eq_getElem hlt] at hr
        simpa using hr.symm
      subst hm
      simp [cellSamples_append, List.getElem?_drop]
  · rw [Function.update_noteq hk]
    unfold groupedSamples
    have hne : dimensionKey dc row ≠ key := fun h => hk h.symm
    have hany : (pre ++ [row]).any (fun r => dimensionKey dc r == key)
        = pre.any (fun r => dimensionKey dc r == key) := by
      simp [List.any_append, hne]
    rw [hany]
    split
    · congr 1
      apply List.map_congr_left
      intro i _
      rw [cellSamples_append]
      simp [hne]
    · rfl

/-- The loop over the historical rows (lines 1427-1440) succeeds on rows that have
no more metric values than `metricCount` and whose keys name no inherited
property, and groups the rows as specified. -/
theorem foldlM_dailyCollectRow (parseFloat : String → Option α) (dc mc : Nat) :
    ∀ (rows pre : List (List String)), (∀ row ∈ rows, (row.drop dc).length ≤ mc) →
      (∀ row ∈ rows, inheritedName (dimensionKey dc row) = false) →
      rows.foldlM (dailyCollectRow parseFloat dc mc) (groupedSamples parseFloat dc mc pre)
        = Except.ok (groupedSamples parseFloat dc mc (pre ++ rows)) := by
  intro rows
  induction rows with
  | nil => intro pre _ _; simp [pure, Except.pure]
  | cons row rest ih =>
    intro pre h hown
    rw [List.foldlM_cons, dailyCollectRow_grouped parseFloat dc mc pre row
      (h row (List.mem_cons_self _ _)) (hown row (List.mem_cons_self _ _))]
    have := ih (pre ++ [row]) (fun r hr => h r (List.mem_cons_of_mem _ hr))
      (fun r hr => hown r (List.mem_cons_of_mem _ hr))
    simp only [List.append_assoc, List.singleton_append] at this
    exact this

theorem dailyHistoricalData_eq_grouped (parseFloat : String → Option α) (dc mc : Nat)
    (rows : List (List String)) (h : ∀ row ∈ rows, (row.drop dc).length ≤ mc)
    (hown : ∀ row ∈ rows, inheritedName (dimensionKey dc row) = false) :
    dailyHistoricalData parseFloat dc mc rows = Except.ok (groupedSamples parseFloat dc mc rows) := by
  have := foldlM_dailyCollectRow parseFloat dc mc rows [] h hown
  simpa [dailyHistoricalData, groupedSamples] using this

theorem cellSamples_ne_nil (parseFloat : String → Option α) (dc : Nat)
    (rows : List (List String)) (row : List String) (hrow : row ∈ rows) (i : Nat)
    (hi : dc + i < row.length) :
    cellSamples parseFloat dc rows (dimensionKey dc row) i ≠ [] := by
  have hmem : parseOrZero parseFloat (some row[dc + i])
      ∈ cellSamples parseFloat dc rows (dimensionKey dc row) i := by
    unfold cellSamples
    rw [List.mem_filterMap]
    refine ⟨row, ?_, ?_⟩
    · rw [List.mem_filter]
      exact ⟨hrow, by simp⟩
    · rw [List.getElem?_eq_getElem hi]
      rfl
  exact List.ne_nil_of_mem hmem

/-- The standard deviation of the daily branch is the population formula on a
non-empty list. -/
theorem dailyStdDev_eq_population (sqrt : α → α) (S : List α) (h : S ≠ []) :
    dailyStdDev sqrt S
      = sqrt ((S.map (fun x => (x - S.sum / (S.length : α)) ^ 2)).sum / (S.length : α)) := by
  have hpos : S.length > 0 := List.length_pos.mpr h
  simp [dailyStdDev, dailyMean_eq_sum_div S h, hpos, foldl_add_eq_sum]

/-- C4, as amended: in daily recurring mode, when the historical rows have the
requested width and none of their dimension keys names a property inherited from
`Object.prototype`, for every dimension key that occurs in the historical rows
and every metric index `i`, the loop over the historical rows succeeds and the
record stored in `calculatedVarianceData` for the cell holds the cell's sample
list `S` (the values of metric `i` of the rows with that key, in order, which is
not empty), its arithmetic mean as `historicalMean` and the population standard
deviation `sqrt (sum ((x - mean S) ^ 2) / len S)` as `stdDev`. -/
theorem daily_mean_and_population_stdDev (sqrt : α → α) (parseFloat : String → Option α)
    (dimensionCount metricCount : Nat) (historicalRows : List (List String))
    (hwidth : ∀ row ∈ historicalRows, row.length = dimensionCount + metricCount)
    (hown : ∀ row ∈ historicalRows, inheritedName (dimensionKey dimensionCount row) = false)
    (row : List String) (hrow : row ∈ historicalRows) (i : Nat) (hi : i < metricCount) :
    ∃ historicalData stats e S,
      dailyHistoricalData parseFloat dimensionCount metricCount historicalRows
        = Except.ok historicalData ∧
      dailyCalculatedVarianceData sqrt historicalData (dimensionKey dimensionCount row) = some stats ∧
      stats[i]? = some e ∧
      S = cellSamples parseFloat dimensionCount historicalRows (dimensionKey dimensionCount row) i ∧
      S ≠ [] ∧
      e.values = some S ∧
      e.historicalMean = S.sum / (S.length : α) ∧
      e.stdDev = sqrt ((S.map (fun x => (x - S.sum / (S.length : α)) ^ 2)).sum / (S.length : α)) := by
  have hle : ∀ r ∈ historicalRows, (r.drop dimensionCount).length ≤ metricCount := by
    intro r hr
    rw [List.length_drop, hwidth r hr]
    omega
  have hne : cellSamples parseFloat dimensionCount historicalRows (dimensionKey dimensionCount row) i
      ≠ [] :=
    cellSamples_ne_nil parseFloat dimensionCount historicalRows row hrow i
      (by rw [hwidth row hrow]; omega)
  have hany : historicalRows.any
      (fun r => dimensionKey dimensionCount r == dimensionKey dimensionCount row) = true := by
    rw [List.any_eq_true]
    exact ⟨row, hrow, by simp⟩
  refine ⟨groupedSamples parseFloat dimensionCount metricCount historicalRows,
    ((List.range metricCount).map
      (cellSamples parseFloat dimensionCount historicalRows (dimensionKey dimensionCount row))).map
        (dailyStatistics sqrt),
    dailyStatistics sqrt
      (cellSamples parseFloat dimensionCount historicalRows (dimensionKey dimensionCount row) i),
    cellSamples parseFloat dimensionCount historicalRows (dimensionKey dimensionCount row) i,
    dailyHistoricalData_eq_grouped parseFloat dimensionCount metricCount historicalRows hle hown,
    ?_, ?_, rfl, hne, rfl, dailyMean_eq_sum_div _ hne, dailyStdDev_eq_population sqrt _ hne⟩
  · simp [dailyCalculatedVarianceData, groupedSamples, hany]
  · simp [List.getElem?_map, List.getElem?_range hi]

/-- Witness of C4: two historical rows of key `Chrome` with samples `1` and `3`. -/
theorem daily_mean_and_population_stdDev_witness :
    (∀ row ∈ ([["Chrome", "1"], ["Chrome", "3"]] : List (List String)), row.length = 1 + 1) ∧
    (∀ row ∈ ([["Chrome", "1"], ["Chrome", "3"]] : List (List String)),
      inheritedName (dimensionKey 1 row) = false) ∧
    ∃ historicalData stats e S,
      dailyHistoricalData parseNatural 1 1 [["Chrome", "1"], ["Chrome", "3"]]
        = Except.ok historicalData ∧
      dailyCalculatedVarianceData Rat.sqrt historicalData (dimensionKey 1 ["Chrome", "1"]) = some stats ∧
      stats[0]? = some e ∧
      S = cellSamples parseNatural 1 [["Chrome", "1"], ["Chrome", "3"]] (dimensionKey 1 ["Chrome", "1"]) 0 ∧
      S ≠ [] ∧
      e.values = some S ∧
      e.historicalMean = S.sum / (S.length : ℚ) ∧
      e.stdDev = Rat.sqrt ((S.map (fun x => (x - S.sum / (S.length : ℚ)) ^ 2)).sum / (S.length : ℚ)) :=
  ⟨by decide, by decide,
    daily_mean_and_population_stdDev Rat.sqrt parseNatural 1 1 [["Chrome", "1"], ["Chrome", "3"]]
      (by decide) (by decide) ["Chrome", "1"] (by decide) 0 (by decide)⟩

/-- C6, the code at the failing input: with two metrics, current table
`[["Chrome", "10", "100"]]` and one historical table `[["Chrome", "1", "2"]]`, the
sample list that the hourly branch looks up for the cell `("Chrome", 0)` is
`[1, 2]` and the one for `("Chrome", 1)` is the same list, both metrics sharing
one array, whereas the values of metric `0` in the rows with that key are `[1]`;
the reported historical mean of metric `0` is `3/2`. -/
theorem hourly_samples_shared_between_metrics :
    historicalValues
        (collectReports parseNatural 1 2 (initStore 1 2 [["Chrome", "10", "100"]])
          [some ⟨["browser", "activeUsers", "eventCount"], ["browser"], [["Chrome", "1", "2"]], 1⟩])
        "Chrome" 0 = [1, 2] ∧
    historicalValues
        (collectReports parseNatural 1 2 (initStore 1 2 [["Chrome", "10", "100"]])
          [some ⟨["browser", "activeUsers", "eventCount"], ["browser"], [["Chrome", "1", "2"]], 1⟩])
        "Chrome" 1 = [1, 2] ∧
    cellSamples parseNatural 1 [["Chrome", "1", "2"]] "Chrome" 0 = [1] ∧
    ((hourlyBranch Rat.sqrt parseNatural ["browser"] ["activeUsers", "eventCount"]
        [some ⟨["browser", "activeUsers", "eventCount"], ["browser"], [["Chrome", "1", "2"]], 1⟩]
        (some ⟨["browser", "activeUsers", "eventCount"], ["browser"], [["Chrome", "10", "100"]], 1⟩)
      ).report2.varianceData[0]?.join.bind (fun entry => entry.recordAt 0)).map
        (fun e => e.historicalMean) = some (3 / 2) := by
  refine ⟨?_, ?_, ?_, ?_⟩ <;> decide!

end DailyTheorems

section StoreTheorems

variable {α : Type}

/-! ## Hourly branch: the store of historical samples -/

theorem freshStore_initRow (dc mc : Nat) (store : HistoricalStore α) (row : List String)
    (h : FreshStore store) : FreshStore (initRow dc mc store row) := by
  have hupd : ∀ k refs a, (initRow dc mc store row).byKey k = some refs → a ∈ refs →
      (k = dimensionKey dc row ∧ a = store.arrays.length) ∨
        (k ≠ dimensionKey dc row ∧ store.byKey k = some refs) := by
    intro k refs a hk ha
    by_cases hkey : k = dimensionKey dc row
    · left
      subst hkey
      simp only [initRow, Function.update_same, Option.some.injEq] at hk
      subst hk
      exact ⟨rfl, (List.mem_replicate.mp ha).2⟩
    · right
      simp only [initRow, Function.update_noteq hkey] at hk
      exact ⟨hkey, hk⟩
  refine ⟨?_, ?_, ?_⟩
  · intro k refs a hk ha
    have hlen : (initRow dc mc store row).arrays.length = store.arrays.length + 1 := by
      simp [initRow]
    rw [hlen]
    rcases hupd k refs a hk ha with ⟨_, h2⟩ | ⟨_, h2⟩
    · omega
    · have := h.bound k refs a h2 ha
      omega
  · intro k k' refs refs' a hk hk' ha ha'
    rcases hupd k refs a hk ha with ⟨h1, h2⟩ | ⟨h1, h2⟩ <;>
      rcases hupd k' refs' a hk' ha' with ⟨h1', h2'⟩ | ⟨h1', h2'⟩
    · rw [h1, h1']
    · have := h.bound k' refs' a h2' ha'
      omega
    · have := h.bound k refs a h2 ha
      omega
    · exact h.separate k k' refs refs' a h2 h2' ha ha'
  · intro a
    simp only [initRow, List.getD_eq_getElem?_getD]
    by_cases ha : a < store.arrays.length
    · rw [List.getElem?_append_left ha]
      have := h.empty a
      rwa [List.getD_eq_getElem?_getD] at this
    · rw [List.getElem?_append_right (by omega)]
      cases hx : ([[]] : List (List α))[a - store.arrays.length]? with
      | none => rfl
      | some x =>
        have hmem := List.getElem?_mem hx
        simp only [List.mem_singleton] at hmem
        simp [hmem]

theorem freshStore_foldl_initRow (dc mc : Nat) (rows : List (List String)) :
    ∀ store : HistoricalStore α, FreshStore store →
      FreshStore (rows.foldl (initRow dc mc) store) := by
  induction rows with
  | nil => intro store h; exact h
  | cons row rest ih =>
    intro store h
    exact ih _ (freshStore_initRow dc mc store row h)

theorem freshStore_initStore (dc mc : Nat) (rows : List (List String)) :
    FreshStore (initStore dc mc rows : HistoricalStore α) := by
  apply freshStore_foldl_initRow
  refine ⟨?_, ?_, ?_⟩
  · intro k refs a hk
    exact Option.noConfusion hk
  · intro k k' refs refs' a hk
    exact Option.noConfusion hk
  · intro a
    rfl

theorem foldl_initRow_isSome (dc mc : Nat) (rows : List (List String)) :
    ∀ (store : HistoricalStore α) (k : String),
      (store.byKey k).isSome = true ∨ (∃ row ∈ rows, dimensionKey dc row = k) →
      ((rows.foldl (initRow dc mc) store).byKey k).isSome = true := by
  induction rows with
  | nil =>
    intro store k h
    rcases h with h | ⟨row, hrow, _⟩
    · exact h
    · cases hrow
  | cons row rest ih =>
    intro store k h
    apply ih
    by_cases hk : dimensionKey dc row = k
    · left
      subst hk
      simp [initRow]
    · rcases h with h | ⟨row', hrow', hkey⟩
      · left
        have hne : k ≠ dimensionKey dc row := fun h => hk h.symm
        simpa [initRow, Function.update_noteq hne] using h
      · rcases List.mem_cons.mp hrow' with h1 | h1
        · subst h1
          exact absurd hkey hk
        · right
          exact ⟨row', h1, hkey⟩

theorem pushAt_getD_of_ne (store : HistoricalStore α) (addr a : Nat) (v : α) (h : addr ≠ a) :
    (pushAt store addr v).arrays.getD a [] = store.arrays.getD a [] := by
  simp only [pushAt, List.getD_eq_getElem?_getD, List.getElem?_modify]
  cases store.arrays[a]? <;> simp [h]

/-- The pushes of one historical row at the references `refs` leave `byKey` and
every array that `refs` does not refer to unchanged. -/
theorem foldl_push_frame (refs : List Nat) (value : Nat → α) (a : Nat) (ha : a ∉ refs) :
    ∀ (indices : List Nat) (store : HistoricalStore α),
      (indices.foldl
        (fun st metricIndex =>
          match refs[metricIndex]? with
          | some addr => pushAt st addr (value metricIndex)
          | none => st) store).byKey = store.byKey ∧
      (indices.foldl
        (fun st metricIndex =>
          match refs[metricIndex]? with
          | some addr => pushAt st addr (value metricIndex)
          | none => st) store).arrays.getD a [] = store.arrays.getD a [] := by
  intro indices
  induction indices with
  | nil => intro store; exact ⟨rfl, rfl⟩
  | cons i rest ih =>
    intro store
    simp only [List.foldl_cons]
    cases hr : refs[i]? with
    | none => exact ih store
    | some addr =>
      have hne : addr ≠ a := by
        intro h
        subst h
        exact ha (List.getElem?_mem hr)
      obtain ⟨h1, h2⟩ := ih (pushAt store addr (value i))
      exact ⟨h1.trans rfl, h2.trans (pushAt_getD_of_ne store addr a (value i) hne)⟩

theorem foldl_initRow_none (dc mc : Nat) (rows : List (List String)) :
    ∀ (store : HistoricalStore α) (k : String), store.byKey k = none →
      (∀ row ∈ rows, dimensionKey dc row ≠ k) →
      (rows.foldl (initRow dc mc) store).byKey k = none := by
  induction rows with
  | nil => intro store k h _; exact h
  | cons row rest ih =>
    intro store k h hrows
    rw [List.foldl_cons]
    apply ih
    · have hne : k ≠ dimensionKey dc row := fun hk => hrows row (List.mem_cons_self _ _) hk.symm
      simp only [initRow, Function.update_noteq hne]
      exact h
    · exact fun r hr => hrows r (List.mem_cons_of_mem _ hr)

theorem pushAt_getD_same (store : HistoricalStore α) (a : Nat) (v : α)
    (ha : a < store.arrays.length) :
    (pushAt store a v).arrays.getD a [] = store.arrays.getD a [] ++ [v] := by
  simp only [pushAt, List.getD_eq_getElem?_getD, List.getElem?_modify,
    List.getElem?_eq_getElem ha]
  simp

theorem pushAt_length (store : HistoricalStore α) (a : Nat) (v : α) :
    (pushAt store a v).arrays.length = store.arrays.length := by
  simp [pushAt]

/-- The pushes of one historical row leave the number of array objects unchanged. -/
theorem foldl_push_length (refs : List Nat) (value : Nat → α) :
    ∀ (indices : List Nat) (store : HistoricalStore α),
      (indices.foldl
        (fun st metricIndex =>
          match refs[metricIndex]? with
          | some addr => pushAt st addr (value metricIndex)
          | none => st) store).arrays.length = store.arrays.length := by
  intro indices
  induction indices with
  | nil => intro store; rfl
  | cons i rest ih =>
    intro store
    rw [List.foldl_cons, ih]
    cases refs[i]? with
    | none => rfl
    | some addr => exact pushAt_length store addr _

/-- The pushes of one historical row through references that all point to the
array object `a` append the values of the row, in order, to that array. -/
theorem foldl_push_shared (mc a : Nat) (value : Nat → α) :
    ∀ (indices : List Nat) (store : HistoricalStore α), (∀ i ∈ indices, i < mc) →
      a < store.arrays.length →
      (indices.foldl
        (fun st metricIndex =>
          match (List.replicate mc a)[metricIndex]? with
          | some addr => pushAt st addr (value metricIndex)
          | none => st) store).arrays.getD a []
        = store.arrays.getD a [] ++ indices.map value := by
  intro indices
  induction indices with
  | nil => intro store _ _; simp
  | cons i rest ih =>
    intro store hi ha
    rw [List.foldl_cons]
    have hlt : i < mc := hi i (List.mem_cons_self _ _)
    rw [List.getElem?_replicate_of_lt hlt]
    simp only
    rw [ih (pushAt store a (value i)) (fun j hj => hi j (List.mem_cons_of_mem _ hj))
      (by rw [pushAt_length]; exact ha), pushAt_getD_same store a (value i) ha]
    simp

/-- After the initialisation loop the array of references of a key holds
`metricCount` references to one array object. -/
theorem foldl_initRow_shape (dc mc : Nat) (rows : List (List String)) :
    ∀ store : HistoricalStore α,
      (∀ k refs, store.byKey k = some refs → ∃ a, refs = List.replicate mc a) →
      ∀ k refs, (rows.foldl (initRow dc mc) store).byKey k = some refs →
        ∃ a, refs = List.replicate mc a := by
  induction rows with
  | nil => intro store h; exact h
  | cons row rest ih =>
    intro store h
    rw [List.foldl_cons]
    apply ih
    intro k refs hk
    by_cases hkey : k = dimensionKey dc row
    · subst hkey
      simp only [initRow, Function.update_same, Option.some.injEq] at hk
      exact ⟨_, hk.symm⟩
    · simp only [initRow, Function.update_noteq hkey] at hk
      exact h k refs hk

theorem initStore_shape (dc mc : Nat) (rows : List (List String)) :
    ∀ k refs, (initStore dc mc rows : HistoricalStore α).byKey k = some refs →
      ∃ a, refs = List.replicate mc a := by
  apply foldl_initRow_shape
  intro k refs hk
  exact Option.noConfusion hk

/-- The record at an index of the value looked up for a key is the record of the
own property: an inherited value has no record. -/
theorem dailyLookup_recordAt (calculated : String → Option (List (CellStatistics α)))
    (key : String) (i : Nat) :
    (dailyLookup calculated key).bind (fun value => value.recordAt i)
      = (calculated key).bind (fun stats => stats[i]?) := by
  unfold dailyLookup
  cases calculated key with
  | some stats => rfl
  | none =>
    simp only [Option.none_bind]
    split
    · rfl
    · rfl

end StoreTheorems

section HourlyTheorems

variable {α : Type} [LinearOrderedField α]

theorem collectRow_byKey (parseFloat : String → Option α) (dc mc : Nat)
    (store : HistoricalStore α) (row : List String) :
    (collectRow parseFloat dc mc store row).byKey = store.byKey := by
  unfold collectRow
  cases hk : store.byKey (dimensionKey dc row) with
  | none => rfl
  | some refs =>
    simp only
    induction (List.range mc) generalizing store with
    | nil => rfl
    | cons i rest ih =>
      simp only [List.foldl_cons]
      cases refs[i]? with
      | none => exact ih store hk
      | some addr =>
        simp only
        rw [ih (pushAt store addr _) hk]
        rfl

/-- Lines 1218-1237: a historical row leaves every array unchanged that its key
does not refer to. -/
theorem collectRow_getD (parseFloat : String → Option α) (dc mc : Nat)
    (store : HistoricalStore α) (row : List String) (a : Nat)
    (ha : ∀ refs, store.byKey (dimensionKey dc row) = some refs → a ∉ refs) :
    (collectRow parseFloat dc mc store row).arrays.getD a [] = store.arrays.getD a [] := by
  unfold collectRow
  cases hk : store.byKey (dimensionKey dc row) with
  | none => rfl
  | some refs =>
    exact (foldl_push_frame refs (fun i => parseOrZero parseFloat row[dc + i]?) a (ha refs hk)
      (List.range mc) store).2

theorem foldl_collectRow_frame (parseFloat : String → Option α) (dc mc : Nat) (a : Nat) :
    ∀ (rows : List (List String)) (store : HistoricalStore α),
      (∀ row ∈ rows, ∀ refs, store.byKey (dimensionKey dc row) = some refs → a ∉ refs) →
      (rows.foldl (collectRow parseFloat dc mc) store).byKey = store.byKey ∧
      (rows.foldl (collectRow parseFloat dc mc) store).arrays.getD a [] = store.arrays.getD a [] := by
  intro rows
  induction rows with
  | nil => intro store _; exact ⟨rfl, rfl⟩
  | cons row rest ih =>
    intro store h
    simp only [List.foldl_cons]
    have hb := collectRow_byKey parseFloat dc mc store row
    obtain ⟨h1, h2⟩ := ih (collectRow parseFloat dc mc store row) (by
      intro r hr refs hrefs
      rw [hb] at hrefs
      exact h r (List.mem_cons_of_mem _ hr) refs hrefs)
    exact ⟨h1.trans hb, h2.trans
      (collectRow_getD parseFloat dc mc store row a (h row (List.mem_cons_self _ _)))⟩

/-- Lines 1216-1239: the collection leaves `byKey` unchanged, and leaves unchanged
every array that the keys of the historical rows do not refer to. -/
theorem collectReports_frame (parseFloat : String → Option α) (dc mc : Nat) (a : Nat) :
    ∀ (reports : List (Option Report)) (store : HistoricalStore α),
      (∀ report ∈ reports, ∀ r, report = some r → ∀ row ∈ r.rows,
        ∀ refs, store.byKey (dimensionKey dc row) = some refs → a ∉ refs) →
      (collectReports parseFloat dc mc store reports).byKey = store.byKey ∧
      (collectReports parseFloat dc mc store reports).arrays.getD a [] = store.arrays.getD a [] := by
  intro reports
  induction reports with
  | nil => intro store _; exact ⟨rfl, rfl⟩
  | cons report rest ih =>
    intro store h
    have hstep : ∃ st : HistoricalStore α,
        collectReports parseFloat dc mc store (report :: rest)
          = collectReports parseFloat dc mc st rest ∧
        st.byKey = store.byKey ∧ st.arrays.getD a [] = store.arrays.getD a [] := by
      cases report with
      | none => exact ⟨store, rfl, rfl, rfl⟩
      | some r =>
        by_cases hlen : r.rows.length > 0
        · refine ⟨r.rows.foldl (collectRow parseFloat dc mc) store, ?_, ?_⟩
          · simp [collectReports, hlen]
          · exact foldl_collectRow_frame parseFloat dc mc a r.rows store
              (fun row hrow => h (some r) (List.mem_cons_self _ _) r rfl row hrow)
        · refine ⟨store, ?_, rfl, rfl⟩
          simp [collectReports, hlen]
    obtain ⟨st, heq, hb, hg⟩ := hstep
    obtain ⟨h1, h2⟩ := ih st (by
      intro rep hrep r hr row hrow refs hrefs
      rw [hb] at hrefs
      exact h rep (List.mem_cons_of_mem _ hrep) r hr row hrow refs hrefs)
    rw [heq]
    exact ⟨h1.trans hb, h2.trans hg⟩

theorem foldl_collectRow_byKey (parseFloat : String → Option α) (dc mc : Nat) :
    ∀ (rows : List (List String)) (store : HistoricalStore α),
      (rows.foldl (collectRow parseFloat dc mc) store).byKey = store.byKey := by
  intro rows
  induction rows with
  | nil => intro store; rfl
  | cons row rest ih =>
    intro store
    simp only [List.foldl_cons]
    rw [ih, collectRow_byKey]

theorem collectReports_byKey (parseFloat : String → Option α) (dc mc : Nat) :
    ∀ (reports : List (Option Report)) (store : HistoricalStore α),
      (collectReports parseFloat dc mc store reports).byKey = store.byKey := by
  intro reports
  induction reports with
  | nil => intro store; rfl
  | cons report rest ih =>
    intro store
    have hcons : ∀ st, collectReports parseFloat dc mc st (report :: rest)
        = collectReports parseFloat dc mc
            (match report with
              | some r =>
                if r.rows.length > 0 then r.rows.foldl (collectRow parseFloat dc mc) st else st
              | none => st) rest := fun st => rfl
    rw [hcons, ih]
    cases report with
    | none => rfl
    | some r =>
      simp only
      split
      · exact foldl_collectRow_byKey parseFloat dc mc r.rows store
      · rfl

/-- Line 1253 after the collection: a current key that no historical row has
keeps empty sample lists. -/
theorem historicalValues_of_absent_key (parseFloat : String → Option α) (dc mc : Nat)
    (currentRows : List (List String)) (reports : List (Option Report)) (key : String)
    (habsent : ∀ report ∈ reports, ∀ r, report = some r → ∀ row ∈ r.rows,
      dimensionKey dc row ≠ key) (i : Nat) :
    historicalValues (collectReports parseFloat dc mc (initStore dc mc currentRows) reports) key i
      = [] := by
  have hfresh : FreshStore (initStore dc mc currentRows : HistoricalStore α) :=
    freshStore_initStore dc mc currentRows
  unfold historicalValues
  rw [collectReports_byKey]
  cases hk : (initStore dc mc currentRows : HistoricalStore α).byKey key with
  | none => rfl
  | some refs =>
    simp only
    cases hr : refs[i]? with
    | none => rfl
    | some addr =>
      simp only
      have hmem : addr ∈ refs := List.getElem?_mem hr
      rw [(collectReports_frame parseFloat dc mc addr reports (initStore dc mc currentRows) (by
        intro report hrep r hr' row hrow refs' hrefs' hin
        have := hfresh.separate key (dimensionKey dc row) refs refs' addr hk hrefs' hmem hin
        exact habsent report hrep r hr' row hrow this.symm)).2]
      exact hfresh.empty addr

/-- A loop that stores `f row` under the key of each row leaves, under the key of
a row of the list, the value of a row of the list with that key. -/
theorem foldl_update_lookup {β : Type} (key : List String → String) (f : List String → β)
    (rows : List (List String)) :
    ∀ (init : String → Option β) (k : String), (∃ row ∈ rows, key row = k) →
      ∃ row' ∈ rows, key row' = k ∧
        (rows.foldl (fun calculated row => Function.update calculated (key row) (some (f row)))
          init) k = some (f row') := by
  induction rows using List.reverseRecOn with
  | nil =>
    intro init k h
    obtain ⟨row, hrow, _⟩ := h
    cases hrow
  | append_singleton rest last ih =>
    intro init k h
    rw [List.foldl_append]
    simp only [List.foldl_cons, List.foldl_nil]
    by_cases hk : key last = k
    · refine ⟨last, by simp, hk, ?_⟩
      rw [← hk, Function.update_same]
    · obtain ⟨row, hrow, hkey⟩ := h
      have hrest : ∃ row ∈ rest, key row = k := by
        rcases List.mem_append.mp hrow with h1 | h1
        · exact ⟨row, h1, hkey⟩
        · simp only [List.mem_singleton] at h1
          subst h1
          exact absurd hkey hk
      obtain ⟨row', hrow', hkey', hval⟩ := ih init k hrest
      refine ⟨row', List.mem_append_left _ hrow', hkey', ?_⟩
      rw [Function.update_noteq (fun h => hk h.symm)]
      exact hval

/-- A loop that stores `f row` under the key of each row leaves, under the key of
a row of the list, the value of the last row of the list with that key. -/
theorem foldl_update_last {β : Type} (key : List String → String) (f : List String → β)
    (rows : List (List String)) :
    ∀ (init : String → Option β) (k : String), (∃ row ∈ rows, key row = k) →
      ∃ (before : List (List String)) (row' : List String) (after : List (List String)),
        rows = before ++ row' :: after ∧ key row' = k ∧ (∀ other ∈ after, key other ≠ k) ∧
        (rows.foldl (fun calculated row => Function.update calculated (key row) (some (f row)))
          init) k = some (f row') := by
  induction rows using List.reverseRecOn with
  | nil =>
    intro init k h
    obtain ⟨row, hrow, _⟩ := h
    cases hrow
  | append_singleton rest last ih =>
    intro init k h
    rw [List.foldl_append]
    simp only [List.foldl_cons, List.foldl_nil]
    by_cases hk : key last = k
    · refine ⟨rest, last, [], rfl, hk, fun other hother => absurd hother (List.not_mem_nil other), ?_⟩
      rw [← hk, Function.update_same]
    · obtain ⟨row, hrow, hkey⟩ := h
      have hrest : ∃ row ∈ rest, key row = k := by
        rcases List.mem_append.mp hrow with h1 | h1
        · exact ⟨row, h1, hkey⟩
        · simp only [List.mem_singleton] at h1
          subst h1
          exact absurd hkey hk
      obtain ⟨before, row', after, hsplit, hkey', hafter, hval⟩ := ih init k hrest
      refine ⟨before, row', after ++ [last], ?_, hkey', ?_, ?_⟩
      · rw [hsplit]
        simp
      · intro other hother
        rcases List.mem_append.mp hother with h1 | h1
        · exact hafter other h1
        · simp only [List.mem_singleton] at h1
          subst h1
          exact hk
      · rw [Function.update_noteq (fun h => hk h.symm)]
        exact hval

theorem enum_map_of_snd {β γ : Type} (g : β → γ) (l : List β) :
    l.enum.map (fun p => g p.2) = l.map g := by
  have h : l.enum.map (fun p => g p.2) = (l.enum.map Prod.snd).map g := by
    rw [List.map_map]
    rfl
  rw [h, List.enum_map_snd]

/-- The record of a cell without historical samples (lines 1255-1300 on an empty
sample list). -/
theorem hourlyStatistics_nil (sqrt : α → α) (c : α) :
    hourlyStatistics sqrt [] c =
      { currentValue := some c
        historicalMean := 0
        stdDev := 0
        zScore := some (if c = 0 then 0 else if c > 0 then 10 else -10)
        variancePercent := some (if c = 0 then 0 else 100)
        values := none } := by
  by_cases hc : c = 0
  · simp [hourlyStatistics, hourlyMean, hourlyStdDev, hourlyZScore, hourlyVariancePercent, hc]
  · simp [hourlyStatistics, hourlyMean, hourlyStdDev, hourlyZScore, hourlyVariancePercent, hc]

/-- The current table of the hourly branch: the fetched one when it has rows, the
placeholder otherwise (lines 1182-1197). -/
theorem hourlyBranch_report1 (sqrt : α → α) (parseFloat : String → Option α)
    (dimensions metrics : List String) (historicalFetches : List (Option Report))
    (currentFetch : Option Report) :
    (hourlyBranch sqrt parseFloat dimensions metrics historicalFetches currentFetch).report1
      = (match currentFetch with
          | some report =>
            if report.rows.length = 0 then placeholderReport dimensions metrics else report
          | none => placeholderReport dimensions metrics) := rfl

/-- The `varianceData` of the hourly branch at a row index: the statistics of a
current row with the same key. -/
theorem hourlyBranch_varianceData (sqrt : α → α) (parseFloat : String → Option α)
    (dimensions metrics : List String) (historicalFetches : List (Option Report))
    (currentFetch : Option Report) (r : Nat) (row : List String)
    (hrow : (hourlyBranch sqrt parseFloat dimensions metrics historicalFetches
      currentFetch).report1.rows[r]? = some row) :
    ∃ row' ∈ (hourlyBranch sqrt parseFloat dimensions metrics historicalFetches
        currentFetch).report1.rows,
      dimensionKey dimensions.length row' = dimensionKey dimensions.length row ∧
      (hourlyBranch sqrt parseFloat dimensions metrics historicalFetches
        currentFetch).report2.varianceData[r]?
        = some (some (VarianceEntry.records (rowStatistics sqrt parseFloat dimensions.length
            (collectReports parseFloat dimensions.length metrics.length
              (initStore dimensions.length metrics.length
                (hourlyBranch sqrt parseFloat dimensions metrics historicalFetches
                  currentFetch).report1.rows)
              (historicalFetches.map (fun report => if hasRows report then report else none)))
            row'))) := by
  have hmem := List.getElem?_mem hrow
  obtain ⟨row', hrow', hkey, hval⟩ :=
    foldl_update_lookup (dimensionKey dimensions.length)
      (rowStatistics sqrt parseFloat dimensions.length
        (collectReports parseFloat dimensions.length metrics.length
          (initStore dimensions.length metrics.length
            (hourlyBranch sqrt parseFloat dimensions metrics historicalFetches
              currentFetch).report1.rows)
          (historicalFetches.map (fun report => if hasRows report then report else none))))
      (hourlyBranch sqrt parseFloat dimensions metrics historicalFetches currentFetch).report1.rows
      (fun _ => none) (dimensionKey dimensions.length row) ⟨row, hmem, rfl⟩
  refine ⟨row', hrow', hkey, ?_⟩
  have hvd : (hourlyBranch sqrt parseFloat dimensions metrics historicalFetches
      currentFetch).report2.varianceData
      = (hourlyBranch sqrt parseFloat dimensions metrics historicalFetches
          currentFetch).report1.rows.map
        (fun row => (hourlyCalculatedVarianceData sqrt parseFloat dimensions.length
          (collectReports parseFloat dimensions.length metrics.length
            (initStore dimensions.length metrics.length
              (hourlyBranch sqrt parseFloat dimensions metrics historicalFetches
                currentFetch).report1.rows)
            (historicalFetches.map (fun report => if hasRows report then report else none)))
          (hourlyBranch sqrt parseFloat dimensions metrics historicalFetches
            currentFetch).report1.rows
          (dimensionKey dimensions.length row)).map VarianceEntry.records) := rfl
  rw [hvd, List.getElem?_map, hrow]
  simp only [Option.map_some']
  exact congrArg (fun stats => some (Option.map VarianceEntry.records stats)) hval

/-- The `varianceData` of the hourly branch at a row index: the statistics of the
last current row with the same key, each current row overwriting the entry of its
key (line 1319). -/
theorem hourlyBranch_varianceData_last (sqrt : α → α) (parseFloat : String → Option α)
    (dimensions metrics : List String) (historicalFetches : List (Option Report))
    (currentFetch : Option Report) (r : Nat) (row : List String)
    (hrow : (hourlyBranch sqrt parseFloat dimensions metrics historicalFetches
      currentFetch).report1.rows[r]? = some row) :
    ∃ (before : List (List String)) (row' : List String) (after : List (List String)),
      (hourlyBranch sqrt parseFloat dimensions metrics historicalFetches
        currentFetch).report1.rows = before ++ row' :: after ∧
      dimensionKey dimensions.length row' = dimensionKey dimensions.length row ∧
      (∀ other ∈ after,
        dimensionKey dimensions.length other ≠ dimensionKey dimensions.length row) ∧
      (hourlyBranch sqrt parseFloat dimensions metrics historicalFetches
        currentFetch).report2.varianceData[r]?
        = some (some (VarianceEntry.records (rowStatistics sqrt parseFloat dimensions.length
            (collectReports parseFloat dimensions.length metrics.length
              (initStore dimensions.length metrics.length
                (hourlyBranch sqrt parseFloat dimensions metrics historicalFetches
                  currentFetch).report1.rows)
              (historicalFetches.map (fun report => if hasRows report then report else none)))
            row'))) := by
  have hmem := List.getElem?_mem hrow
  obtain ⟨before, row', after, hsplit, hkey, hafter, hval⟩ :=
    foldl_update_last (dimensionKey dimensions.length)
      (rowStatistics sqrt parseFloat dimensions.length
        (collectReports parseFloat dimensions.length metrics.length
          (initStore dimensions.length metrics.length
            (hourlyBranch sqrt parseFloat dimensions metrics historicalFetches
              currentFetch).report1.rows)
          (historicalFetches.map (fun report => if hasRows report then report else none))))
      (hourlyBranch sqrt parseFloat dimensions metrics historicalFetches currentFetch).report1.rows
      (fun _ => none) (dimensionKey dimensions.length row) ⟨row, hmem, rfl⟩
  refine ⟨before, row', after, hsplit, hkey, hafter, ?_⟩
  have hvd : (hourlyBranch sqrt parseFloat dimensions metrics historicalFetches
      currentFetch).report2.varianceData
      = (hourlyBranch sqrt parseFloat dimensions metrics historicalFetches
          currentFetch).report1.rows.map
        (fun row => (hourlyCalculatedVarianceData sqrt parseFloat dimensions.length
          (collectReports parseFloat dimensions.length metrics.length
            (initStore dimensions.length metrics.length
              (hourlyBranch sqrt parseFloat dimensions metrics historicalFetches
                currentFetch).report1.rows)
            (historicalFetches.map (fun report => if hasRows report then report else none)))
          (hourlyBranch sqrt parseFloat dimensions metrics historicalFetches
            currentFetch).report1.rows
          (dimensionKey dimensions.length row)).map VarianceEntry.records) := rfl
  rw [hvd, List.getElem?_map, hrow]
  simp only [Option.map_some']
  exact congrArg (fun stats => some (Option.map VarianceEntry.records stats)) hval

end HourlyTheorems

section EnhanceTheorems

variable {α : Type} [LinearOrderedField α]

/-! ## Daily branch: the enhancement of the current rows -/

/-- The enhancement of one metric value in terms of the own properties of
`calculatedVarianceData`. -/
theorem dailyEnhanceMetric_eq (parseFloat : String → Option α) (key : String)
    (acc : List (Cell α) × (String → Option (List (CellStatistics α)))) (p : Nat × String) :
    dailyEnhanceMetric parseFloat key acc p
      = (let currentValueNum := parseOrZero parseFloat (some p.2)
        let entry := (acc.2 key).bind (fun stats => stats[p.1]?)
        let result := dailyEnhanceCell entry currentValueNum
        let calculated' :=
          match result.2 with
          | some e => Function.update acc.2 key ((acc.2 key).map (fun stats => stats.set p.1 e))
          | none => acc.2
        (acc.1 ++ [Cell.num currentValueNum, Cell.num result.1.1, Cell.num result.1.2],
          calculated')) := by
  unfold dailyEnhanceMetric
  simp only [dailyLookup_recordAt]

theorem dailyEnhanceMetric_other (parseFloat : String → Option α) (key : String)
    (acc : List (Cell α) × (String → Option (List (CellStatistics α)))) (p : Nat × String)
    (k : String) (hk : k ≠ key) :
    (dailyEnhanceMetric parseFloat key acc p).2 k = acc.2 k := by
  rw [dailyEnhanceMetric_eq]
  simp only
  split
  · rw [Function.update_noteq hk]
  · rfl

theorem dailyEnhanceMetric_congr (parseFloat : String → Option α) (key : String)
    (acc1 acc2 : List (Cell α) × (String → Option (List (CellStatistics α)))) (p : Nat × String)
    (h1 : acc1.1 = acc2.1) (h2 : acc1.2 key = acc2.2 key) :
    (dailyEnhanceMetric parseFloat key acc1 p).1 = (dailyEnhanceMetric parseFloat key acc2 p).1 ∧
    (dailyEnhanceMetric parseFloat key acc1 p).2 key
      = (dailyEnhanceMetric parseFloat key acc2 p).2 key := by
  rw [dailyEnhanceMetric_eq, dailyEnhanceMetric_eq]
  simp only [h1, h2]
  refine ⟨trivial, ?_⟩
  cases (dailyEnhanceCell ((acc2.2 key).bind fun stats => stats[p.1]?)
      (parseOrZero parseFloat (some p.2))).2 with
  | none => exact h2
  | some e => simp only [Function.update_same]

theorem dailyEnhanceMetric_isSome (parseFloat : String → Option α) (key : String)
    (acc : List (Cell α) × (String → Option (List (CellStatistics α)))) (p : Nat × String)
    (k : String) :
    ((dailyEnhanceMetric parseFloat key acc p).2 k).isSome = (acc.2 k).isSome := by
  by_cases hk : k = key
  · subst hk
    rw [dailyEnhanceMetric_eq]
    simp only
    split
    · rw [Function.update_same]
      cases acc.2 k <;> rfl
    · rfl
  · rw [dailyEnhanceMetric_other parseFloat key acc p k hk]

theorem dailyEnhanceMetric_none (parseFloat : String → Option α) (key : String)
    (acc : List (Cell α) × (String → Option (List (CellStatistics α)))) (p : Nat × String)
    (h : acc.2 key = none) :
    dailyEnhanceMetric parseFloat key acc p
      = (acc.1 ++ [Cell.num (parseOrZero parseFloat (some p.2)), Cell.num 0, Cell.num 0], acc.2) := by
  rw [dailyEnhanceMetric_eq]
  simp [h, dailyEnhanceCell]

theorem foldl_dailyEnhanceMetric_other (parseFloat : String → Option α) (key : String)
    (k : String) (hk : k ≠ key) (l : List (Nat × String)) :
    ∀ acc : List (Cell α) × (String → Option (List (CellStatistics α))),
      (l.foldl (dailyEnhanceMetric parseFloat key) acc).2 k = acc.2 k := by
  induction l with
  | nil => intro acc; rfl
  | cons p rest ih =>
    intro acc
    rw [List.foldl_cons, ih, dailyEnhanceMetric_other parseFloat key acc p k hk]

theorem foldl_dailyEnhanceMetric_congr (parseFloat : String → Option α) (key : String)
    (l : List (Nat × String)) :
    ∀ acc1 acc2 : List (Cell α) × (String → Option (List (CellStatistics α))),
      acc1.1 = acc2.1 → acc1.2 key = acc2.2 key →
      (l.foldl (dailyEnhanceMetric parseFloat key) acc1).1
        = (l.foldl (dailyEnhanceMetric parseFloat key) acc2).1 ∧
      (l.foldl (dailyEnhanceMetric parseFloat key) acc1).2 key
        = (l.foldl (dailyEnhanceMetric parseFloat key) acc2).2 key := by
  induction l with
  | nil => intro acc1 acc2 h1 h2; exact ⟨h1, h2⟩
  | cons p rest ih =>
    intro acc1 acc2 h1 h2
    rw [List.foldl_cons, List.foldl_cons]
    obtain ⟨h1', h2'⟩ := dailyEnhanceMetric_congr parseFloat key acc1 acc2 p h1 h2
    exact ih _ _ h1' h2'

theorem foldl_dailyEnhanceMetric_isSome (parseFloat : String → Option α) (key : String)
    (k : String) (l : List (Nat × String)) :
    ∀ acc : List (Cell α) × (String → Option (List (CellStatistics α))),
      ((l.foldl (dailyEnhanceMetric parseFloat key) acc).2 k).isSome = (acc.2 k).isSome := by
  induction l with
  | nil => intro acc; rfl
  | cons p rest ih =>
    intro acc
    rw [List.foldl_cons, ih, dailyEnhanceMetric_isSome]

theorem foldl_dailyEnhanceMetric_none (parseFloat : String → Option α) (key : String)
    (l : List (Nat × String)) :
    ∀ acc : List (Cell α) × (String → Option (List (CellStatistics α))),
      acc.2 key = none →
      l.foldl (dailyEnhanceMetric parseFloat key) acc
        = (acc.1 ++ l.flatMap
            (fun p => [Cell.num (parseOrZero parseFloat (some p.2)), Cell.num 0, Cell.num 0]),
          acc.2) := by
  induction l with
  | nil => intro acc _; simp
  | cons p rest ih =>
    intro acc h
    rw [List.foldl_cons, dailyEnhanceMetric_none parseFloat key acc p h]
    rw [ih (acc.1 ++ [Cell.num (parseOrZero parseFloat (some p.2)), Cell.num 0, Cell.num 0], acc.2) h]
    simp [List.flatMap_cons]

theorem enum_flatMap_of_snd {β γ : Type} (g : β → List γ) (l : List β) :
    l.enum.flatMap (fun p => g p.2) = l.flatMap g := by
  have h : l.enum.flatMap (fun p => g p.2) = (l.enum.map Prod.snd).flatMap g := by
    rw [List.flatMap_map]
  rw [h, List.enum_map_snd]

/-- Lines 1469-1504 for a row whose key has no record: every metric gets the
current value, mean `0` and z-score `0`, and the object is unchanged. -/
theorem dailyEnhanceRow_none (parseFloat : String → Option α) (dc : Nat)
    (calculated : String → Option (List (CellStatistics α))) (row : List String)
    (h : calculated (dimensionKey dc row) = none) :
    dailyEnhanceRow parseFloat dc calculated row
      = ((row.take dc).map Cell.str ++ (row.drop dc).flatMap
          (fun v => [Cell.num (parseOrZero parseFloat (some v)), Cell.num 0, Cell.num 0]),
        calculated) := by
  unfold dailyEnhanceRow
  simp only
  rw [foldl_dailyEnhanceMetric_none parseFloat _ _ _ h]
  simp only
  rw [enum_flatMap_of_snd
    (fun v => [Cell.num (parseOrZero parseFloat (some v)), Cell.num 0, Cell.num 0])]

theorem dailyEnhanceRow_isSome (parseFloat : String → Option α) (dc : Nat)
    (calculated : String → Option (List (CellStatistics α))) (row : List String) (k : String) :
    ((dailyEnhanceRow parseFloat dc calculated row).2 k).isSome = (calculated k).isSome := by
  unfold dailyEnhanceRow
  exact foldl_dailyEnhanceMetric_isSome parseFloat _ k _ _

theorem dailyEnhanceRow_other (parseFloat : String → Option α) (dc : Nat)
    (calculated : String → Option (List (CellStatistics α))) (row : List String) (k : String)
    (hk : k ≠ dimensionKey dc row) :
    (dailyEnhanceRow parseFloat dc calculated row).2 k = calculated k := by
  unfold dailyEnhanceRow
  exact foldl_dailyEnhanceMetric_other parseFloat _ k hk _ _

theorem dailyEnhanceRow_congr (parseFloat : String → Option α) (dc : Nat)
    (calculated1 calculated2 : String → Option (List (CellStatistics α))) (row : List String)
    (h : calculated1 (dimensionKey dc row) = calculated2 (dimensionKey dc row)) :
    (dailyEnhanceRow parseFloat dc calculated1 row).1
      = (dailyEnhanceRow parseFloat dc calculated2 row).1 ∧
    (dailyEnhanceRow parseFloat dc calculated1 row).2 (dimensionKey dc row)
      = (dailyEnhanceRow parseFloat dc calculated2 row).2 (dimensionKey dc row) := by
  unfold dailyEnhanceRow
  exact foldl_dailyEnhanceMetric_congr parseFloat _ _ _ _ rfl h

theorem dailyEnhanceRows_cons_aux (parseFloat : String → Option α) (dc : Nat)
    (rows : List (List String)) :
    ∀ (out : List (List (Cell α))) (calculated : String → Option (List (CellStatistics α))),
      rows.foldl
          (fun acc row =>
            ((acc.1 ++ [(dailyEnhanceRow parseFloat dc acc.2 row).1],
              (dailyEnhanceRow parseFloat dc acc.2 row).2) :
              List (List (Cell α)) × (String → Option (List (CellStatistics α)))))
          (out, calculated)
        = (out ++ (dailyEnhanceRows parseFloat dc calculated rows).1,
            (dailyEnhanceRows parseFloat dc calculated rows).2) := by
  induction rows with
  | nil => intro out calculated; simp [dailyEnhanceRows]
  | cons row rest ih =>
    intro out calculated
    have h1 := ih (out ++ [(dailyEnhanceRow parseFloat dc calculated row).1])
      (dailyEnhanceRow parseFloat dc calculated row).2
    have h2 := ih ([] ++ [(dailyEnhanceRow parseFloat dc calculated row).1])
      (dailyEnhanceRow parseFloat dc calculated row).2
    simp only [List.foldl_cons]
    unfold dailyEnhanceRows
    simp only [List.foldl_cons]
    rw [h1, h2]
    simp

/-- The loop over the current rows, unfolded at its first row. -/
theorem dailyEnhanceRows_cons (parseFloat : String → Option α) (dc : Nat)
    (calculated : String → Option (List (CellStatistics α))) (row : List String)
    (rest : List (List String)) :
    dailyEnhanceRows parseFloat dc calculated (row :: rest)
      = ((dailyEnhanceRow parseFloat dc calculated row).1 ::
          (dailyEnhanceRows parseFloat dc (dailyEnhanceRow parseFloat dc calculated row).2 rest).1,
        (dailyEnhanceRows parseFloat dc (dailyEnhanceRow parseFloat dc calculated row).2 rest).2) := by
  have h := dailyEnhanceRows_cons_aux parseFloat dc rest
    ([] ++ [(dailyEnhanceRow parseFloat dc calculated row).1])
    (dailyEnhanceRow parseFloat dc calculated row).2
  unfold dailyEnhanceRows at h ⊢
  simp only [List.foldl_cons]
  rw [h]
  simp

theorem dailyEnhanceRows_nil (parseFloat : String → Option α) (dc : Nat)
    (calculated : String → Option (List (CellStatistics α))) :
    dailyEnhanceRows parseFloat dc calculated [] = ([], calculated) := rfl

theorem dailyEnhanceRows_isSome (parseFloat : String → Option α) (dc : Nat) (k : String)
    (rows : List (List String)) :
    ∀ calculated : String → Option (List (CellStatistics α)),
      ((dailyEnhanceRows parseFloat dc calculated rows).2 k).isSome = (calculated k).isSome := by
  induction rows with
  | nil => intro calculated; rfl
  | cons row rest ih =>
    intro calculated
    rw [dailyEnhanceRows_cons]
    simp only
    rw [ih, dailyEnhanceRow_isSome]

/-- The enhanced row of a current row whose key has no record holds, per metric,
the current value, mean `0` and z-score `0`. -/
theorem dailyEnhanceRows_none (parseFloat : String → Option α) (dc : Nat)
    (rows : List (List String)) :
    ∀ (calculated : String → Option (List (CellStatistics α))) (r : Nat) (row : List String),
      rows[r]? = some row → calculated (dimensionKey dc row) = none →
      (dailyEnhanceRows parseFloat dc calculated rows).1[r]?
        = some ((row.take dc).map Cell.str ++ (row.drop dc).flatMap
            (fun v => [Cell.num (parseOrZero parseFloat (some v)), Cell.num 0, Cell.num 0])) := by
  induction rows with
  | nil => intro calculated r row h; simp at h
  | cons first rest ih =>
    intro calculated r row h hnone
    rw [dailyEnhanceRows_cons]
    cases r with
    | zero =>
      simp only [List.getElem?_cons_zero, Option.some.injEq] at h
      subst h
      simp only [List.getElem?_cons_zero]
      rw [dailyEnhanceRow_none parseFloat dc calculated first hnone]
    | succ r =>
      simp only [List.getElem?_cons_succ] at h ⊢
      apply ih _ r row h
      have h1 := dailyEnhanceRow_isSome parseFloat dc calculated first (dimensionKey dc row)
      rw [hnone] at h1
      cases hx : (dailyEnhanceRow parseFloat dc calculated first).2 (dimensionKey dc row) with
      | none => rfl
      | some x => rw [hx] at h1; simp at h1

theorem dailyEnhanceRows_length (parseFloat : String → Option α) (dc : Nat)
    (rows : List (List String)) :
    ∀ calculated : String → Option (List (CellStatistics α)),
      (dailyEnhanceRows parseFloat dc calculated rows).1.length = rows.length := by
  induction rows with
  | nil => intro calculated; rfl
  | cons row rest ih =>
    intro calculated
    rw [dailyEnhanceRows_cons]
    simp [ih]

/-- The enhancement reads and writes the object only at the keys of the current
rows: two objects that agree on a set of keys containing them give the same
enhanced rows and objects that agree on the set. -/
theorem dailyEnhanceRows_congr (parseFloat : String → Option α) (dc : Nat)
    (K : String → Prop) (rows : List (List String)) :
    (∀ row ∈ rows, K (dimensionKey dc row)) →
    ∀ calculated1 calculated2 : String → Option (List (CellStatistics α)),
      (∀ k, K k → calculated1 k = calculated2 k) →
      (dailyEnhanceRows parseFloat dc calculated1 rows).1
        = (dailyEnhanceRows parseFloat dc calculated2 rows).1 ∧
      ∀ k, K k → (dailyEnhanceRows parseFloat dc calculated1 rows).2 k
        = (dailyEnhanceRows parseFloat dc calculated2 rows).2 k := by
  induction rows with
  | nil => intro _ calculated1 calculated2 h; exact ⟨rfl, h⟩
  | cons row rest ih =>
    intro hK calculated1 calculated2 h
    rw [dailyEnhanceRows_cons, dailyEnhanceRows_cons]
    obtain ⟨h1, h2⟩ := dailyEnhanceRow_congr parseFloat dc calculated1 calculated2 row
      (h _ (hK row (List.mem_cons_self _ _)))
    have hagree : ∀ k, K k → (dailyEnhanceRow parseFloat dc calculated1 row).2 k
        = (dailyEnhanceRow parseFloat dc calculated2 row).2 k := by
      intro k hk
      by_cases hkey : k = dimensionKey dc row
      · rw [hkey]; exact h2
      · rw [dailyEnhanceRow_other parseFloat dc calculated1 row k hkey,
          dailyEnhanceRow_other parseFloat dc calculated2 row k hkey]
        exact h k hk
    obtain ⟨h3, h4⟩ := ih (fun r hr => hK r (List.mem_cons_of_mem _ hr)) _ _ hagree
    exact ⟨by simp only [h1, h3], h4⟩

theorem mem_historicalRowsOf (historicalFetches : List (Option Report)) (row : List String) :
    row ∈ historicalRowsOf historicalFetches ↔
      ∃ report ∈ historicalFetches, ∃ r, report = some r ∧ row ∈ r.rows := by
  unfold historicalRowsOf
  rw [List.mem_flatMap]
  constructor
  · rintro ⟨report, hrep, hrow⟩
    cases report with
    | none => simp at hrow
    | some r =>
      refine ⟨some r, hrep, r, rfl, ?_⟩
      simp only at hrow
      split at hrow
      · exact hrow
      · simp at hrow
  · rintro ⟨report, hrep, r, hr, hrow⟩
    subst hr
    refine ⟨some r, hrep, ?_⟩
    have hlen : r.rows.length > 0 := List.length_pos_of_mem hrow
    simp only [hlen, if_true]
    exact hrow

/-- The daily branch succeeds when the current table has rows and no historical
row has more metric values than there are metrics or a key that names an
inherited property; its result is the enhancement of the current rows against the
grouped historical rows. -/
theorem dailyBranch_ok (sqrt : α → α) (parseFloat : String → Option α)
    (dimensions metrics : List String) (currentReport : Report)
    (historicalFetches : List (Option Report)) (hrows : currentReport.rows ≠ [])
    (hwidth : ∀ row ∈ historicalRowsOf historicalFetches,
      (row.drop dimensions.length).length ≤ metrics.length)
    (hown : ∀ row ∈ historicalRowsOf historicalFetches,
      inheritedName (dimensionKey dimensions.length row) = false) :
    dailyBranch sqrt parseFloat dimensions metrics (some currentReport) historicalFetches
      = Except.ok
        { report1 := currentReport
          report2 :=
            { headers := currentReport.headers
              dimensionHeaders := currentReport.dimensionHeaders
              rows := (dailyEnhanceRows parseFloat dimensions.length
                (dailyCalculatedVarianceData sqrt
                  (groupedSamples parseFloat dimensions.length metrics.length
                    (historicalRowsOf historicalFetches))) currentReport.rows).1
              varianceData := currentReport.rows.map
                (fun row => dailyLookup (dailyEnhanceRows parseFloat dimensions.length
                  (dailyCalculatedVarianceData sqrt
                    (groupedSamples parseFloat dimensions.length metrics.length
                      (historicalRowsOf historicalFetches))) currentReport.rows).2
                  (dimensionKey dimensions.length row)) } } := by
  have hlen : ¬ currentReport.rows.length = 0 := by
    intro h
    exact hrows (List.length_eq_zero.mp h)
  unfold dailyBranch
  simp only [hlen, if_false]
  rw [dailyHistoricalData_eq_grouped parseFloat _ _ _ hwidth hown]
  rfl

theorem groupedSamples_of_absent (parseFloat : String → Option α) (dc mc : Nat)
    (rows : List (List String)) (key : String)
    (h : ∀ row ∈ rows, dimensionKey dc row ≠ key) :
    groupedSamples parseFloat dc mc rows key = none := by
  unfold groupedSamples
  have hany : rows.any (fun row => dimensionKey dc row == key) = false := by
    rw [List.any_eq_false]
    intro row hrow
    simpa using h row hrow
  simp [hany]

/-- The pushes of one row (lines 1437-1439) raise a `TypeError` when the row has
more metric values than there are arrays. -/
theorem dailyPush_fails (parseFloat : String → Option α) :
    ∀ (metricValues : List String) (n : Nat) (arrays : List (List α)),
      n ≤ arrays.length → arrays.length < n + metricValues.length →
      (metricValues.enumFrom n).foldlM
        (fun arrs p =>
          match arrs[p.1]? with
          | some _ =>
            (pure (arrs.modify (fun array => array ++ [parseOrZero parseFloat (some p.2)]) p.1) :
              Except JsError (List (List α)))
          | none => throw typeError)
        arrays = Except.error typeError := by
  intro metricValues
  induction metricValues with
  | nil =>
    intro n arrays h1 h2
    simp only [List.length_nil] at h2
    omega
  | cons v rest ih =>
    intro n arrays h1 h2
    simp only [List.length_cons] at h2
    rw [List.enumFrom_cons, List.foldlM_cons]
    by_cases hn : n < arrays.length
    · have ha0 : arrays[n]? = some arrays[n] := List.getElem?_eq_getElem hn
      simp only [ha0]
      exact ih (n + 1) (arrays.modify (fun array => array ++ [parseOrZero parseFloat (some v)]) n)
        (by rw [List.length_modify]; omega) (by rw [List.length_modify]; omega)
    · have ha0 : arrays[n]? = none := List.getElem?_eq_none (by omega)
      simp only [ha0]
      rfl

/-- The sample arrays of a key in the grouping of the rows `pre`, or the fresh
arrays of a key without entry: one array per metric, array `i` holding the
samples of metric `i`. -/
theorem groupedSamples_arrays (parseFloat : String → Option α) (dc mc : Nat)
    (pre : List (List String)) (key : String) :
    (match groupedSamples parseFloat dc mc pre key with
      | some arrays => arrays
      | none => List.replicate mc [])
      = (List.range mc).map (cellSamples parseFloat dc pre key) := by
  unfold groupedSamples
  by_cases hany : pre.any (fun r => dimensionKey dc r == key) = true
  · simp only [hany, if_true]
  · have hany' : pre.any (fun r => dimensionKey dc r == key) = false := by
      simpa using hany
    simp only [hany', Bool.false_eq_true, if_false]
    apply List.ext_getElem?
    intro n
    rw [List.getElem?_replicate, List.getElem?_map]
    by_cases hn : n < mc
    · simp [hn, List.getElem?_range hn, cellSamples_of_no_row parseFloat dc pre _ _ hany']
    · simp [hn, List.getElem?_eq_none (l := List.range mc) (by simpa using hn)]

theorem ownKeyRows_append (dc : Nat) (pre : List (List String)) (row : List String) :
    ownKeyRows dc (pre ++ [row])
      = ownKeyRows dc pre ++ (if inheritedName (dimensionKey dc row) then [] else [row]) := by
  unfold ownKeyRows
  rw [List.filter_append]
  congr 1
  by_cases h : inheritedName (dimensionKey dc row) = true
  · simp [h]
  · simp [h]

theorem groupedSamples_ownKeyRows_inherited (parseFloat : String → Option α) (dc mc : Nat)
    (rows : List (List String)) (key : String) (hkey : inheritedName key = true) :
    groupedSamples parseFloat dc mc (ownKeyRows dc rows) key = none := by
  apply groupedSamples_of_absent
  intro row hrow heq
  have hown := (List.mem_filter.mp hrow).2
  rw [heq, hkey] at hown
  exact absurd hown (by decide)

/-- One historical row (lines 1427-1440), after the rows `pre`: the loop goes on
with the grouping that includes the row when the row is accepted, and raises a
`TypeError` otherwise. -/
theorem dailyCollectRow_accepted (parseFloat : String → Option α) (dc mc : Nat)
    (pre : List (List String)) (row : List String) :
    dailyCollectRow parseFloat dc mc (groupedSamples parseFloat dc mc (ownKeyRows dc pre)) row
      = if dailyRowAccepted dc mc row then
          Except.ok (groupedSamples parseFloat dc mc (ownKeyRows dc (pre ++ [row])))
        else Except.error typeError := by
  by_cases hkey : inheritedName (dimensionKey dc row) = true
  · have hnone := groupedSamples_ownKeyRows_inherited parseFloat dc mc pre _ hkey
    unfold dailyCollectRow dailyRowAccepted
    simp only [hnone, hkey, if_true]
    rw [ownKeyRows_append]
    simp only [hkey, if_true, List.append_nil]
    cases hdrop : row.drop dc with
    | nil => rfl
    | cons v rest =>
      have hfail := dailyPush_fails parseFloat (v :: rest) 0 [] (Nat.le_refl _)
        (by simp)
      unfold dailyPushMetrics
      simp only [List.enum]
      rw [hfail]
      rfl
  · have hown : inheritedName (dimensionKey dc row) = false := by simpa using hkey
    unfold dailyRowAccepted
    simp only [hown, Bool.false_eq_true, if_false]
    rw [ownKeyRows_append]
    simp only [hown, Bool.false_eq_true, if_false]
    by_cases hlen : (row.drop dc).length ≤ mc
    · simp only [hlen, decide_True, if_true]
      exact dailyCollectRow_grouped parseFloat dc mc (ownKeyRows dc pre) row hlen hown
    · simp only [hlen, decide_False, Bool.false_eq_true, if_false]
      rw [dailyCollectRow_of_own parseFloat dc mc _ row hown, groupedSamples_arrays]
      have hfail := dailyPush_fails parseFloat (row.drop dc) 0
        ((List.range mc).map (cellSamples parseFloat dc (ownKeyRows dc pre) (dimensionKey dc row)))
        (Nat.zero_le _) (by rw [List.length_map, List.length_range]; omega)
      unfold dailyPushMetrics
      simp only [List.enum]
      rw [hfail]
      rfl

/-- The loop over the historical rows (lines 1427-1440), after the rows `pre`. -/
theorem foldlM_dailyCollectRow_accepted (parseFloat : String → Option α) (dc mc : Nat) :
    ∀ (rows pre : List (List String)),
      rows.foldlM (dailyCollectRow parseFloat dc mc)
          (groupedSamples parseFloat dc mc (ownKeyRows dc pre))
        = if rows.all (dailyRowAccepted dc mc) then
            Except.ok (groupedSamples parseFloat dc mc (ownKeyRows dc (pre ++ rows)))
          else Except.error typeError := by
  intro rows
  induction rows with
  | nil => intro pre; simp [pure, Except.pure]
  | cons row rest ih =>
    intro pre
    rw [List.foldlM_cons, dailyCollectRow_accepted]
    by_cases hrow : dailyRowAccepted dc mc row = true
    · simp only [hrow, if_true, List.all_cons, Bool.true_and]
      have := ih (pre ++ [row])
      simp only [List.append_assoc, List.singleton_append] at this
      exact this
    · simp only [hrow, Bool.false_eq_true, if_false, List.all_cons, Bool.false_and]
      rfl

/-- The grouping loop of the daily branch (lines 1425-1440): it succeeds exactly
when every historical row is accepted, with the grouping of the rows whose keys
name no inherited property, and raises a `TypeError` otherwise. -/
theorem dailyHistoricalData_eq (parseFloat : String → Option α) (dc mc : Nat)
    (rows : List (List String)) :
    dailyHistoricalData parseFloat dc mc rows
      = if rows.all (dailyRowAccepted dc mc) then
          Except.ok (groupedSamples parseFloat dc mc (ownKeyRows dc rows))
        else Except.error typeError := by
  have := foldlM_dailyCollectRow_accepted parseFloat dc mc rows []
  simpa [dailyHistoricalData, groupedSamples, ownKeyRows] using this

/-- The daily branch on a current table with rows: it succeeds exactly when the
grouping loop accepts every historical row, with the enhancement of the current
rows against the grouping of the rows whose keys name no inherited property, and
raises a `TypeError` otherwise. -/
theorem dailyBranch_eq (sqrt : α → α) (parseFloat : String → Option α)
    (dimensions metrics : List String) (currentReport : Report)
    (historicalFetches : List (Option Report)) (hrows : currentReport.rows ≠ []) :
    dailyBranch sqrt parseFloat dimensions metrics (some currentReport) historicalFetches
      = if (historicalRowsOf historicalFetches).all
            (dailyRowAccepted dimensions.length metrics.length) then
          Except.ok
            { report1 := currentReport
              report2 :=
                { headers := currentReport.headers
                  dimensionHeaders := currentReport.dimensionHeaders
                  rows := (dailyEnhanceRows parseFloat dimensions.length
                    (dailyCalculatedVarianceData sqrt
                      (groupedSamples parseFloat dimensions.length metrics.length
                        (ownKeyRows dimensions.length (historicalRowsOf historicalFetches))))
                    currentReport.rows).1
                  varianceData := currentReport.rows.map
                    (fun row => dailyLookup (dailyEnhanceRows parseFloat dimensions.length
                      (dailyCalculatedVarianceData sqrt
                        (groupedSamples parseFloat dimensions.length metrics.length
                          (ownKeyRows dimensions.length (historicalRowsOf historicalFetches))))
                      currentReport.rows).2
                      (dimensionKey dimensions.length row)) } }
        else Except.error typeError := by
  have hlen : ¬ currentReport.rows.length = 0 := by
    intro h
    exact hrows (List.length_eq_zero.mp h)
  unfold dailyBranch
  simp only [hlen, if_false]
  rw [dailyHistoricalData_eq]
  split
  · rfl
  · rfl

/-- The daily branch on a current fetch without rows raises `'No data available
for yesterday'`, whatever the historical fetches are. -/
theorem dailyBranch_of_no_rows (sqrt : α → α) (parseFloat : String → Option α)
    (dimensions metrics : List String) (currentFetch : Option Report)
    (historicalFetches : List (Option Report)) (hempty : hasRows currentFetch = false) :
    dailyBranch sqrt parseFloat dimensions metrics currentFetch historicalFetches
      = Except.error (newError "No data available for yesterday") := by
  cases currentFetch with
  | none => rfl
  | some report =>
    simp only [hasRows, decide_eq_false_iff_not, not_lt, Nat.le_zero_eq] at hempty
    simp only [dailyBranch, hempty, if_true]
    rfl

/-- C4, counterexample: the historical row `["constructor", "7"]` has the key
`"constructor"`, for which the sample list of metric `0` is `[7]`; the grouping
loop raises a `TypeError` on it (`historicalData["constructor"]` is the inherited
function, line 1433 creates no arrays and the push of line 1438 fails), so no
record is stored for the key and the daily branch fails. -/
theorem daily_inherited_key_throws :
    cellSamples parseNatural 1 [["constructor", "7"]] (dimensionKey 1 ["constructor", "7"]) 0
      = [7] ∧
    dailyHistoricalData parseNatural 1 1 [["constructor", "7"]] = Except.error typeError ∧
    dailyBranch Rat.sqrt parseNatural ["eventName"] ["eventCount"]
        (some ⟨["eventName", "eventCount"], ["eventName"], [["click", "10"]], 1⟩)
        [some ⟨["eventName", "eventCount"], ["eventName"], [["constructor", "7"]], 1⟩]
      = Except.error typeError := by
  refine ⟨by decide!, ?_, ?_⟩
  · have hall : ([["constructor", "7"]] : List (List String)).all (dailyRowAccepted 1 1)
        = false := by
      decide
    rw [dailyHistoricalData_eq, hall]
    rfl
  · have hall : (historicalRowsOf
        [some ⟨["eventName", "eventCount"], ["eventName"], [["constructor", "7"]], 1⟩]).all
        (dailyRowAccepted (["eventName"] : List String).length
          (["eventCount"] : List String).length) = false := by
      decide
    rw [dailyBranch_eq Rat.sqrt parseNatural ["eventName"] ["eventCount"]
      ⟨["eventName", "eventCount"], ["eventName"], [["click", "10"]], 1⟩ _ (by decide), hall]
    rfl

theorem absent_of_historicalRowsOf (dc : Nat) (historicalFetches : List (Option Report))
    (key : String)
    (h : ∀ row ∈ historicalRowsOf historicalFetches, dimensionKey dc row ≠ key) :
    ∀ report ∈ historicalFetches.map (fun report => if hasRows report then report else none),
      ∀ r, report = some r → ∀ row ∈ r.rows, dimensionKey dc row ≠ key := by
  intro report hrep r hr row hrow
  apply h
  rw [mem_historicalRowsOf]
  rw [List.mem_map] at hrep
  obtain ⟨orig, horig, heq⟩ := hrep
  subst hr
  by_cases hh : hasRows orig = true
  · simp only [hh, if_true] at heq
    exact ⟨orig, horig, r, heq, hrow⟩
  · simp [hh] at heq

/-- The enhancement of one metric value changes nothing but the `zScore` of a
record. -/
theorem dailyEnhanceMetric_withoutZScore (parseFloat : String → Option α) (key : String)
    (acc : List (Cell α) × (String → Option (List (CellStatistics α)))) (p : Nat × String)
    (k : String) :
    ((dailyEnhanceMetric parseFloat key acc p).2 k).map (List.map withoutZScore)
      = (acc.2 k).map (List.map withoutZScore) := by
  by_cases hk : k = key
  · subst hk
    rw [dailyEnhanceMetric_eq]
    simp only
    cases hacc : acc.2 k with
    | none =>
      simp only [Option.none_bind, dailyEnhanceCell]
      rw [hacc]
    | some stats =>
      cases hrecord : stats[p.1]? with
      | none =>
        simp only [Option.some_bind, hrecord, dailyEnhanceCell]
        rw [hacc]
      | some e =>
        simp only [Option.some_bind, hrecord, dailyEnhanceCell, Function.update_same,
          Option.map_some', Option.some.injEq]
        apply List.ext_getElem?
        intro n
        rw [List.getElem?_map, List.getElem?_map, List.getElem?_set]
        by_cases hn : p.1 = n
        · subst hn
          have hlt : p.1 < stats.length := by
            by_contra hc
            rw [List.getElem?_eq_none (by omega)] at hrecord
            exact Option.noConfusion hrecord
          simp only [if_true, hlt, hrecord, Option.map_some']
          rfl
        · simp only [hn, if_false]
  · rw [dailyEnhanceMetric_other parseFloat key acc p k hk]

theorem foldl_dailyEnhanceMetric_withoutZScore (parseFloat : String → Option α) (key : String)
    (k : String) (l : List (Nat × String)) :
    ∀ acc : List (Cell α) × (String → Option (List (CellStatistics α))),
      ((l.foldl (dailyEnhanceMetric parseFloat key) acc).2 k).map (List.map withoutZScore)
        = (acc.2 k).map (List.map withoutZScore) := by
  induction l with
  | nil => intro acc; rfl
  | cons p rest ih =>
    intro acc
    rw [List.foldl_cons, ih, dailyEnhanceMetric_withoutZScore]

theorem dailyEnhanceRow_withoutZScore (parseFloat : String → Option α) (dc : Nat)
    (calculated : String → Option (List (CellStatistics α))) (row : List String) (k : String) :
    ((dailyEnhanceRow parseFloat dc calculated row).2 k).map (List.map withoutZScore)
      = (calculated k).map (List.map withoutZScore) := by
  unfold dailyEnhanceRow
  exact foldl_dailyEnhanceMetric_withoutZScore parseFloat _ k _ _

/-- The enhancement of the current rows changes nothing but the `zScore` of the
records of `calculatedVarianceData`. -/
theorem dailyEnhanceRows_withoutZScore (parseFloat : String → Option α) (dc : Nat)
    (rows : List (List String)) (k : String) :
    ∀ calculated : String → Option (List (CellStatistics α)),
      ((dailyEnhanceRows parseFloat dc calculated rows).2 k).map (List.map withoutZScore)
        = (calculated k).map (List.map withoutZScore) := by
  induction rows with
  | nil => intro calculated; rfl
  | cons row rest ih =>
    intro calculated
    rw [dailyEnhanceRows_cons]
    simp only
    rw [ih, dailyEnhanceRow_withoutZScore]

/-- C7, as amended: for a current row whose dimension key occurs in no historical
table, the hourly branch stores for the row the records of the last current row
with the same key, which is the row itself when no other current row has its key:
per metric with current value `c`, `historicalMean = 0`, `stdDev = 0`, `zScore = 0`
if `c = 0`, `+10` if `c > 0`, `-10` if `c < 0`, and `variancePercent = 0` if
`c = 0`, `100` otherwise.  The daily branch, on historical rows with no more
metric values than metrics and with keys that name no property inherited from
`Object.prototype`, succeeds, writes per metric the current value, mean `0` and
z-score `0` to the enhanced row whatever `c` is, and stores no record for the
row: `varianceData[r]` is unassigned, or holds the inherited value when the key of
the row names an inherited property. -/
theorem statistics_without_history (sqrt : α → α) (parseFloat : String → Option α)
    (dimensions metrics : List String) (historicalFetches : List (Option Report)) :
    (∀ (currentFetch : Option Report) (r : Nat) (row : List String),
      (hourlyBranch sqrt parseFloat dimensions metrics historicalFetches
        currentFetch).report1.rows[r]? = some row →
      (∀ hrow ∈ historicalRowsOf historicalFetches,
        dimensionKey dimensions.length hrow ≠ dimensionKey dimensions.length row) →
      (∃ (before : List (List String)) (row' : List String) (after : List (List String)),
        (hourlyBranch sqrt parseFloat dimensions metrics historicalFetches
          currentFetch).report1.rows = before ++ row' :: after ∧
        dimensionKey dimensions.length row' = dimensionKey dimensions.length row ∧
        (∀ other ∈ after,
          dimensionKey dimensions.length other ≠ dimensionKey dimensions.length row) ∧
        (hourlyBranch sqrt parseFloat dimensions metrics historicalFetches
          currentFetch).report2.varianceData[r]?
          = some (some (VarianceEntry.records ((row'.drop dimensions.length).map
              (fun v =>
                { currentValue := some (parseOrZero parseFloat (some v))
                  historicalMean := 0
                  stdDev := 0
                  zScore := some (if parseOrZero parseFloat (some v) = 0 then 0
                    else if parseOrZero parseFloat (some v) > 0 then 10 else -10)
                  variancePercent := some (if parseOrZero parseFloat (some v) = 0 then 0 else 100)
                  values := none }))))) ∧
      ((∀ other ∈ (hourlyBranch sqrt parseFloat dimensions metrics historicalFetches
            currentFetch).report1.rows,
          dimensionKey dimensions.length other = dimensionKey dimensions.length row →
          other = row) →
        (hourlyBranch sqrt parseFloat dimensions metrics historicalFetches
          currentFetch).report2.varianceData[r]?
          = some (some (VarianceEntry.records ((row.drop dimensions.length).map
              (fun v =>
                { currentValue := some (parseOrZero parseFloat (some v))
                  historicalMean := 0
                  stdDev := 0
                  zScore := some (if parseOrZero parseFloat (some v) = 0 then 0
                    else if parseOrZero parseFloat (some v) > 0 then 10 else -10)
                  variancePercent := some (if parseOrZero parseFloat (some v) = 0 then 0 else 100)
                  values := none })))))) ∧
    (∀ (currentReport : Report) (r : Nat) (row : List String),
      currentReport.rows[r]? = some row →
      (∀ hrow ∈ historicalRowsOf historicalFetches,
        (hrow.drop dimensions.length).length ≤ metrics.length) →
      (∀ hrow ∈ historicalRowsOf historicalFetches,
        inheritedName (dimensionKey dimensions.length hrow) = false) →
      (∀ hrow ∈ historicalRowsOf historicalFetches,
        dimensionKey dimensions.length hrow ≠ dimensionKey dimensions.length row) →
      ∃ result : RecurringResult α,
        dailyBranch sqrt parseFloat dimensions metrics (some currentReport) historicalFetches
          = Except.ok result ∧
        result.report2.rows[r]?
          = some ((row.take dimensions.length).map Cell.str ++
              (row.drop dimensions.length).flatMap
                (fun v => [Cell.num (parseOrZero parseFloat (some v)), Cell.num 0, Cell.num 0])) ∧
        result.report2.varianceData[r]?
          = some (if inheritedName (dimensionKey dimensions.length row) then
              some (VarianceEntry.inherited (dimensionKey dimensions.length row))
            else none)) := by
  constructor
  · intro currentFetch r row hrow habsent
    obtain ⟨before, row', after, hsplit, hkey, hafter, hval⟩ :=
      hourlyBranch_varianceData_last sqrt parseFloat dimensions metrics historicalFetches
        currentFetch r row hrow
    have hnil : ∀ i, historicalValues
        (collectReports parseFloat dimensions.length metrics.length
          (initStore dimensions.length metrics.length
            (hourlyBranch sqrt parseFloat dimensions metrics historicalFetches
              currentFetch).report1.rows)
          (historicalFetches.map (fun report => if hasRows report then report else none)))
        (dimensionKey dimensions.length row') i = [] := by
      intro i
      apply historicalValues_of_absent_key
      rw [hkey]
      exact absent_of_historicalRowsOf dimensions.length historicalFetches _ habsent
    have hstats : rowStatistics sqrt parseFloat dimensions.length
        (collectReports parseFloat dimensions.length metrics.length
          (initStore dimensions.length metrics.length
            (hourlyBranch sqrt parseFloat dimensions metrics historicalFetches
              currentFetch).report1.rows)
          (historicalFetches.map (fun report => if hasRows report then report else none)))
        row'
        = (row'.drop dimensions.length).map
          (fun v =>
            ({ currentValue := some (parseOrZero parseFloat (some v))
               historicalMean := 0
               stdDev := 0
               zScore := some (if parseOrZero parseFloat (some v) = 0 then 0
                 else if parseOrZero parseFloat (some v) > 0 then 10 else -10)
               variancePercent := some (if parseOrZero parseFloat (some v) = 0 then 0 else 100)
               values := none } : CellStatistics α)) := by
      unfold rowStatistics
      simp only [hnil, hourlyStatistics_nil]
      exact enum_map_of_snd
        (fun v : String =>
          ({ currentValue := some (parseOrZero parseFloat (some v))
             historicalMean := 0
             stdDev := 0
             zScore := some (if parseOrZero parseFloat (some v) = 0 then 0
               else if parseOrZero parseFloat (some v) > 0 then 10 else -10)
             variancePercent := some (if parseOrZero parseFloat (some v) = 0 then 0 else 100)
             values := none } : CellStatistics α)) _
    rw [hstats] at hval
    refine ⟨⟨before, row', after, hsplit, hkey, hafter, hval⟩, ?_⟩
    intro hunique
    have hmem : row' ∈ (hourlyBranch sqrt parseFloat dimensions metrics historicalFetches
        currentFetch).report1.rows := by
      rw [hsplit]
      simp
    have heq : row' = row := hunique row' hmem hkey
    rw [heq] at hval
    exact hval
  · intro currentReport r row hrow hwidth hown habsent
    have hne : currentReport.rows ≠ [] := by
      intro h
      rw [h] at hrow
      simp at hrow
    have h2 : dailyCalculatedVarianceData sqrt
        (groupedSamples parseFloat dimensions.length metrics.length
          (historicalRowsOf historicalFetches)) (dimensionKey dimensions.length row) = none := by
      simp [dailyCalculatedVarianceData,
        groupedSamples_of_absent parseFloat dimensions.length metrics.length _ _ habsent]
    refine ⟨_, dailyBranch_ok sqrt parseFloat dimensions metrics currentReport historicalFetches
      hne hwidth hown, ?_, ?_⟩
    · simp only
      exact dailyEnhanceRows_none parseFloat dimensions.length currentReport.rows _ r row hrow h2
    · simp only [List.getElem?_map, hrow, Option.map_some', Option.some.injEq]
      have h1 := dailyEnhanceRows_isSome parseFloat dimensions.length
        (dimensionKey dimensions.length row) currentReport.rows
        (dailyCalculatedVarianceData sqrt
          (groupedSamples parseFloat dimensions.length metrics.length
            (historicalRowsOf historicalFetches)))
      rw [h2] at h1
      unfold dailyLookup
      cases hx : (dailyEnhanceRows parseFloat dimensions.length
          (dailyCalculatedVarianceData sqrt
            (groupedSamples parseFloat dimensions.length metrics.length
              (historicalRowsOf historicalFetches))) currentReport.rows).2
          (dimensionKey dimensions.length row) with
      | none => rfl
      | some x => rw [hx] at h1; simp at h1

/-- Witness of C7: current row `["Edge", "5"]`, history `[["Chrome", "1"]]`. -/
theorem statistics_without_history_witness :
    (hourlyBranch Rat.sqrt parseNatural ["browser"] ["users"]
        [some ⟨["browser", "users"], ["browser"], [["Chrome", "1"]], 1⟩]
        (some ⟨["browser", "users"], ["browser"], [["Edge", "5"]], 1⟩)).report1.rows[0]?
      = some ["Edge", "5"] ∧
    (∀ hrow ∈ historicalRowsOf [some ⟨["browser", "users"], ["browser"], [["Chrome", "1"]], 1⟩],
      (hrow.drop ["browser"].length).length ≤ ["users"].length) ∧
    (∀ hrow ∈ historicalRowsOf [some ⟨["browser", "users"], ["browser"], [["Chrome", "1"]], 1⟩],
      inheritedName (dimensionKey ["browser"].length hrow) = false) ∧
    (∀ hrow ∈ historicalRowsOf [some ⟨["browser", "users"], ["browser"], [["Chrome", "1"]], 1⟩],
      dimensionKey ["browser"].length hrow ≠ dimensionKey ["browser"].length ["Edge", "5"]) ∧
    (hourlyBranch Rat.sqrt parseNatural ["browser"] ["users"]
        [some ⟨["browser", "users"], ["browser"], [["Chrome", "1"]], 1⟩]
        (some ⟨["browser", "users"], ["browser"], [["Edge", "5"]], 1⟩)).report2.varianceData[0]?
      = some (some (VarianceEntry.records ((["Edge", "5"].drop ["browser"].length).map
          (fun v =>
            { currentValue := some (parseOrZero parseNatural (some v))
              historicalMean := 0
              stdDev := 0
              zScore := some (if parseOrZero parseNatural (some v) = 0 then 0
                else if parseOrZero parseNatural (some v) > 0 then 10 else -10)
              variancePercent := some (if parseOrZero parseNatural (some v) = 0 then 0 else 100)
              values := none })))) ∧
    (∃ result : RecurringResult ℚ,
        dailyBranch Rat.sqrt parseNatural ["browser"] ["users"]
            (some ⟨["browser", "users"], ["browser"], [["Edge", "5"]], 1⟩)
            [some ⟨["browser", "users"], ["browser"], [["Chrome", "1"]], 1⟩]
          = Except.ok result ∧
        result.report2.rows[0]?
          = some ((["Edge", "5"].take ["browser"].length).map Cell.str ++
              (["Edge", "5"].drop ["browser"].length).flatMap
                (fun v => [Cell.num (parseOrZero parseNatural (some v)), Cell.num 0, Cell.num 0])) ∧
        result.report2.varianceData[0]?
          = some (if inheritedName (dimensionKey ["browser"].length ["Edge", "5"]) then
              some (VarianceEntry.inherited (dimensionKey ["browser"].length ["Edge", "5"]))
            else none)) :=
  ⟨by decide, by decide, by decide, by decide,
    ((statistics_without_history Rat.sqrt parseNatural ["browser"] ["users"]
      [some ⟨["browser", "users"], ["browser"], [["Chrome", "1"]], 1⟩]).1
      (some ⟨["browser", "users"], ["browser"], [["Edge", "5"]], 1⟩) 0 ["Edge", "5"]
      (by decide) (by decide)).2 (by decide),
    (statistics_without_history Rat.sqrt parseNatural ["browser"] ["users"]
      [some ⟨["browser", "users"], ["browser"], [["Chrome", "1"]], 1⟩]).2
      ⟨["browser", "users"], ["browser"], [["Edge", "5"]], 1⟩ 0 ["Edge", "5"]
      (by decide) (by decide) (by decide) (by decide)⟩

/-- C7, counterexample: in the daily branch, the current row `["Edge", "5"]` whose
key is in no historical table (history `[["Chrome", "1"]]`) gets the enhanced row
`["Edge", 5, 0, 0]`, its z-score being `0` and not `+10` although the current value
`5` is positive, and no record (no `stdDev`, no `variancePercent`) is stored for it. -/
theorem daily_without_history_zScore_zero :
    ∃ result : RecurringResult ℚ,
      dailyBranch Rat.sqrt parseNatural ["browser"] ["users"]
          (some ⟨["browser", "users"], ["browser"], [["Edge", "5"]], 1⟩)
          [some ⟨["browser", "users"], ["browser"], [["Chrome", "1"]], 1⟩]
        = Except.ok result ∧
      result.report2.rows = [[Cell.str "Edge", Cell.num 5, Cell.num 0, Cell.num 0]] ∧
      result.report2.rows[0]?.bind (fun row => row[3]?) ≠ some (Cell.num 10) ∧
      result.report2.varianceData = [none] := by
  refine ⟨_, dailyBranch_ok Rat.sqrt parseNatural ["browser"] ["users"]
    ⟨["browser", "users"], ["browser"], [["Edge", "5"]], 1⟩
    [some ⟨["browser", "users"], ["browser"], [["Chrome", "1"]], 1⟩] (by decide) (by decide)
    (by decide), ?_, ?_, ?_⟩
  · decide!
  · decide!
  · decide!

theorem dailyEnhanceMetric_fields (parseFloat : String → Option α) (key : String)
    (acc : List (Cell α) × (String → Option (List (CellStatistics α)))) (p : Nat × String)
    (h : ∀ k stats, acc.2 k = some stats →
      ∀ e ∈ stats, e.currentValue = none ∧ e.variancePercent = none) :
    ∀ k stats, (dailyEnhanceMetric parseFloat key acc p).2 k = some stats →
      ∀ e ∈ stats, e.currentValue = none ∧ e.variancePercent = none := by
  intro k stats hk e he
  by_cases hkey : k = key
  · subst hkey
    rw [dailyEnhanceMetric_eq] at hk
    simp only at hk
    cases hacc : acc.2 k with
    | none =>
      simp only [hacc, Option.bind, dailyEnhanceCell] at hk
      exact Option.noConfusion hk
    | some stats0 =>
      cases hent : stats0[p.1]? with
      | none =>
        simp only [hacc, Option.bind, hent, dailyEnhanceCell] at hk
        simp only [Option.some.injEq] at hk
        subst hk
        exact h k stats0 hacc e he
      | some e0 =>
        simp only [hacc, Option.bind, hent, dailyEnhanceCell, Function.update_same,
          Option.map_some', Option.some.injEq] at hk
        subst hk
        have he0 := h k stats0 hacc e0 (List.getElem?_mem hent)
        rcases List.mem_or_eq_of_mem_set he with h1 | h1
        · exact h k stats0 hacc e h1
        · subst h1
          exact he0
  · rw [dailyEnhanceMetric_other parseFloat key acc p k hkey] at hk
    exact h k stats hk e he

theorem foldl_dailyEnhanceMetric_fields (parseFloat : String → Option α) (key : String)
    (l : List (Nat × String)) :
    ∀ acc : List (Cell α) × (String → Option (List (CellStatistics α))),
      (∀ k stats, acc.2 k = some stats →
        ∀ e ∈ stats, e.currentValue = none ∧ e.variancePercent = none) →
      ∀ k stats, (l.foldl (dailyEnhanceMetric parseFloat key) acc).2 k = some stats →
        ∀ e ∈ stats, e.currentValue = none ∧ e.variancePercent = none := by
  induction l with
  | nil => intro acc h; exact h
  | cons p rest ih =>
    intro acc h
    rw [List.foldl_cons]
    exact ih _ (dailyEnhanceMetric_fields parseFloat key acc p h)

theorem dailyEnhanceRow_fields (parseFloat : String → Option α) (dc : Nat)
    (calculated : String → Option (List (CellStatistics α))) (row : List String)
    (h : ∀ k stats, calculated k = some stats →
      ∀ e ∈ stats, e.currentValue = none ∧ e.variancePercent = none) :
    ∀ k stats, (dailyEnhanceRow parseFloat dc calculated row).2 k = some stats →
      ∀ e ∈ stats, e.currentValue = none ∧ e.variancePercent = none := by
  unfold dailyEnhanceRow
  exact foldl_dailyEnhanceMetric_fields parseFloat _ _ _ h

theorem dailyEnhanceRows_fields (parseFloat : String → Option α) (dc : Nat)
    (rows : List (List String)) :
    ∀ calculated : String → Option (List (CellStatistics α)),
      (∀ k stats, calculated k = some stats →
        ∀ e ∈ stats, e.currentValue = none ∧ e.variancePercent = none) →
      ∀ k stats, (dailyEnhanceRows parseFloat dc calculated rows).2 k = some stats →
        ∀ e ∈ stats, e.currentValue = none ∧ e.variancePercent = none := by
  induction rows with
  | nil => intro calculated h; exact h
  | cons row rest ih =>
    intro calculated h
    rw [dailyEnhanceRows_cons]
    exact ih _ (dailyEnhanceRow_fields parseFloat dc calculated row h)

theorem dailyCalculatedVarianceData_fields (sqrt : α → α)
    (historicalData : String → Option (List (List α))) :
    ∀ k stats, dailyCalculatedVarianceData sqrt historicalData k = some stats →
      ∀ e ∈ stats, e.currentValue = none ∧ e.variancePercent = none := by
  intro k stats hk e he
  unfold dailyCalculatedVarianceData at hk
  cases hd : historicalData k with
  | none => simp [hd] at hk
  | some arrays =>
    simp only [hd, Option.map_some', Option.some.injEq] at hk
    subst hk
    obtain ⟨values, _, hv⟩ := List.mem_map.mp he
    subst hv
    exact ⟨rfl, rfl⟩

theorem groupedSamples_isSome (parseFloat : String → Option α) (dc mc : Nat)
    (rows : List (List String)) (key : String) :
    (groupedSamples parseFloat dc mc rows key).isSome = true ↔
      ∃ row ∈ rows, dimensionKey dc row = key := by
  unfold groupedSamples
  by_cases hany : rows.any (fun row => dimensionKey dc row == key) = true
  · simp only [hany, if_true, Option.isSome_some, true_iff]
    obtain ⟨row, hrow, hk⟩ := List.any_eq_true.mp hany
    exact ⟨row, hrow, by simpa using hk⟩
  · simp only [hany, Bool.false_eq_true, if_false, Option.isSome_none, false_iff]
    rintro ⟨row, hrow, hk⟩
    exact hany (List.any_eq_true.mpr ⟨row, hrow, by simpa using hk⟩)

theorem hourlyBranch_row_length (sqrt : α → α) (parseFloat : String → Option α)
    (dimensions metrics : List String) (historicalFetches : List (Option Report))
    (currentFetch : Option Report)
    (hwidth : ∀ report, currentFetch = some report →
      ∀ row ∈ report.rows, row.length = dimensions.length + metrics.length) :
    ∀ row ∈ (hourlyBranch sqrt parseFloat dimensions metrics historicalFetches
        currentFetch).report1.rows, row.length = dimensions.length + metrics.length := by
  intro row hrow
  rw [hourlyBranch_report1] at hrow
  have hplace : ∀ row ∈ (placeholderReport dimensions metrics).rows,
      row.length = dimensions.length + metrics.length := by
    intro row hrow
    simp only [placeholderReport, List.mem_singleton] at hrow
    subst hrow
    simp
  cases currentFetch with
  | none => exact hplace row hrow
  | some report =>
    simp only at hrow
    split at hrow
    · exact hplace row hrow
    · exact hwidth report rfl row hrow

/-- C8, as amended: in hourly mode, for a current table whose rows have the
requested width, every row index `r` and metric index `i`, `varianceData[r][i]` is
defined and carries `currentValue`, `historicalMean`, `stdDev`, `zScore` and
`variancePercent`, with or without historical samples.  In daily mode the run
succeeds when the current table has rows and the historical rows have no more
metric values than metrics and keys that name no property inherited from
`Object.prototype`.  Then, when the dimension key of row `r` occurs in the
historical rows, `varianceData[r]` is an array of one record per metric, and the
record of metric `i` carries the samples of the cell as `values`, their mean as
`historicalMean` and their population standard deviation as `stdDev`, but no
`currentValue` and no `variancePercent`; when the key occurs in no historical
row, `varianceData[r]` is unassigned, or holds the inherited value when the key
names an inherited property. -/
theorem varianceData_entries (sqrt : α → α) (parseFloat : String → Option α)
    (dimensions metrics : List String) (historicalFetches : List (Option Report)) :
    (∀ (currentFetch : Option Report),
      (∀ report, currentFetch = some report →
        ∀ row ∈ report.rows, row.length = dimensions.length + metrics.length) →
      ∀ r i, r < (hourlyBranch sqrt parseFloat dimensions metrics historicalFetches
          currentFetch).report1.rows.length → i < metrics.length →
        ∃ e : CellStatistics α,
          ((hourlyBranch sqrt parseFloat dimensions metrics historicalFetches
            currentFetch).report2.varianceData[r]?).join.bind
              (fun entry => entry.recordAt i) = some e ∧
          e.currentValue.isSome = true ∧ e.zScore.isSome = true ∧
          e.variancePercent.isSome = true) ∧
    (∀ (currentReport : Report), currentReport.rows ≠ [] →
      (∀ hrow ∈ historicalRowsOf historicalFetches,
        (hrow.drop dimensions.length).length ≤ metrics.length) →
      (∀ hrow ∈ historicalRowsOf historicalFetches,
        inheritedName (dimensionKey dimensions.length hrow) = false) →
      ∃ result : RecurringResult α,
        dailyBranch sqrt parseFloat dimensions metrics (some currentReport) historicalFetches
          = Except.ok result ∧
        ∀ (r : Nat) (row : List String), currentReport.rows[r]? = some row →
          ((∃ hrow ∈ historicalRowsOf historicalFetches,
              dimensionKey dimensions.length hrow = dimensionKey dimensions.length row) →
            ∃ stats : List (CellStatistics α),
              result.report2.varianceData[r]? = some (some (VarianceEntry.records stats)) ∧
              stats.length = metrics.length ∧
              ∀ (i : Nat) (e : CellStatistics α), stats[i]? = some e →
                e.values = some (cellSamples parseFloat dimensions.length
                  (historicalRowsOf historicalFetches) (dimensionKey dimensions.length row) i) ∧
                e.historicalMean = dailyMean (cellSamples parseFloat dimensions.length
                  (historicalRowsOf historicalFetches) (dimensionKey dimensions.length row) i) ∧
                e.stdDev = dailyStdDev sqrt (cellSamples parseFloat dimensions.length
                  (historicalRowsOf historicalFetches) (dimensionKey dimensions.length row) i) ∧
                e.currentValue = none ∧ e.variancePercent = none) ∧
          ((∀ hrow ∈ historicalRowsOf historicalFetches,
              dimensionKey dimensions.length hrow ≠ dimensionKey dimensions.length row) →
            result.report2.varianceData[r]?
              = some (if inheritedName (dimensionKey dimensions.length row) then
                  some (VarianceEntry.inherited (dimensionKey dimensions.length row))
                else none))) := by
  constructor
  · intro currentFetch hwidth r i hr hi
    obtain ⟨row, hrow⟩ : ∃ row, (hourlyBranch sqrt parseFloat dimensions metrics
        historicalFetches currentFetch).report1.rows[r]? = some row :=
      ⟨_, List.getElem?_eq_getElem hr⟩
    obtain ⟨row', hrow', _, hval⟩ :=
      hourlyBranch_varianceData sqrt parseFloat dimensions metrics historicalFetches
        currentFetch r row hrow
    have hlen := hourlyBranch_row_length sqrt parseFloat dimensions metrics historicalFetches
      currentFetch hwidth row' hrow'
    have hi' : i < (row'.drop dimensions.length).length := by
      rw [List.length_drop, hlen]
      omega
    have hentry : ∃ e : CellStatistics α,
        (rowStatistics sqrt parseFloat dimensions.length
          (collectReports parseFloat dimensions.length metrics.length
            (initStore dimensions.length metrics.length
              (hourlyBranch sqrt parseFloat dimensions metrics historicalFetches
                currentFetch).report1.rows)
            (historicalFetches.map (fun report => if hasRows report then report else none)))
          row')[i]? = some e ∧
        e.currentValue.isSome = true ∧ e.zScore.isSome = true ∧
        e.variancePercent.isSome = true := by
      unfold rowStatistics
      rw [List.getElem?_map, List.getElem?_enum, List.getElem?_eq_getElem hi']
      exact ⟨_, rfl, rfl, rfl, rfl⟩
    rw [hval]
    exact hentry
  · intro currentReport hne hwidth hown
    refine ⟨_, dailyBranch_ok sqrt parseFloat dimensions metrics currentReport historicalFetches
      hne hwidth hown, ?_⟩
    intro r row hrow
    have hvd : (currentReport.rows.map
        (fun row => dailyLookup (dailyEnhanceRows parseFloat dimensions.length
          (dailyCalculatedVarianceData sqrt
            (groupedSamples parseFloat dimensions.length metrics.length
              (historicalRowsOf historicalFetches))) currentReport.rows).2
          (dimensionKey dimensions.length row)))[r]?
        = some (dailyLookup (dailyEnhanceRows parseFloat dimensions.length
          (dailyCalculatedVarianceData sqrt
            (groupedSamples parseFloat dimensions.length metrics.length
              (historicalRowsOf historicalFetches))) currentReport.rows).2
          (dimensionKey dimensions.length row)) := by
      rw [List.getElem?_map, hrow]
      rfl
    have hpreserved := dailyEnhanceRows_withoutZScore parseFloat dimensions.length
      currentReport.rows (dimensionKey dimensions.length row)
      (dailyCalculatedVarianceData sqrt
        (groupedSamples parseFloat dimensions.length metrics.length
          (historicalRowsOf historicalFetches)))
    simp only [hvd, Option.some.injEq]
    constructor
    · rintro ⟨hrow', hmem, hkey⟩
      have hany : (historicalRowsOf historicalFetches).any
          (fun r => dimensionKey dimensions.length r == dimensionKey dimensions.length row)
          = true := by
        rw [List.any_eq_true]
        exact ⟨hrow', hmem, by simp [hkey]⟩
      have hcalc : dailyCalculatedVarianceData sqrt
          (groupedSamples parseFloat dimensions.length metrics.length
            (historicalRowsOf historicalFetches)) (dimensionKey dimensions.length row)
          = some (((List.range metrics.length).map
              (cellSamples parseFloat dimensions.length (historicalRowsOf historicalFetches)
                (dimensionKey dimensions.length row))).map (dailyStatistics sqrt)) := by
        simp [dailyCalculatedVarianceData, groupedSamples, hany]
      rw [hcalc] at hpreserved
      cases hx : (dailyEnhanceRows parseFloat dimensions.length
          (dailyCalculatedVarianceData sqrt
            (groupedSamples parseFloat dimensions.length metrics.length
              (historicalRowsOf historicalFetches))) currentReport.rows).2
          (dimensionKey dimensions.length row) with
      | none => rw [hx] at hpreserved; simp at hpreserved
      | some stats =>
        rw [hx] at hpreserved
        simp only [Option.map_some', Option.some.injEq] at hpreserved
        refine ⟨stats, ?_, ?_, ?_⟩
        · simp only [dailyLookup, hx]
        · have := congrArg List.length hpreserved
          simpa using this
        · intro i e he
          have hi : (stats.map withoutZScore)[i]? = some (withoutZScore e) := by
            rw [List.getElem?_map, he]
            rfl
          rw [hpreserved] at hi
          simp only [List.getElem?_map] at hi
          cases hrange : (List.range metrics.length)[i]? with
          | none => rw [hrange] at hi; simp at hi
          | some m =>
            have hm : m = i := by
              have hlt : i < (List.range metrics.length).length := by
                by_contra hc
                rw [List.getElem?_eq_none (by omega)] at hrange
                exact Option.noConfusion hrange
              rw [List.getElem?_eq_getElem hlt] at hrange
              simpa using hrange.symm
            subst hm
            rw [hrange] at hi
            simp only [Option.map_some', Option.some.injEq] at hi
            refine ⟨?_, ?_, ?_, ?_, ?_⟩
            · exact (congrArg CellStatistics.values hi).symm
            · exact (congrArg CellStatistics.historicalMean hi).symm
            · exact (congrArg CellStatistics.stdDev hi).symm
            · exact (congrArg CellStatistics.currentValue hi).symm
            · exact (congrArg CellStatistics.variancePercent hi).symm
    · intro habsent
      have h2 : dailyCalculatedVarianceData sqrt
          (groupedSamples parseFloat dimensions.length metrics.length
            (historicalRowsOf historicalFetches)) (dimensionKey dimensions.length row) = none := by
        simp [dailyCalculatedVarianceData,
          groupedSamples_of_absent parseFloat dimensions.length metrics.length _ _ habsent]
      rw [h2] at hpreserved
      unfold dailyLookup
      cases hx : (dailyEnhanceRows parseFloat dimensions.length
          (dailyCalculatedVarianceData sqrt
            (groupedSamples parseFloat dimensions.length metrics.length
              (historicalRowsOf historicalFetches))) currentReport.rows).2
          (dimensionKey dimensions.length row) with
      | none => rfl
      | some x => rw [hx] at hpreserved; simp at hpreserved

/-- Witness of C8: current rows `["Chrome", "10"]` and `["Edge", "5"]`, and a
current row of the key `"constructor"`. -/
theorem varianceData_entries_witness :
    (∃ e : CellStatistics ℚ,
      ((hourlyBranch Rat.sqrt parseNatural ["browser"] ["users"]
          [some ⟨["browser", "users"], ["browser"], [["Chrome", "1"]], 1⟩]
          (some ⟨["browser", "users"], ["browser"], [["Chrome", "10"], ["Edge", "5"]], 2⟩)
        ).report2.varianceData[1]?).join.bind (fun entry => entry.recordAt 0) = some e ∧
      e.currentValue.isSome = true ∧ e.zScore.isSome = true ∧
      e.variancePercent.isSome = true) ∧
    (∀ hrow ∈ historicalRowsOf [some ⟨["browser", "users"], ["browser"], [["Chrome", "1"]], 1⟩],
      (hrow.drop ["browser"].length).length ≤ ["users"].length) ∧
    (∀ hrow ∈ historicalRowsOf [some ⟨["browser", "users"], ["browser"], [["Chrome", "1"]], 1⟩],
      inheritedName (dimensionKey ["browser"].length hrow) = false) ∧
    (∃ result : RecurringResult ℚ,
      dailyBranch Rat.sqrt parseNatural ["browser"] ["users"]
          (some ⟨["browser", "users"], ["browser"], [["Chrome", "10"], ["Edge", "5"]], 2⟩)
          [some ⟨["browser", "users"], ["browser"], [["Chrome", "1"]], 1⟩]
        = Except.ok result ∧
      (∃ stats : List (CellStatistics ℚ),
        result.report2.varianceData[0]? = some (some (VarianceEntry.records stats)) ∧
        stats.length = ["users"].length) ∧
      result.report2.varianceData[1]? = some none) ∧
    (∃ result : RecurringResult ℚ,
      dailyBranch Rat.sqrt parseNatural ["browser"] ["users"]
          (some ⟨["browser", "users"], ["browser"], [["constructor", "5"]], 1⟩)
          [some ⟨["browser", "users"], ["browser"], [["Chrome", "1"]], 1⟩]
        = Except.ok result ∧
      result.report2.varianceData[0]? = some (some (VarianceEntry.inherited "constructor"))) := by
  refine ⟨?_, by decide, by decide, ?_, ?_⟩
  · exact (varianceData_entries Rat.sqrt parseNatural ["browser"] ["users"]
      [some ⟨["browser", "users"], ["browser"], [["Chrome", "1"]], 1⟩]).1
      (some ⟨["browser", "users"], ["browser"], [["Chrome", "10"], ["Edge", "5"]], 2⟩)
      (by
        intro report h row hrow
        cases h
        revert row
        decide)
      1 0 (by decide) (by decide)
  · obtain ⟨result, hresult, hentries⟩ :=
      (varianceData_entries Rat.sqrt parseNatural ["browser"] ["users"]
        [some ⟨["browser", "users"], ["browser"], [["Chrome", "1"]], 1⟩]).2
        ⟨["browser", "users"], ["browser"], [["Chrome", "10"], ["Edge", "5"]], 2⟩
        (by decide) (by decide) (by decide)
    refine ⟨result, hresult, ?_, ?_⟩
    · obtain ⟨stats, h1, h2, _⟩ := (hentries 0 ["Chrome", "10"] rfl).1
        ⟨["Chrome", "1"], by decide, by decide⟩
      exact ⟨stats, h1, h2⟩
    · exact (hentries 1 ["Edge", "5"] rfl).2 (by decide)
  · obtain ⟨result, hresult, hentries⟩ :=
      (varianceData_entries Rat.sqrt parseNatural ["browser"] ["users"]
        [some ⟨["browser", "users"], ["browser"], [["Chrome", "1"]], 1⟩]).2
        ⟨["browser", "users"], ["browser"], [["constructor", "5"]], 1⟩
        (by decide) (by decide) (by decide)
    refine ⟨result, hresult, ?_⟩
    rw [(hentries 0 ["constructor", "5"] rfl).2 (by decide)]
    decide

/-- C8, counterexample: in the daily branch with current rows `["Chrome", "10"]`
and `["Edge", "5"]` and historical rows `["Chrome", "1"]`, `["Chrome", "3"]`,
`varianceData[1]` (the row of `Edge`, which has no history) is undefined, and the
record of `varianceData[0][0]` has no `currentValue` and no `variancePercent`. -/
theorem daily_varianceData_undefined :
    ∃ result : RecurringResult ℚ,
      dailyBranch Rat.sqrt parseNatural ["browser"] ["users"]
          (some ⟨["browser", "users"], ["browser"], [["Chrome", "10"], ["Edge", "5"]], 2⟩)
          [some ⟨["browser", "users"], ["browser"], [["Chrome", "1"], ["Chrome", "3"]], 2⟩]
        = Except.ok result ∧
      result.report2.varianceData[1]? = some none ∧
      result.report2.varianceData[0]?
        = some (some (VarianceEntry.records
            [({ currentValue := none, historicalMean := 2, stdDev := 1, zScore := some 8,
                variancePercent := none, values := some [1, 3] } : CellStatistics ℚ)])) := by
  refine ⟨_, dailyBranch_ok Rat.sqrt parseNatural ["browser"] ["users"]
    ⟨["browser", "users"], ["browser"], [["Chrome", "10"], ["Edge", "5"]], 2⟩
    [some ⟨["browser", "users"], ["browser"], [["Chrome", "1"], ["Chrome", "3"]], 2⟩]
    (by decide) (by decide) (by decide), ?_, ?_⟩
  · decide!
  · decide!

end EnhanceTheorems

section ListTheorems

variable {α : Type}

/-! ## The report sheet and `createAnomalyReportHTML` -/

theorem foldl_max_le (w : Nat) (lengths : List Nat) :
    ∀ init, init ≤ w → (∀ n ∈ lengths, n ≤ w) → lengths.foldl max init ≤ w := by
  induction lengths with
  | nil => intro init h _; exact h
  | cons n rest ih =>
    intro init h hall
    rw [List.foldl_cons]
    exact ih _ (max_le h (hall n (List.mem_cons_self _ _)))
      (fun m hm => hall m (List.mem_cons_of_mem _ hm))

theorem le_foldl_max (lengths : List Nat) :
    ∀ init, init ≤ lengths.foldl max init ∧ ∀ n ∈ lengths, n ≤ lengths.foldl max init := by
  induction lengths with
  | nil => intro init; exact ⟨le_refl _, fun n hn => by cases hn⟩
  | cons m rest ih =>
    intro init
    rw [List.foldl_cons]
    obtain ⟨h1, h2⟩ := ih (max init m)
    refine ⟨le_trans (le_max_left _ _) h1, fun n hn => ?_⟩
    rcases List.mem_cons.mp hn with h | h
    · subst h
      exact le_trans (le_max_right _ _) h1
    · exact h2 n h

theorem foldl_max_eq (w : Nat) (lengths : List Nat) (hle : ∀ n ∈ lengths, n ≤ w)
    (hmem : w ∈ lengths) : lengths.foldl max 0 = w :=
  le_antisymm (foldl_max_le w lengths 0 (Nat.zero_le _) hle) ((le_foldl_max lengths 0).2 w hmem)

/-- Three cells per element: the cell at offset `3 * j + k` of the flattened list. -/
theorem getElem?_flatMap_triple {β γ : Type} (a b c : β → γ) (l : List β) :
    ∀ j : Nat,
      (l.flatMap (fun x => [a x, b x, c x]))[3 * j]? = l[j]?.map a ∧
      (l.flatMap (fun x => [a x, b x, c x]))[3 * j + 1]? = l[j]?.map b ∧
      (l.flatMap (fun x => [a x, b x, c x]))[3 * j + 2]? = l[j]?.map c := by
  induction l with
  | nil => intro j; simp
  | cons x rest ih =>
    intro j
    rw [List.flatMap_cons]
    cases j with
    | zero => simp
    | succ j =>
      obtain ⟨h1, h2, h3⟩ := ih j
      have e0 : 3 * (j + 1) = (3 * j) + 3 := by ring
      have e1 : 3 * (j + 1) + 1 = (3 * j + 1) + 3 := by ring
      have e2 : 3 * (j + 1) + 2 = (3 * j + 2) + 3 := by ring
      refine ⟨?_, ?_, ?_⟩
      · rw [e0, List.getElem?_append_right (by simp)]
        simpa using h1
      · rw [e1, List.getElem?_append_right (by simp)]
        simpa using h2
      · rw [e2, List.getElem?_append_right (by simp)]
        simpa using h3

theorem length_flatMap_triple {β γ : Type} (a b c : β → γ) (l : List β) :
    (l.flatMap (fun x => [a x, b x, c x])).length = 3 * l.length := by
  induction l with
  | nil => rfl
  | cons x rest ih =>
    rw [List.flatMap_cons, List.length_append, ih]
    simp only [List.length_cons, List.length_nil]
    omega

theorem getValues_of_width (written : List (List (Cell α))) (w : Nat)
    (hle : ∀ row ∈ written, row.length ≤ w) (hmem : ∃ row ∈ written, row.length = w) :
    getValues written
      = written.map (fun row => row ++ List.replicate (w - row.length) (Cell.str "")) := by
  unfold getValues
  have hw : (written.map List.length).foldl max 0 = w := by
    apply foldl_max_eq
    · intro n hn
      obtain ⟨row, hrow, hlen⟩ := List.mem_map.mp hn
      rw [← hlen]
      exact hle row hrow
    · obtain ⟨row, hrow, hlen⟩ := hmem
      exact List.mem_map.mpr ⟨row, hrow, hlen⟩
  simp only [hw]

theorem any_congr_of_mem {β : Type} (f g : β → Bool) (l : List β)
    (h : ∀ x ∈ l, f x = g x) : l.any f = l.any g := by
  induction l with
  | nil => rfl
  | cons x rest ih =>
    simp only [List.any_cons]
    rw [h x (List.mem_cons_self _ _), ih (fun y hy => h y (List.mem_cons_of_mem _ hy))]

/-- The loop of fetches returns the tables of the date ranges in order and records
one request per date range, in order. -/
theorem fetchReports_eq (host : Host α) (propertyId : String) (dimensions metrics : List String)
    (options : FetchOptions) (world : World α) (dateRanges : List DateRange) :
    fetchReports host propertyId dimensions metrics options world dateRanges
      = (dateRanges.map
          (fun dateRange =>
            getGA4Report host.runReport propertyId dimensions metrics dateRange options),
        { world with
          requests := world.requests ++ dateRanges.map
            (fun dateRange => buildRequest propertyId dimensions metrics dateRange options) }) := by
  have hfold : ∀ (dateRanges : List DateRange) (acc : List (Option Report) × World α),
      dateRanges.foldl
          (fun acc dateRange =>
            let fetched := fetchReport host propertyId dimensions metrics options acc.2 dateRange
            (acc.1 ++ [fetched.1], fetched.2))
          acc
        = (acc.1 ++ dateRanges.map
            (fun dateRange =>
              getGA4Report host.runReport propertyId dimensions metrics dateRange options),
          { acc.2 with
            requests := acc.2.requests ++ dateRanges.map
              (fun dateRange =>
                buildRequest propertyId dimensions metrics dateRange options) }) := by
    intro dateRanges
    induction dateRanges with
    | nil => intro acc; simp
    | cons dateRange rest ih =>
      intro acc
      rw [List.foldl_cons, ih]
      simp [fetchReport, List.append_assoc]
  unfold fetchReports
  rw [hfold]
  simp

theorem statisticsOf_update (calculated : String → Option (List (CellStatistics α)))
    (key : String) (stats : Option (List (CellStatistics α))) :
    statisticsOf (Function.update calculated key stats)
      = Function.update (statisticsOf calculated) key (stats.map (List.map withoutSamples)) := by
  funext k
  by_cases hk : k = key
  · subst hk
    simp [statisticsOf]
  · simp [statisticsOf, Function.update_noteq hk]

theorem all_perm {β : Type} (p : β → Bool) (l l' : List β) (h : l.Perm l') :
    l.all p = l'.all p := by
  rw [Bool.eq_iff_iff, List.all_eq_true, List.all_eq_true]
  constructor
  · intro hall x hx
    exact hall x (h.mem_iff.mpr hx)
  · intro hall x hx
    exact hall x (h.mem_iff.mp hx)

/-- The statistics of the value looked up for a key are the value looked up in
the statistics of the object. -/
theorem dailyLookup_statisticsOf (calculated : String → Option (List (CellStatistics α)))
    (key : String) :
    (dailyLookup calculated key).map statisticsOfEntry
      = dailyLookup (statisticsOf calculated) key := by
  unfold dailyLookup statisticsOf
  cases calculated key with
  | some stats => rfl
  | none =>
    simp only [Option.map_none']
    split
    · rfl
    · rfl

end ListTheorems

section SheetTheorems

variable {α : Type} [LinearOrderedField α]

/-- The loop of lines 2316-2398 counts the rows with an anomaly and renders the
first 20 of them. -/
theorem scanRows_eq_filter (toNumber : String → Option α) (isRecurring : Bool)
    (dc mc : Nat) (zT pT : α) (rows : List (List (Cell α))) :
    (scanRows toNumber isRecurring dc mc zT pT rows).anomalyCount
      = (rows.filter (hasAnomaly toNumber isRecurring dc mc zT pT)).length ∧
    (scanRows toNumber isRecurring dc mc zT pT rows).renderedRows
      = (rows.filter (hasAnomaly toNumber isRecurring dc mc zT pT)).take 20 := by
  unfold scanRows
  induction rows using List.reverseRecOn with
  | nil => exact ⟨rfl, rfl⟩
  | append_singleton rest last ih =>
    obtain ⟨h1, h2⟩ := ih
    rw [List.foldl_append, List.filter_append]
    simp only [List.foldl_cons, List.foldl_nil]
    by_cases hlast : hasAnomaly toNumber isRecurring dc mc zT pT last = true
    · rw [List.filter_cons_of_pos hlast]
      simp only [hlast, if_true, List.filter_nil, List.length_append, List.length_singleton]
      refine ⟨by rw [h1], ?_⟩
      rw [h2]
      by_cases hlen : (rest.filter (hasAnomaly toNumber isRecurring dc mc zT pT)).length < 20
      · have htake : (rest.filter (hasAnomaly toNumber isRecurring dc mc zT pT)).take 20
            = rest.filter (hasAnomaly toNumber isRecurring dc mc zT pT) :=
          List.take_of_length_le (by omega)
        rw [htake]
        simp only [hlen, if_true]
        rw [List.take_of_length_le (by simp; omega)]
      · have hlen' : ¬ ((rest.filter (hasAnomaly toNumber isRecurring dc mc zT pT)).take 20).length
            < 20 := by
          rw [List.length_take]
          omega
        simp only [hlen', if_false]
        rw [List.take_append_of_le_length (by omega)]
    · rw [List.filter_cons_of_neg hlast]
      simp only [hlast, Bool.false_eq_true, if_false, List.filter_nil, List.append_nil]
      exact ⟨h1, h2⟩

theorem recurringDataRow_length (parseFloat : String → Option α) (dc : Nat)
    (varianceData : List (Option (VarianceEntry α))) (r mc : Nat) (row : List String)
    (h : row.length = dc + mc) :
    (recurringDataRow parseFloat dc varianceData r row).length = dc + 3 * mc := by
  unfold recurringDataRow
  simp only [List.length_append, List.length_map, List.length_take]
  rw [length_flatMap_triple
    (fun p : Nat × String => Cell.num (parseOrZero parseFloat (some p.2)))
    (fun p : Nat × String => Cell.num (writtenHistoricalMean varianceData r p.1))
    (fun p : Nat × String => Cell.num (writtenZScore varianceData r p.1))]
  simp only [List.enum_length, List.length_drop, h]
  omega

/-- The Z-Score cell of the metric `j` of a data row written by
`writeRecurringReportToSheet` (line 2026). -/
theorem recurringDataRow_zScore_cell (parseFloat : String → Option α) (dc : Nat)
    (varianceData : List (Option (VarianceEntry α))) (r mc : Nat) (row : List String)
    (h : row.length = dc + mc) (j : Nat) (hj : j < mc) :
    (recurringDataRow parseFloat dc varianceData r row)[dc + j * 3 + 2]?
      = some (Cell.num (writtenZScore varianceData r j)) := by
  unfold recurringDataRow
  have hlen : ((row.take dc).map (Cell.str : String → Cell α)).length = dc := by
    simp only [List.length_map, List.length_take, h]
    omega
  rw [List.getElem?_append_right (by rw [hlen]; omega), hlen]
  have hidx : dc + j * 3 + 2 - dc = 3 * j + 2 := by omega
  rw [hidx]
  rw [(getElem?_flatMap_triple
    (fun p : Nat × String => Cell.num (parseOrZero parseFloat (some p.2)))
    (fun p : Nat × String => Cell.num (writtenHistoricalMean varianceData r p.1))
    (fun p : Nat × String => Cell.num (writtenZScore varianceData r p.1))
    (row.drop dc).enum j).2.2]
  have hj' : j < (row.drop dc).length := by
    rw [List.length_drop, h]
    omega
  rw [List.getElem?_enum, List.getElem?_eq_getElem hj']
  rfl

theorem recurringHeader_indexOf (dc : Nat) (metricHeaders : List String)
    (hm : metricHeaders ≠ []) :
    (List.replicate dc (Cell.str "Dimensions" : Cell α) ++
      metricHeaders.flatMap
        (fun _ => [Cell.str "Current", Cell.str "Historical Avg", Cell.str "Z-Score"])).indexOf
        (Cell.str "Current") = dc := by
  have hnot : (Cell.str "Current" : Cell α) ∉ List.replicate dc (Cell.str "Dimensions" : Cell α) := by
    intro h
    have := (List.mem_replicate.mp h).2
    injection this with h'
    revert h'
    decide
  rw [List.indexOf_append_of_not_mem hnot]
  cases metricHeaders with
  | nil => exact absurd rfl hm
  | cons h rest =>
    rw [List.flatMap_cons]
    simp [List.indexOf_cons]

theorem recurringHeader_isRecurring (dc : Nat) (metricHeaders : List String)
    (hm : metricHeaders ≠ []) :
    isRecurringHeader (List.replicate dc (Cell.str "Dimensions" : Cell α) ++
      metricHeaders.flatMap
        (fun _ => [Cell.str "Current", Cell.str "Historical Avg", Cell.str "Z-Score"])) = true := by
  unfold isRecurringHeader
  rw [List.any_eq_true]
  refine ⟨Cell.str "Current", ?_, by simp⟩
  cases metricHeaders with
  | nil => exact absurd rfl hm
  | cons h rest => simp [List.flatMap_cons]

/-- The values read back from a recurring report sheet: the title row padded to
the width of the sheet, the two header rows and the data rows as written. -/
theorem getValues_recurringSheet (parseFloat : String → Option α) (title : String)
    (currentReport : Report) (historicalReport : EnrichedReport α)
    (hmetrics : currentReport.dimensionHeaders.length < currentReport.headers.length)
    (hwidth : ∀ row ∈ currentReport.rows, row.length = currentReport.headers.length) :
    getValues (writeRecurringReportToSheet parseFloat title currentReport historicalReport)
      = [[Cell.str title] ++ List.replicate
            (currentReport.dimensionHeaders.length +
              3 * (currentReport.headers.length - currentReport.dimensionHeaders.length) - 1)
            (Cell.str ""),
          List.replicate currentReport.dimensionHeaders.length (Cell.str "Dimensions") ++
            (currentReport.headers.drop currentReport.dimensionHeaders.length).flatMap
              (fun _ => [Cell.str "Current", Cell.str "Historical Avg", Cell.str "Z-Score"]),
          currentReport.dimensionHeaders.map Cell.str ++
            (currentReport.headers.drop currentReport.dimensionHeaders.length).flatMap
              (fun h => [Cell.str h, Cell.str h, Cell.str h])] ++
        currentReport.rows.enum.map
          (fun p => recurringDataRow parseFloat currentReport.dimensionHeaders.length
            historicalReport.varianceData p.1 p.2) := by
  have hh1 : (List.replicate currentReport.dimensionHeaders.length (Cell.str "Dimensions" : Cell α) ++
      (currentReport.headers.drop currentReport.dimensionHeaders.length).flatMap
        (fun _ => [Cell.str "Current", Cell.str "Historical Avg", Cell.str "Z-Score"])).length
      = currentReport.dimensionHeaders.length +
        3 * (currentReport.headers.length - currentReport.dimensionHeaders.length) := by
    rw [List.length_append, List.length_replicate,
      length_flatMap_triple (fun _ : String => (Cell.str "Current" : Cell α))
        (fun _ => Cell.str "Historical Avg") (fun _ => Cell.str "Z-Score"), List.length_drop]
  have hh2 : (currentReport.dimensionHeaders.map (Cell.str : String → Cell α) ++
      (currentReport.headers.drop currentReport.dimensionHeaders.length).flatMap
        (fun h => [Cell.str h, Cell.str h, Cell.str h])).length
      = currentReport.dimensionHeaders.length +
        3 * (currentReport.headers.length - currentReport.dimensionHeaders.length) := by
    rw [List.length_append, List.length_map,
      length_flatMap_triple (fun h : String => (Cell.str h : Cell α))
        (fun h => Cell.str h) (fun h => Cell.str h), List.length_drop]
  have hrowlen : ∀ p ∈ currentReport.rows.enum,
      (recurringDataRow parseFloat currentReport.dimensionHeaders.length
        historicalReport.varianceData p.1 p.2).length
      = currentReport.dimensionHeaders.length +
        3 * (currentReport.headers.length - currentReport.dimensionHeaders.length) := by
    intro p hp
    apply recurringDataRow_length
    have hmem : p.2 ∈ currentReport.rows := by
      have := List.mem_map_of_mem Prod.snd hp
      rwa [List.enum_map_snd] at this
    rw [hwidth p.2 hmem]
    omega
  rw [getValues_of_width _
    (currentReport.dimensionHeaders.length +
      3 * (currentReport.headers.length - currentReport.dimensionHeaders.length))]
  · unfold writeRecurringReportToSheet
    simp only [List.map_append, List.map_cons, List.map_nil, List.map_map, List.length_singleton]
    rw [hh1, hh2]
    simp only [Nat.sub_self, List.replicate_zero, List.append_nil, List.cons_append,
      List.nil_append]
    congr 3
    apply List.map_congr_left
    intro p hp
    simp only [Function.comp]
    rw [hrowlen p hp]
    simp
  · intro row hrow
    unfold writeRecurringReportToSheet at hrow
    simp only [List.cons_append, List.nil_append, List.mem_cons, List.mem_map] at hrow
    rcases hrow with h | h | h | ⟨p, hp, h⟩
    · subst h
      simp only [List.length_singleton]
      omega
    · subst h
      exact le_of_eq hh1
    · subst h
      exact le_of_eq hh2
    · subst h
      exact le_of_eq (hrowlen p hp)
  · refine ⟨_, ?_, hh1⟩
    unfold writeRecurringReportToSheet
    simp

/-- C9: for a recurring report sheet as written by `writeRecurringReportToSheet`
(at least one metric, at least one data row, current rows of the width of the
headers), `createAnomalyReportHTML` returns its report object, in which a data row
(sheet row 4 onward) counts as anomalous exactly when the absolute value of the
Z-Score cell of at least one of its metrics is strictly greater than the
threshold, `anomalyCount` is the number of such rows and the rendered rows are the
first 20 of them; the threshold is the stored number `T` when `T > 0` is stored,
and `3` when none is stored. -/
theorem recurring_anomaly_count (toNumber : String → Option α) (parseInt : String → Option Nat)
    (parseFloat : String → Option α) (title : String) (properties : DocumentProperties)
    (currentReport : Report) (historicalReport : EnrichedReport α)
    (hmetrics : currentReport.dimensionHeaders.length < currentReport.headers.length)
    (hrows : currentReport.rows ≠ [])
    (hwidth : ∀ row ∈ currentReport.rows, row.length = currentReport.headers.length) :
    (∃ report : AnomalyReport α,
      createAnomalyReportHTML toNumber parseInt properties
          (getValues (writeRecurringReportToSheet parseFloat title currentReport historicalReport))
        = AnomalyResult.report report ∧
      report.anomalyCount
        = (currentReport.rows.enum.filter
            (fun p =>
              (List.range (currentReport.headers.length - currentReport.dimensionHeaders.length)).any
                (fun j => decide (|writtenZScore historicalReport.varianceData p.1 j|
                  > numberOr toNumber properties.zScoreThreshold 3)))).length ∧
      report.renderedRows
        = ((currentReport.rows.enum.filter
            (fun p =>
              (List.range (currentReport.headers.length - currentReport.dimensionHeaders.length)).any
                (fun j => decide (|writtenZScore historicalReport.varianceData p.1 j|
                  > numberOr toNumber properties.zScoreThreshold 3)))).map
            (fun p => recurringDataRow parseFloat currentReport.dimensionHeaders.length
              historicalReport.varianceData p.1 p.2)).take 20) ∧
    (∀ (s : String) (T : α), properties.zScoreThreshold = some s → toNumber s = some T → 0 < T →
      numberOr toNumber properties.zScoreThreshold 3 = T) ∧
    (properties.zScoreThreshold = none → numberOr toNumber properties.zScoreThreshold 3 = 3) := by
  refine ⟨?_, ?_, ?_⟩
  · have hm : currentReport.headers.drop currentReport.dimensionHeaders.length ≠ [] := by
      intro h
      have := congrArg List.length h
      rw [List.length_drop] at this
      simp only [List.length_nil] at this
      omega
    have hflag : ∀ p ∈ currentReport.rows.enum,
        hasAnomaly toNumber true currentReport.dimensionHeaders.length
          (currentReport.headers.length - currentReport.dimensionHeaders.length)
          (numberOr toNumber properties.zScoreThreshold 3)
          (numberOr toNumber properties.varianceThreshold 10)
          (recurringDataRow parseFloat currentReport.dimensionHeaders.length
            historicalReport.varianceData p.1 p.2)
        = (List.range (currentReport.headers.length - currentReport.dimensionHeaders.length)).any
            (fun j => decide (|writtenZScore historicalReport.varianceData p.1 j|
              > numberOr toNumber properties.zScoreThreshold 3)) := by
      intro p hp
      have hmem : p.2 ∈ currentReport.rows := by
        have := List.mem_map_of_mem Prod.snd hp
        rwa [List.enum_map_snd] at this
      unfold hasAnomaly
      simp only [if_true]
      apply any_congr_of_mem
      intro j hj
      rw [recurringDataRow_zScore_cell parseFloat _ _ _
        (currentReport.headers.length - currentReport.dimensionHeaders.length) p.2
        (by rw [hwidth p.2 hmem]; omega) j (List.mem_range.mp hj)]
      rfl
    have hfilter : (currentReport.rows.enum.map
        (fun p => recurringDataRow parseFloat currentReport.dimensionHeaders.length
          historicalReport.varianceData p.1 p.2)).filter
          (hasAnomaly toNumber true currentReport.dimensionHeaders.length
            (currentReport.headers.length - currentReport.dimensionHeaders.length)
            (numberOr toNumber properties.zScoreThreshold 3)
            (numberOr toNumber properties.varianceThreshold 10))
        = (currentReport.rows.enum.filter
            (fun p =>
              (List.range (currentReport.headers.length - currentReport.dimensionHeaders.length)).any
                (fun j => decide (|writtenZScore historicalReport.varianceData p.1 j|
                  > numberOr toNumber properties.zScoreThreshold 3)))).map
            (fun p => recurringDataRow parseFloat currentReport.dimensionHeaders.length
              historicalReport.varianceData p.1 p.2) := by
      rw [List.filter_map]
      congr 1
      apply List.filter_congr
      intro p hp
      exact hflag p hp
    have hlen : ¬ (3 + currentReport.rows.length ≤ 3) := by
      have := List.length_pos.mpr hrows
      omega
    have hcreate : createAnomalyReportHTML toNumber parseInt properties
        (getValues (writeRecurringReportToSheet parseFloat title currentReport historicalReport))
        = AnomalyResult.report
          (scanRows toNumber true currentReport.dimensionHeaders.length
            (currentReport.headers.length - currentReport.dimensionHeaders.length)
            (numberOr toNumber properties.zScoreThreshold 3)
            (numberOr toNumber properties.varianceThreshold 10)
            (currentReport.rows.enum.map
              (fun p => recurringDataRow parseFloat currentReport.dimensionHeaders.length
                historicalReport.varianceData p.1 p.2))) := by
      rw [getValues_recurringSheet parseFloat title currentReport historicalReport hmetrics hwidth]
      unfold createAnomalyReportHTML
      have hl : (List.replicate currentReport.dimensionHeaders.length (Cell.str "Dimensions" : Cell α) ++
          (currentReport.headers.drop currentReport.dimensionHeaders.length).flatMap
            (fun _ => [Cell.str "Current", Cell.str "Historical Avg", Cell.str "Z-Score"])).length
          = currentReport.dimensionHeaders.length +
            3 * (currentReport.headers.length - currentReport.dimensionHeaders.length) := by
        rw [List.length_append, List.length_replicate,
          length_flatMap_triple (fun _ : String => (Cell.str "Current" : Cell α))
            (fun _ => Cell.str "Historical Avg") (fun _ => Cell.str "Z-Score"), List.length_drop]
      have hdc : detectDimensionCount parseInt
          (List.replicate currentReport.dimensionHeaders.length (Cell.str "Dimensions" : Cell α) ++
            (currentReport.headers.drop currentReport.dimensionHeaders.length).flatMap
              (fun _ => [Cell.str "Current", Cell.str "Historical Avg", Cell.str "Z-Score"]))
          (currentReport.dimensionHeaders.map Cell.str ++
            (currentReport.headers.drop currentReport.dimensionHeaders.length).flatMap
              (fun h => [Cell.str h, Cell.str h, Cell.str h]))
          properties.dimensionCount = currentReport.dimensionHeaders.length := by
        unfold detectDimensionCount
        simp only [recurringHeader_indexOf _ _ hm, hl]
        rw [if_pos (by omega)]
      simp only [List.length_append, List.length_cons, List.length_nil, List.length_map,
        List.enum_length, Nat.zero_add, Nat.reduceAdd, hlen, if_false,
        List.getD_eq_getElem?_getD, List.cons_append, List.nil_append,
        List.getElem?_cons_succ, List.getElem?_cons_zero, Option.getD_some,
        recurringHeader_isRecurring _ _ hm, if_true, List.drop_succ_cons, List.drop_zero, hdc, hl]
      have hdiv : (currentReport.dimensionHeaders.length +
          3 * (currentReport.headers.length - currentReport.dimensionHeaders.length) -
          currentReport.dimensionHeaders.length) / 3
          = currentReport.headers.length - currentReport.dimensionHeaders.length := by
        omega
      rw [hdiv, if_neg (by omega)]
    obtain ⟨hcount, hrendered⟩ := scanRows_eq_filter toNumber true
      currentReport.dimensionHeaders.length
      (currentReport.headers.length - currentReport.dimensionHeaders.length)
      (numberOr toNumber properties.zScoreThreshold 3)
      (numberOr toNumber properties.varianceThreshold 10)
      (currentReport.rows.enum.map
        (fun p => recurringDataRow parseFloat currentReport.dimensionHeaders.length
          historicalReport.varianceData p.1 p.2))
    refine ⟨_, hcreate, ?_, ?_⟩
    · rw [hcount, hfilter, List.length_map]
    · rw [hrendered, hfilter]
  · intro s T hs ht hpos
    simp [numberOr, hs, ht, ne_of_gt hpos]
  · intro h
    simp [numberOr, h]

/-- Witness of C9: two data rows, z-scores `8` and `0`, stored threshold `"3"`. -/
theorem recurring_anomaly_count_witness :
    (["browser"] : List String).length < (["browser", "users"] : List String).length ∧
    ([["Chrome", "10"], ["Edge", "5"]] : List (List String)) ≠ [] ∧
    (∀ row ∈ ([["Chrome", "10"], ["Edge", "5"]] : List (List String)),
      row.length = (["browser", "users"] : List String).length) ∧
    (∃ report : AnomalyReport ℚ,
      createAnomalyReportHTML parseNatural String.toNat?
          ⟨some "1", some "10", some "3", some "1", some "1", none, none⟩
          (getValues (writeRecurringReportToSheet parseNatural "Daily Recurring Report"
            ⟨["browser", "users"], ["browser"], [["Chrome", "10"], ["Edge", "5"]], 2⟩
            ⟨["browser", "users"], ["browser"], [],
              [some (VarianceEntry.records [⟨none, 2, 1, some 8, none, some [1, 3]⟩]), none]⟩))
        = AnomalyResult.report report ∧
      report.anomalyCount = 1) ∧
    numberOr parseNatural
      (DocumentProperties.zScoreThreshold
        ⟨some "1", some "10", some "3", some "1", some "1", none, none⟩) 3 = 3 ∧
    numberOr parseNatural
      (DocumentProperties.zScoreThreshold
        ⟨some "1", some "10", none, some "1", some "1", none, none⟩) 3 = 3 := by
  refine ⟨by decide, by decide, by decide, ?_, ?_, ?_⟩
  · obtain ⟨report, h1, h2, _⟩ :=
      (recurring_anomaly_count parseNatural String.toNat? parseNatural "Daily Recurring Report"
        ⟨some "1", some "10", some "3", some "1", some "1", none, none⟩
        ⟨["browser", "users"], ["browser"], [["Chrome", "10"], ["Edge", "5"]], 2⟩
        ⟨["browser", "users"], ["browser"], [],
          [some (VarianceEntry.records [⟨none, 2, 1, some 8, none, some [1, 3]⟩]), none]⟩
        (by decide) (by decide) (by decide)).1
    refine ⟨report, h1, ?_⟩
    rw [h2]
    decide!
  · exact (recurring_anomaly_count parseNatural String.toNat? parseNatural "Daily Recurring Report"
        ⟨some "1", some "10", some "3", some "1", some "1", none, none⟩
        ⟨["browser", "users"], ["browser"], [["Chrome", "10"], ["Edge", "5"]], 2⟩
        ⟨["browser", "users"], ["browser"], [],
          [some (VarianceEntry.records [⟨none, 2, 1, some 8, none, some [1, 3]⟩]), none]⟩
        (by decide) (by decide) (by decide)).2.1 "3" 3 rfl (by decide!) (by norm_num)
  · exact (recurring_anomaly_count parseNatural String.toNat? parseNatural "Daily Recurring Report"
        ⟨some "1", some "10", none, some "1", some "1", none, none⟩
        ⟨["browser", "users"], ["browser"], [["Chrome", "10"], ["Edge", "5"]], 2⟩
        ⟨["browser", "users"], ["browser"], [],
          [some (VarianceEntry.records [⟨none, 2, 1, some 8, none, some [1, 3]⟩]), none]⟩
        (by decide) (by decide) (by decide)).2.2 rfl

/-- C10, the code at the failing inputs (percent threshold `"10"`).  A one-time
sheet with the single data row current `150` against previous `100` (difference
`50`) gives the string of line 2225 and no anomaly count; with a second data row
`100` against `105` the sheet is scanned from its fourth row on, so the first data
row, sheet row 3, is not examined and `anomalyCount` is `0`. -/
theorem oneTime_first_data_row_skipped :
    getValues (writeOneTimeReportToSheet parseNatural "2024/11/01-2024/11/30"
        "2024/12/01-2024/12/31"
        ⟨["browser", "users"], ["browser"], [["Chrome", "150"]], 1⟩
        ⟨["browser", "users"], ["browser"], [["Chrome", "100"]], 1⟩)
      = [[Cell.str "Dimensions", Cell.str "2024/11/01-2024/11/30",
            Cell.str "2024/12/01-2024/12/31", Cell.str "Difference (%)"],
          [Cell.str "browser", Cell.str "users", Cell.str "users", Cell.str "users"],
          [Cell.str "Chrome", Cell.num 150, Cell.num 100, Cell.num 50]] ∧
    createAnomalyReportHTML parseNatural String.toNat?
        ⟨some "1", some "10", none, some "1", some "1", none, none⟩
        (getValues (writeOneTimeReportToSheet parseNatural "2024/11/01-2024/11/30"
          "2024/12/01-2024/12/31"
          ⟨["browser", "users"], ["browser"], [["Chrome", "150"]], 1⟩
          ⟨["browser", "users"], ["browser"], [["Chrome", "100"]], 1⟩))
      = AnomalyResult.text "<p>No anomaly data available.</p>" ∧
    createAnomalyReportHTML parseNatural String.toNat?
        ⟨some "1", some "10", none, some "1", some "1", none, none⟩
        (getValues (writeOneTimeReportToSheet parseNatural "2024/11/01-2024/11/30"
          "2024/12/01-2024/12/31"
          ⟨["browser", "users"], ["browser"], [["Chrome", "150"], ["Edge", "100"]], 2⟩
          ⟨["browser", "users"], ["browser"], [["Chrome", "100"], ["Edge", "105"]], 2⟩))
      = AnomalyResult.report { anomalyCount := 0, renderedRows := [] } := by
  refine ⟨?_, ?_, ?_⟩ <;> decide!

/-- C11: in one-time mode, for every row index `i` of the current table and every
metric index `j` of that row, the combined output row `i` holds, in the three cells
of the metric, the current numeric value `v1`, the numeric value `v2` of metric `j`
in row `i` of the comparison table (the rows are paired by index; `0` when the
comparison table has no row `i`), and the difference `(v1 - v2) / v2 * 100` whenever
`v2` is not `0`; for current `150` and previous `100` the difference is `50`, and for
`100` and `105` it is `-500/105`. -/
theorem combinedData_cells (parseFloat : String → Option α) (report1 report2 : Report) :
    (∀ (i : Nat) (row1 : List String) (j : Nat), report1.rows[i]? = some row1 →
      report1.dimensionHeaders.length + j < row1.length →
      ∃ out : List (Cell α),
        (combinedData parseFloat report1 report2)[i]? = some out ∧
        out[report1.dimensionHeaders.length + 3 * j]?
          = some (Cell.num (parseOrZero parseFloat row1[report1.dimensionHeaders.length + j]?)) ∧
        out[report1.dimensionHeaders.length + 3 * j + 1]?
          = some (Cell.num
              (match report2.rows[i]? with
                | some row2 => parseOrZero parseFloat row2[report1.dimensionHeaders.length + j]?
                | none => 0)) ∧
        ((match report2.rows[i]? with
            | some row2 => parseOrZero parseFloat row2[report1.dimensionHeaders.length + j]?
            | none => (0 : α)) ≠ 0 →
          out[report1.dimensionHeaders.length + 3 * j + 2]?
            = some (Cell.num
                ((parseOrZero parseFloat row1[report1.dimensionHeaders.length + j]? -
                    (match report2.rows[i]? with
                      | some row2 =>
                        parseOrZero parseFloat row2[report1.dimensionHeaders.length + j]?
                      | none => 0)) /
                  (match report2.rows[i]? with
                    | some row2 => parseOrZero parseFloat row2[report1.dimensionHeaders.length + j]?
                    | none => 0) * 100)))) ∧
    combinedData parseNatural ⟨["browser", "users"], ["browser"], [["Chrome", "150"]], 1⟩
        ⟨["browser", "users"], ["browser"], [["Chrome", "100"]], 1⟩
      = [[Cell.str "Chrome", Cell.num 150, Cell.num 100, Cell.num 50]] ∧
    combinedData parseNatural ⟨["browser", "users"], ["browser"], [["Chrome", "100"]], 1⟩
        ⟨["browser", "users"], ["browser"], [["Chrome", "105"]], 1⟩
      = [[Cell.str "Chrome", Cell.num 100, Cell.num 105, Cell.num (-500 / 105)]] := by
  refine ⟨?_, by decide!, by decide!⟩
  intro i row1 j hrow hj
  have hlen : ((row1.take report1.dimensionHeaders.length).map (Cell.str : String → Cell α)).length
      = report1.dimensionHeaders.length := by
    simp only [List.length_map, List.length_take]
    omega
  have hj' : j < (row1.drop report1.dimensionHeaders.length).length := by
    rw [List.length_drop]
    omega
  have hentry : (row1.drop report1.dimensionHeaders.length).enum[j]?
      = some (j, row1[report1.dimensionHeaders.length + j]) := by
    rw [List.getElem?_enum, List.getElem?_eq_getElem hj']
    simp [List.getElem_drop]
  have hcell : row1[report1.dimensionHeaders.length + j]?
      = some row1[report1.dimensionHeaders.length + j] := List.getElem?_eq_getElem hj
  refine ⟨combinedRow parseFloat report1 report2 i row1, ?_, ?_, ?_, ?_⟩
  · unfold combinedData
    rw [List.getElem?_map, List.getElem?_enum, hrow]
    rfl
  · unfold combinedRow
    simp only
    rw [List.getElem?_append_right (by rw [hlen]; omega), hlen]
    have hidx : report1.dimensionHeaders.length + 3 * j - report1.dimensionHeaders.length = 3 * j := by
      omega
    rw [hidx, (getElem?_flatMap_triple _ _ _ _ j).1, hentry, hcell]
    rfl
  · unfold combinedRow
    simp only
    rw [List.getElem?_append_right (by rw [hlen]; omega), hlen]
    have hidx : report1.dimensionHeaders.length + 3 * j + 1 - report1.dimensionHeaders.length
        = 3 * j + 1 := by
      omega
    rw [hidx, (getElem?_flatMap_triple _ _ _ _ j).2.1, hentry]
    simp only [Option.map_some', List.getElem?_drop]
  · intro hne
    unfold combinedRow
    simp only
    rw [List.getElem?_append_right (by rw [hlen]; omega), hlen]
    have hidx : report1.dimensionHeaders.length + 3 * j + 2 - report1.dimensionHeaders.length
        = 3 * j + 2 := by
      omega
    rw [hidx, (getElem?_flatMap_triple _ _ _ _ j).2.2, hentry, hcell]
    simp only [Option.map_some', List.getElem?_drop]
    rw [if_pos hne]

/-- Witness of C11: current `150` against previous `100`, row `0`, metric `0`. -/
theorem combinedData_cells_witness :
    (Report.rows ⟨["browser", "users"], ["browser"], [["Chrome", "150"]], 1⟩)[0]?
      = some ["Chrome", "150"] ∧
    (Report.dimensionHeaders ⟨["browser", "users"], ["browser"], [["Chrome", "150"]], 1⟩).length + 0
      < ["Chrome", "150"].length ∧
    ∃ out : List (Cell ℚ),
      (combinedData parseNatural ⟨["browser", "users"], ["browser"], [["Chrome", "150"]], 1⟩
        ⟨["browser", "users"], ["browser"], [["Chrome", "100"]], 1⟩)[0]? = some out ∧
      out[1]? = some (Cell.num 150) ∧ out[2]? = some (Cell.num 100) ∧
      out[3]? = some (Cell.num 50) := by
  refine ⟨by decide, by decide, ?_⟩
  obtain ⟨out, h0, h1, h2, h3⟩ :=
    (combinedData_cells parseNatural ⟨["browser", "users"], ["browser"], [["Chrome", "150"]], 1⟩
      ⟨["browser", "users"], ["browser"], [["Chrome", "100"]], 1⟩).1 0 ["Chrome", "150"] 0
      (by decide) (by decide)
  refine ⟨out, h0, ?_, ?_, ?_⟩
  · rw [show (1 : Nat) = (Report.dimensionHeaders
        ⟨["browser", "users"], ["browser"], [["Chrome", "150"]], 1⟩).length + 3 * 0 from rfl, h1]
    decide!
  · rw [show (2 : Nat) = (Report.dimensionHeaders
        ⟨["browser", "users"], ["browser"], [["Chrome", "150"]], 1⟩).length + 3 * 0 + 1 from rfl, h2]
    decide!
  · rw [show (3 : Nat) = (Report.dimensionHeaders
        ⟨["browser", "users"], ["browser"], [["Chrome", "150"]], 1⟩).length + 3 * 0 + 2 from rfl,
      h3 (by decide!)]
    decide!

/-- The difference cell of the metric `j` in the combined row of the current row
`row1`. -/
theorem combinedRow_difference (parseFloat : String → Option α) (report1 report2 : Report)
    (i : Nat) (row1 : List String) (j : Nat)
    (hj : report1.dimensionHeaders.length + j < row1.length) :
    (combinedRow parseFloat report1 report2 i row1)[report1.dimensionHeaders.length + 3 * j + 2]?
      = some (Cell.num
          (if (match report2.rows[i]? with
                | some row2 => parseOrZero parseFloat row2[report1.dimensionHeaders.length + j]?
                | none => (0 : α)) ≠ 0 then
            (parseOrZero parseFloat row1[report1.dimensionHeaders.length + j]? -
                (match report2.rows[i]? with
                  | some row2 => parseOrZero parseFloat row2[report1.dimensionHeaders.length + j]?
                  | none => 0)) /
              (match report2.rows[i]? with
                | some row2 => parseOrZero parseFloat row2[report1.dimensionHeaders.length + j]?
                | none => 0) * 100
          else 0)) := by
  have hlen : ((row1.take report1.dimensionHeaders.length).map (Cell.str : String → Cell α)).length
      = report1.dimensionHeaders.length := by
    simp only [List.length_map, List.length_take]
    omega
  have hj' : j < (row1.drop report1.dimensionHeaders.length).length := by
    rw [List.length_drop]
    omega
  have hentry : (row1.drop report1.dimensionHeaders.length).enum[j]?
      = some (j, row1[report1.dimensionHeaders.length + j]) := by
    rw [List.getElem?_enum, List.getElem?_eq_getElem hj']
    simp [List.getElem_drop]
  have hcell : row1[report1.dimensionHeaders.length + j]?
      = some row1[report1.dimensionHeaders.length + j] := List.getElem?_eq_getElem hj
  unfold combinedRow
  simp only
  rw [List.getElem?_append_right (by rw [hlen]; omega), hlen]
  have hidx : report1.dimensionHeaders.length + 3 * j + 2 - report1.dimensionHeaders.length
      = 3 * j + 2 := by
    omega
  rw [hidx, (getElem?_flatMap_triple _ _ _ _ j).2.2, hentry, hcell]
  simp only [Option.map_some', List.getElem?_drop]

/-- C27: in one-time mode, for every current row (index `i`) and metric `j`, when
the comparison table has no row `i`, or its row `i` has no value for the metric,
an unparsable value or the value `0`, the difference cell of the combined row is
`0` whatever the current value is, and `0` exceeds no threshold `P ≥ 0`; the
comparison rows at indices from the length of the current table on are ignored,
and the output has as many rows as the current table. -/
theorem oneTime_zero_difference (parseFloat toNumber : String → Option α)
    (report1 report2 : Report) :
    (∀ (i : Nat) (row1 : List String) (j : Nat), report1.rows[i]? = some row1 →
      report1.dimensionHeaders.length + j < row1.length →
      (report2.rows[i]? = none ∨
        ∃ row2 : List String, report2.rows[i]? = some row2 ∧
          (row2[report1.dimensionHeaders.length + j]? = none ∨
            ∃ s : String, row2[report1.dimensionHeaders.length + j]? = some s ∧
              (parseFloat s = none ∨ parseFloat s = some 0))) →
      ∃ out : List (Cell α),
        (combinedData parseFloat report1 report2)[i]? = some out ∧
        out[report1.dimensionHeaders.length + 3 * j + 2]? = some (Cell.num 0) ∧
        ∀ P : α, 0 ≤ P →
          exceeds toNumber P out[report1.dimensionHeaders.length + 3 * j + 2]? = false) ∧
    (combinedData parseFloat report1 report2).length = report1.rows.length ∧
    combinedData parseFloat report1 report2
      = combinedData parseFloat report1
          { report2 with rows := report2.rows.take report1.rows.length } := by
  refine ⟨?_, ?_, ?_⟩
  · intro i row1 j hrow hj hcause
    have hzero : (match report2.rows[i]? with
        | some row2 => parseOrZero parseFloat row2[report1.dimensionHeaders.length + j]?
        | none => (0 : α)) = 0 := by
      rcases hcause with hnone | ⟨row2, hrow2, hcell⟩
      · rw [hnone]
      · rw [hrow2]
        simp only
        rcases hcell with hmissing | ⟨s, hs, hparse⟩
        · rw [hmissing]
          rfl
        · rw [hs]
          rcases hparse with hnan | hnull
          · simp [parseOrZero, hnan]
          · simp [parseOrZero, hnull]
    have hcell := combinedRow_difference parseFloat report1 report2 i row1 j hj
    rw [hzero] at hcell
    simp only [ne_eq, not_true_eq_false, if_false] at hcell
    refine ⟨combinedRow parseFloat report1 report2 i row1, ?_, hcell, ?_⟩
    · unfold combinedData
      rw [List.getElem?_map, List.getElem?_enum, hrow]
      rfl
    · intro P hP
      rw [hcell]
      simp only [exceeds, cellNumber, abs_zero, gt_iff_lt, decide_eq_false_iff_not, not_lt]
      exact hP
  · simp [combinedData]
  · unfold combinedData
    apply List.map_congr_left
    intro p hp
    have hlt := List.fst_lt_of_mem_enum hp
    unfold combinedRow
    simp only [List.getElem?_take_of_lt hlt]

/-- Witness of C27: the comparison value `"0"` against the current value `"150"`, and
a comparison table with a second row that the current table does not have. -/
theorem oneTime_zero_difference_witness :
    (Report.rows ⟨["browser", "users"], ["browser"], [["Chrome", "150"]], 1⟩)[0]?
      = some ["Chrome", "150"] ∧
    (∃ out : List (Cell ℚ),
      (combinedData parseNatural ⟨["browser", "users"], ["browser"], [["Chrome", "150"]], 1⟩
        ⟨["browser", "users"], ["browser"], [["Chrome", "0"], ["Edge", "7"]], 2⟩)[0]?
        = some out ∧
      out[1 + 3 * 0 + 2]? = some (Cell.num 0)) ∧
    (combinedData parseNatural ⟨["browser", "users"], ["browser"], [["Chrome", "150"]], 1⟩
      ⟨["browser", "users"], ["browser"], [["Chrome", "0"], ["Edge", "7"]], 2⟩).length = 1 := by
  refine ⟨rfl, ?_, ?_⟩
  · obtain ⟨out, h1, h2, _⟩ :=
      (oneTime_zero_difference parseNatural parseNatural
        ⟨["browser", "users"], ["browser"], [["Chrome", "150"]], 1⟩
        ⟨["browser", "users"], ["browser"], [["Chrome", "0"], ["Edge", "7"]], 2⟩).1
        0 ["Chrome", "150"] 0 rfl (by decide)
        (Or.inr ⟨["Chrome", "0"], rfl, Or.inr ⟨"0", rfl, Or.inr (by decide!)⟩⟩)
    exact ⟨out, h1, h2⟩
  · exact (oneTime_zero_difference parseNatural parseNatural
      ⟨["browser", "users"], ["browser"], [["Chrome", "150"]], 1⟩
      ⟨["browser", "users"], ["browser"], [["Chrome", "0"], ["Edge", "7"]], 2⟩).2.1

end SheetTheorems

section OrchestrationTheorems

variable {α : Type} [LinearOrderedField α]

/-- C12: in hourly recurring mode (a property selected, well-formed selections),
whenever the current fetch returns `null` or a table with zero rows, for every `d`
dimensions and `m` metrics selected, `validateSelectionsAndFetchData` raises no
error and returns a current table with exactly one row made of `d` copies of
`"No Data"` followed by `m` copies of `"0"`, and `rowCount` 1; with `d = m = 1`
the row is `["No Data", "0"]`. -/
theorem hourly_placeholder_row (host : Host α) (selections : Selections) (world : World α)
    (propertyId : String) (dates : Dates) (dimensions metrics : List String)
    (hproperty : world.properties.selectedPropertyId = some propertyId)
    (hnonempty : propertyId ≠ "")
    (htype : selections.reportType = "recurring")
    (hdates : selections.dates = some dates)
    (hoption : dates.recurringOption = some "hourly")
    (hdimensions : selections.dimensions = some dimensions)
    (hmetrics : selections.metrics = some metrics)
    (hempty : hasRows (getGA4Report host.runReport propertyId dimensions metrics
      (singleDay host (host.today - 1)) { hourly := true, hour := some host.currentHour })
      = false) :
    (∃ (result : ValidationResult α) (recurring : RecurringResult α),
      (validateSelectionsAndFetchData host (some selections) world).1 = Except.ok result ∧
      result.reports = ReportData.recurring recurring ∧
      recurring.report1.rows
        = [List.replicate dimensions.length "No Data" ++ List.replicate metrics.length "0"] ∧
      recurring.report1.rowCount = 1) ∧
    (dimensions.length = 1 → metrics.length = 1 →
      List.replicate dimensions.length "No Data" ++ List.replicate metrics.length "0"
        = ["No Data", "0"]) := by
  constructor
  · have hplace : ∀ historicalFetches : List (Option Report),
        (hourlyBranch host.sqrt host.parseFloat dimensions metrics historicalFetches
          (getGA4Report host.runReport propertyId dimensions metrics
            (singleDay host (host.today - 1))
            { hourly := true, hour := some host.currentHour })).report1
          = placeholderReport dimensions metrics := by
      intro historicalFetches
      rw [hourlyBranch_report1]
      cases hfetch : getGA4Report host.runReport propertyId dimensions metrics
          (singleDay host (host.today - 1)) { hourly := true, hour := some host.currentHour } with
      | none => rfl
      | some report =>
        rw [hfetch] at hempty
        simp only [hasRows, decide_eq_false_iff_not, not_lt, Nat.le_zero_eq] at hempty
        simp only [hempty, if_true]
    have hval : (validateSelectionsAndFetchData host (some selections) world).1
        = Except.ok
          { reports := ReportData.recurring
              (hourlyBranch host.sqrt host.parseFloat dimensions metrics
                (fetchReports host propertyId dimensions metrics
                  { hourly := true, hour := some host.currentHour }
                  (saveThresholds selections world)
                  (historicalDateRanges host (host.today - 1) 4)).1
                (getGA4Report host.runReport propertyId dimensions metrics
                  (singleDay host (host.today - 1))
                  { hourly := true, hour := some host.currentHour }))
            varianceThreshold := selections.variance
            zScoreThreshold := selections.zScoreThreshold
            dateRanges := singleDay host (host.today - 1) ::
              historicalDateRanges host (host.today - 1) 4 } := by
      unfold validateSelectionsAndFetchData
      simp only [hproperty, hnonempty, if_false, htype, if_true, hdates, hoption]
      unfold validateHourly
      simp only [hdimensions, hmetrics]
      rfl
    refine ⟨_, _, hval, rfl, ?_, ?_⟩
    · rw [hplace]
      rfl
    · rw [hplace]
      rfl
  · intro hd hm
    rw [hd, hm]
    rfl

/-- Witness of C12: the analytics service answers every request with `null`. -/
theorem hourly_placeholder_row_witness :
    (evaluationWorld none).properties.selectedPropertyId = some "189677427" ∧
    (evaluationSelections "recurring" (some "hourly")).reportType = "recurring" ∧
    hasRows (getGA4Report (evaluationHost (fun _ => Except.ok none)).runReport "189677427"
      ["browser"] ["users"]
      (singleDay (evaluationHost (fun _ => Except.ok none))
        ((evaluationHost (fun _ => Except.ok none)).today - 1))
      { hourly := true, hour := some (evaluationHost (fun _ => Except.ok none)).currentHour })
      = false ∧
    ∃ (result : ValidationResult ℚ) (recurring : RecurringResult ℚ),
      (validateSelectionsAndFetchData (evaluationHost (fun _ => Except.ok none))
        (some (evaluationSelections "recurring" (some "hourly"))) (evaluationWorld none)).1
        = Except.ok result ∧
      result.reports = ReportData.recurring recurring ∧
      recurring.report1.rows = [["No Data", "0"]] ∧
      recurring.report1.rowCount = 1 :=
  ⟨rfl, rfl, by decide,
    (hourly_placeholder_row (evaluationHost (fun _ => Except.ok none))
      (evaluationSelections "recurring" (some "hourly")) (evaluationWorld none) "189677427"
      { range1 := some { startDate := "2024-11-01", endDate := "2024-11-30" }
        range2 := some { startDate := "2024-12-01", endDate := "2024-12-31" }
        recurringOption := some "hourly" }
      ["browser"] ["users"] rfl (by decide) rfl rfl rfl rfl rfl (by decide)).1⟩

/-- C13: in daily recurring mode (a property selected, well-formed selections),
whenever the current fetch returns `null` or a table with zero rows,
`validateSelectionsAndFetchData` raises the error `'No data available for
yesterday'` instead of synthesizing a placeholder row, and `writeReportsToSheet`
returns `success = false` with the message `"Error: No data available for
yesterday"`, the text of the error. -/
theorem daily_no_current_data (host : Host α) (selections : Selections) (world : World α)
    (propertyId : String) (dates : Dates) (dimensions metrics : List String)
    (hproperty : world.properties.selectedPropertyId = some propertyId)
    (hnonempty : propertyId ≠ "")
    (htype : selections.reportType = "recurring")
    (hdates : selections.dates = some dates)
    (hoption : dates.recurringOption = some "daily")
    (hdimensions : selections.dimensions = some dimensions)
    (hmetrics : selections.metrics = some metrics)
    (hempty : hasRows (getGA4Report host.runReport propertyId dimensions metrics
      (singleDay host (host.today - 1)) { hourly := false, hour := none }) = false) :
    (validateSelectionsAndFetchData host (some selections) world).1
      = Except.error (newError "No data available for yesterday") ∧
    (writeReportsToSheet host (some selections) world).1
      = { success := false, message := "Error: No data available for yesterday" } := by
  have hval : validateSelectionsAndFetchData host (some selections) world
      = (Except.error (newError "No data available for yesterday"),
          (fetchReport host propertyId dimensions metrics { hourly := false, hour := none }
            (saveThresholds selections world) (singleDay host (host.today - 1))).2) := by
    unfold validateSelectionsAndFetchData
    have hne : ¬ (some "daily" : Option String) = some "hourly" := by decide
    simp only [hproperty, hnonempty, if_false, htype, if_true, hdates, hoption, hne]
    unfold validateDaily
    simp only [hdimensions, hmetrics, fetchReport, hempty, Bool.false_eq_true, if_false]
    rfl
  refine ⟨by rw [hval], ?_⟩
  unfold writeReportsToSheet writeReportsToSheetBody
  rw [hval]
  rfl

/-- Witness of C13: the analytics service answers every request with a response
without rows. -/
theorem daily_no_current_data_witness :
    hasRows (getGA4Report
      (evaluationHost (fun _ => Except.ok (some ⟨["browser"], ["users"], none, 0⟩))).runReport
      "189677427" ["browser"] ["users"]
      (singleDay (evaluationHost (fun _ => Except.ok (some ⟨["browser"], ["users"], none, 0⟩)))
        ((evaluationHost (fun _ => Except.ok (some ⟨["browser"], ["users"], none, 0⟩))).today - 1))
      { hourly := false, hour := none }) = false ∧
    (validateSelectionsAndFetchData
        (evaluationHost (fun _ => Except.ok (some ⟨["browser"], ["users"], none, 0⟩)))
        (some (evaluationSelections "recurring" (some "daily"))) (evaluationWorld none)).1
      = Except.error (newError "No data available for yesterday") ∧
    (writeReportsToSheet
        (evaluationHost (fun _ => Except.ok (some ⟨["browser"], ["users"], none, 0⟩)))
        (some (evaluationSelections "recurring" (some "daily"))) (evaluationWorld none)).1
      = { success := false, message := "Error: No data available for yesterday" } :=
  ⟨by decide,
    daily_no_current_data
      (evaluationHost (fun _ => Except.ok (some ⟨["browser"], ["users"], none, 0⟩)))
      (evaluationSelections "recurring" (some "daily")) (evaluationWorld none) "189677427"
      { range1 := some { startDate := "2024-11-01", endDate := "2024-11-30" }
        range2 := some { startDate := "2024-12-01", endDate := "2024-12-31" }
        recurringOption := some "daily" }
      ["browser"] ["users"] rfl (by decide) rfl rfl rfl rfl rfl (by decide)⟩

/-- The one-time branch with well-formed selections: the state after the two
fetches, and the result, an error exactly when a fetch returned `null`. -/
theorem validateOneTime_eq (host : Host α) (selections : Selections) (world : World α)
    (propertyId : String) (dates : Dates) (range1 range2 : DateRange)
    (dimensions metrics : List String)
    (hproperty : world.properties.selectedPropertyId = some propertyId)
    (hnonempty : propertyId ≠ "")
    (htype : selections.reportType ≠ "recurring")
    (hdates : selections.dates = some dates)
    (hrange1 : dates.range1 = some range1) (hrange2 : dates.range2 = some range2)
    (hdimensions : selections.dimensions = some dimensions)
    (hmetrics : selections.metrics = some metrics) :
    (validateSelectionsAndFetchData host (some selections) world).1
      = (match getGA4Report host.runReport propertyId dimensions metrics range1
            { hourly := false, hour := none },
          getGA4Report host.runReport propertyId dimensions metrics range2
            { hourly := false, hour := none } with
        | some report1, some report2 =>
          Except.ok
            { reports := ReportData.oneTime report1 report2
              varianceThreshold := selections.variance
              zScoreThreshold := selections.zScoreThreshold
              dateRanges := [range1, range2] }
        | _, _ => Except.error (newError "Failed to fetch reports")) := by
  unfold validateSelectionsAndFetchData
  simp only [hproperty, hnonempty, if_false, htype]
  unfold validateOneTime
  simp only [hdates, hrange1, hrange2, hdimensions, hmetrics, fetchReport]
  cases getGA4Report host.runReport propertyId dimensions metrics range1
      { hourly := false, hour := none } <;>
    cases getGA4Report host.runReport propertyId dimensions metrics range2
      { hourly := false, hour := none } <;> rfl

/-- C14, as amended: in one-time mode (a property selected, well-formed
selections), whenever the current fetch or the comparison fetch returns `null`,
`validateSelectionsAndFetchData` raises `'Failed to fetch reports'` and
`writeReportsToSheet` returns `success = false`; when both fetches return tables,
also tables with zero rows, `validateSelectionsAndFetchData` raises no error and
returns them. -/
theorem oneTime_fetch_results (host : Host α) (selections : Selections) (world : World α)
    (propertyId : String) (dates : Dates) (range1 range2 : DateRange)
    (dimensions metrics : List String)
    (hproperty : world.properties.selectedPropertyId = some propertyId)
    (hnonempty : propertyId ≠ "")
    (htype : selections.reportType ≠ "recurring")
    (hdates : selections.dates = some dates)
    (hrange1 : dates.range1 = some range1) (hrange2 : dates.range2 = some range2)
    (hdimensions : selections.dimensions = some dimensions)
    (hmetrics : selections.metrics = some metrics) :
    ((getGA4Report host.runReport propertyId dimensions metrics range1
          { hourly := false, hour := none } = none ∨
        getGA4Report host.runReport propertyId dimensions metrics range2
          { hourly := false, hour := none } = none) →
      (validateSelectionsAndFetchData host (some selections) world).1
        = Except.error (newError "Failed to fetch reports") ∧
      (writeReportsToSheet host (some selections) world).1
        = { success := false, message := "Error: Failed to fetch reports" }) ∧
    (∀ report1 report2 : Report,
      getGA4Report host.runReport propertyId dimensions metrics range1
          { hourly := false, hour := none } = some report1 →
      getGA4Report host.runReport propertyId dimensions metrics range2
          { hourly := false, hour := none } = some report2 →
      (validateSelectionsAndFetchData host (some selections) world).1
        = Except.ok
          { reports := ReportData.oneTime report1 report2
            varianceThreshold := selections.variance
            zScoreThreshold := selections.zScoreThreshold
            dateRanges := [range1, range2] }) := by
  have hval := validateOneTime_eq host selections world propertyId dates range1 range2
    dimensions metrics hproperty hnonempty htype hdates hrange1 hrange2 hdimensions hmetrics
  constructor
  · intro hnull
    have herr : (validateSelectionsAndFetchData host (some selections) world).1
        = Except.error (newError "Failed to fetch reports") := by
      rw [hval]
      rcases hnull with h | h
      · rw [h]
      · rw [h]
        cases getGA4Report host.runReport propertyId dimensions metrics range1
          { hourly := false, hour := none } <;> rfl
    refine ⟨herr, ?_⟩
    unfold writeReportsToSheet writeReportsToSheetBody
    cases hv : validateSelectionsAndFetchData host (some selections) world with
    | mk res w =>
      rw [hv] at herr
      simp only at herr
      subst herr
      rfl
  · intro report1 report2 h1 h2
    rw [hval, h1, h2]

/-- Witness of C14: the service answers with `null`; and with a one-row table. -/
theorem oneTime_fetch_results_witness :
    (getGA4Report (evaluationHost (fun _ => Except.ok none)).runReport "189677427" ["browser"]
        ["users"] { startDate := "2024-11-01", endDate := "2024-11-30" }
        { hourly := false, hour := none } = none ∧
      (validateSelectionsAndFetchData (evaluationHost (fun _ => Except.ok none))
        (some (evaluationSelections "oneTime" none)) (evaluationWorld none)).1
        = Except.error (newError "Failed to fetch reports") ∧
      (writeReportsToSheet (evaluationHost (fun _ => Except.ok none))
        (some (evaluationSelections "oneTime" none)) (evaluationWorld none)).1
        = { success := false, message := "Error: Failed to fetch reports" }) ∧
    (getGA4Report
        (evaluationHost (fun _ => Except.ok
          (some ⟨["browser"], ["users"], some [⟨["Chrome"], ["150"]⟩], 1⟩))).runReport
        "189677427" ["browser"] ["users"] { startDate := "2024-11-01", endDate := "2024-11-30" }
        { hourly := false, hour := none }
        = some ⟨["browser", "users"], ["browser"], [["Chrome", "150"]], 1⟩ ∧
      (validateSelectionsAndFetchData
        (evaluationHost (fun _ => Except.ok
          (some ⟨["browser"], ["users"], some [⟨["Chrome"], ["150"]⟩], 1⟩)))
        (some (evaluationSelections "oneTime" none)) (evaluationWorld none)).1
        = Except.ok
          { reports := ReportData.oneTime
              ⟨["browser", "users"], ["browser"], [["Chrome", "150"]], 1⟩
              ⟨["browser", "users"], ["browser"], [["Chrome", "150"]], 1⟩
            varianceThreshold := "10"
            zScoreThreshold := some "3"
            dateRanges := [{ startDate := "2024-11-01", endDate := "2024-11-30" },
              { startDate := "2024-12-01", endDate := "2024-12-31" }] }) :=
  ⟨⟨by decide,
      (oneTime_fetch_results (evaluationHost (fun _ => Except.ok none))
        (evaluationSelections "oneTime" none) (evaluationWorld none) "189677427"
        { range1 := some { startDate := "2024-11-01", endDate := "2024-11-30" }
          range2 := some { startDate := "2024-12-01", endDate := "2024-12-31" }
          recurringOption := none }
        { startDate := "2024-11-01", endDate := "2024-11-30" }
        { startDate := "2024-12-01", endDate := "2024-12-31" }
        ["browser"] ["users"] rfl (by decide) (by decide) rfl rfl rfl rfl rfl).1
        (Or.inl (by decide))⟩,
    ⟨by decide,
      (oneTime_fetch_results
        (evaluationHost (fun _ => Except.ok
          (some ⟨["browser"], ["users"], some [⟨["Chrome"], ["150"]⟩], 1⟩)))
        (evaluationSelections "oneTime" none) (evaluationWorld none) "189677427"
        { range1 := some { startDate := "2024-11-01", endDate := "2024-11-30" }
          range2 := some { startDate := "2024-12-01", endDate := "2024-12-31" }
          recurringOption := none }
        { startDate := "2024-11-01", endDate := "2024-11-30" }
        { startDate := "2024-12-01", endDate := "2024-12-31" }
        ["browser"] ["users"] rfl (by decide) (by decide) rfl rfl rfl rfl rfl).2
        ⟨["browser", "users"], ["browser"], [["Chrome", "150"]], 1⟩
        ⟨["browser", "users"], ["browser"], [["Chrome", "150"]], 1⟩ (by decide) (by decide)⟩⟩

/-- C14, counterexample: in one-time mode, when the analytics service answers the
current fetch with a table that has zero rows (a response whose `rows` is the
empty array), `validateSelectionsAndFetchData` raises no error: it returns the
two tables, the current one without rows. -/
theorem oneTime_empty_table_not_fatal :
    getGA4Report
        (evaluationHost (fun _ => Except.ok (some ⟨["browser"], ["users"], some [], 0⟩))).runReport
        "189677427" ["browser"] ["users"] { startDate := "2024-11-01", endDate := "2024-11-30" }
        { hourly := false, hour := none }
      = some ⟨["browser", "users"], ["browser"], [], 0⟩ ∧
    (validateSelectionsAndFetchData
        (evaluationHost (fun _ => Except.ok (some ⟨["browser"], ["users"], some [], 0⟩)))
        (some (evaluationSelections "oneTime" none)) (evaluationWorld none)).1
      = Except.ok
        { reports := ReportData.oneTime
            ⟨["browser", "users"], ["browser"], [], 0⟩
            ⟨["browser", "users"], ["browser"], [], 0⟩
          varianceThreshold := "10"
          zScoreThreshold := some "3"
          dateRanges := [{ startDate := "2024-11-01", endDate := "2024-11-30" },
            { startDate := "2024-12-01", endDate := "2024-12-31" }] } := by
  refine ⟨by decide, ?_⟩
  rw [validateOneTime_eq
    (evaluationHost (fun _ => Except.ok (some ⟨["browser"], ["users"], some [], 0⟩)))
    (evaluationSelections "oneTime" none) (evaluationWorld none) "189677427"
    { range1 := some { startDate := "2024-11-01", endDate := "2024-11-30" }
      range2 := some { startDate := "2024-12-01", endDate := "2024-12-31" }
      recurringOption := none }
    { startDate := "2024-11-01", endDate := "2024-11-30" }
    { startDate := "2024-12-01", endDate := "2024-12-31" }
    ["browser"] ["users"] rfl (by decide) (by decide) rfl rfl rfl rfl rfl]
  rfl

/-- C15: for every selections payload (also a missing one) and every report mode,
when no selected property identifier is stored, `validateSelectionsAndFetchData`
raises `'No property selected'` in the unchanged state, that is before any fetch
and before any write to the property store, and `writeReportsToSheet` returns
`success = false` (with the text of that error), also in the unchanged state. -/
theorem no_property_selected (host : Host α) (selections : Option Selections)
    (world : World α) (hproperty : world.properties.selectedPropertyId = none) :
    validateSelectionsAndFetchData host selections world
      = (Except.error (newError "No property selected"), world) ∧
    writeReportsToSheet host selections world
      = ({ success := false, message := "Error: No property selected" }, world) := by
  have hval : validateSelectionsAndFetchData host selections world
      = (Except.error (newError "No property selected"), world) := by
    unfold validateSelectionsAndFetchData
    simp only [hproperty]
    rfl
  refine ⟨hval, ?_⟩
  unfold writeReportsToSheet writeReportsToSheetBody
  rw [hval]
  rfl

/-- Witness of C15: a state without `selectedPropertyId`, hourly selections. -/
theorem no_property_selected_witness :
    (World.properties
      ({ properties := ⟨none, none, none, none, none, none, none⟩, requests := [],
         activeSheet := [], emails := [] } : World ℚ)).selectedPropertyId = none ∧
    (validateSelectionsAndFetchData (evaluationHost (fun _ => Except.ok none))
      (some (evaluationSelections "recurring" (some "hourly")))
      { properties := ⟨none, none, none, none, none, none, none⟩, requests := [],
        activeSheet := [], emails := [] }).2.requests = [] ∧
    (writeReportsToSheet (evaluationHost (fun _ => Except.ok none))
      (some (evaluationSelections "recurring" (some "hourly")))
      { properties := ⟨none, none, none, none, none, none, none⟩, requests := [],
        activeSheet := [], emails := [] }).1
      = { success := false, message := "Error: No property selected" } := by
  have h := no_property_selected (evaluationHost (fun _ => Except.ok none))
    (some (evaluationSelections "recurring" (some "hourly")))
    ({ properties := ⟨none, none, none, none, none, none, none⟩, requests := [],
       activeSheet := [], emails := [] } : World ℚ) rfl
  exact ⟨rfl, by rw [h.1], by rw [h.2]⟩

/-- C16: for every host (every answer or failure of the analytics service, every
failure of the spreadsheet service), every selections payload (also a missing or
malformed one) and every state, `writeReportsToSheet` returns a result:
`success = true` with the message `"Report generated successfully"` when its body
raised no error, and `success = false` with the text of the error otherwise; an
error raised by `validateSelectionsAndFetchData` is one of these. -/
theorem writeReportsToSheet_result (host : Host α) (selections : Option Selections)
    (world : World α) :
    ((∃ world', writeReportsToSheetBody host selections world = (Except.ok (), world') ∧
        writeReportsToSheet host selections world
          = ({ success := true, message := "Report generated successfully" }, world')) ∨
      (∃ error world', writeReportsToSheetBody host selections world
          = (Except.error error, world') ∧
        writeReportsToSheet host selections world
          = ({ success := false, message := error.toString }, world'))) ∧
    (∀ error, (validateSelectionsAndFetchData host selections world).1 = Except.error error →
      (writeReportsToSheet host selections world).1
        = { success := false, message := error.toString }) := by
  constructor
  · unfold writeReportsToSheet
    cases hbody : writeReportsToSheetBody host selections world with
    | mk res world' =>
      cases res with
      | ok u => exact Or.inl ⟨world', rfl, rfl⟩
      | error e => exact Or.inr ⟨e, world', rfl, rfl⟩
  · intro error herr
    unfold writeReportsToSheet writeReportsToSheetBody
    cases hv : validateSelectionsAndFetchData host selections world with
    | mk res w =>
      rw [hv] at herr
      simp only at herr
      subst herr
      rfl

/-- Witness of C16: missing selections with a property selected. -/
theorem writeReportsToSheet_result_witness :
    (validateSelectionsAndFetchData (evaluationHost (fun _ => Except.ok none)) none
      (evaluationWorld none)).1 = Except.error typeError ∧
    (writeReportsToSheet (evaluationHost (fun _ => Except.ok none)) none
      (evaluationWorld none)).1
      = { success := false, message := typeError.toString } :=
  ⟨rfl,
    (writeReportsToSheet_result (evaluationHost (fun _ => Except.ok none)) none
      (evaluationWorld none)).2 typeError rfl⟩

/-- C17, the code on every input: `writeReportsToSheetAndSendAnomalyEmail` has no
`return` with a value, so what it returns to its caller is `undefined` whatever
the argument, the host and the state are, and never the `{success, message}`
object of `writeReportsToSheet`. -/
theorem entry_point_returns_undefined (host : Host α) (trigger : TriggerArgument)
    (world : World α) :
    (writeReportsToSheetAndSendAnomalyEmail host trigger world).1 = none := by
  unfold writeReportsToSheetAndSendAnomalyEmail
  cases trigger with
  | absent => rfl
  | metadata =>
    simp only
    cases world.properties.selections <;> rfl
  | selections payload => rfl

theorem validate_none (host : Host α) (world : World α) :
    ∃ error, validateSelectionsAndFetchData host none world = (Except.error error, world) := by
  unfold validateSelectionsAndFetchData
  cases world.properties.selectedPropertyId with
  | none => exact ⟨_, rfl⟩
  | some propertyId =>
    by_cases h : propertyId = ""
    · exact ⟨newError "No property selected", by simp only [h, if_true]; rfl⟩
    · exact ⟨typeError, by simp only [h, if_false]; rfl⟩

theorem writeReportsToSheet_none (host : Host α) (world : World α) :
    (writeReportsToSheet host none world).1.success = false ∧
    (writeReportsToSheet host none world).2 = world := by
  obtain ⟨error, herr⟩ := validate_none host world
  unfold writeReportsToSheet writeReportsToSheetBody
  rw [herr]
  exact ⟨rfl, rfl⟩

/-- C18, as amended: called with scheduler trigger metadata while selections are
persisted, `writeReportsToSheetAndSendAnomalyEmail` runs `writeReportsToSheet` with
the persisted selections and then `sendAnomalyEmail`; called with no argument
(`undefined` or `null`) it loads nothing: `writeReportsToSheet` is run with
`undefined` selections, fails (`success = false`) without changing the state, so
without any fetch and without writing a sheet, and `sendAnomalyEmail` runs on the
sheet that was active. -/
theorem entry_point_selections (host : Host α) (world : World α) :
    (∀ saved, world.properties.selections = some saved →
      (writeReportsToSheetAndSendAnomalyEmail host TriggerArgument.metadata world).2
        = sendAnomalyEmail host (writeReportsToSheet host (some saved) world).2) ∧
    (writeReportsToSheetAndSendAnomalyEmail host TriggerArgument.absent world).2
      = sendAnomalyEmail host world ∧
    (writeReportsToSheet host none world).1.success = false ∧
    (writeReportsToSheet host none world).2 = world := by
  refine ⟨?_, ?_, (writeReportsToSheet_none host world).1, (writeReportsToSheet_none host world).2⟩
  · intro saved hsaved
    unfold writeReportsToSheetAndSendAnomalyEmail
    simp only [hsaved]
  · unfold writeReportsToSheetAndSendAnomalyEmail
    simp only [(writeReportsToSheet_none host world).2]

/-- Witness of C18: persisted one-time selections. -/
theorem entry_point_selections_witness :
    (evaluationWorld (some (evaluationSelections "oneTime" none))).properties.selections
      = some (evaluationSelections "oneTime" none) ∧
    (writeReportsToSheetAndSendAnomalyEmail
      (evaluationHost (fun _ => Except.ok
        (some ⟨["browser"], ["users"], some [⟨["Chrome"], ["150"]⟩], 1⟩)))
      TriggerArgument.metadata
      (evaluationWorld (some (evaluationSelections "oneTime" none)))).2
      = sendAnomalyEmail
        (evaluationHost (fun _ => Except.ok
          (some ⟨["browser"], ["users"], some [⟨["Chrome"], ["150"]⟩], 1⟩)))
        (writeReportsToSheet
          (evaluationHost (fun _ => Except.ok
            (some ⟨["browser"], ["users"], some [⟨["Chrome"], ["150"]⟩], 1⟩)))
          (some (evaluationSelections "oneTime" none))
          (evaluationWorld (some (evaluationSelections "oneTime" none)))).2 :=
  ⟨rfl,
    (entry_point_selections
      (evaluationHost (fun _ => Except.ok
        (some ⟨["browser"], ["users"], some [⟨["Chrome"], ["150"]⟩], 1⟩)))
      (evaluationWorld (some (evaluationSelections "oneTime" none)))).1
      (evaluationSelections "oneTime" none) rfl⟩

/-- C18, counterexample: with one-time selections persisted and a service that
answers every request with a one-row table, the call with trigger metadata sends
the two requests of the persisted selections and writes the report sheet, whereas
the call with no argument sends no request and leaves the sheet empty. -/
theorem entry_point_without_argument :
    (writeReportsToSheetAndSendAnomalyEmail
      (evaluationHost (fun _ => Except.ok
        (some ⟨["browser"], ["users"], some [⟨["Chrome"], ["150"]⟩], 1⟩)))
      TriggerArgument.metadata
      (evaluationWorld (some (evaluationSelections "oneTime" none)))).2.requests.length = 2 ∧
    (writeReportsToSheetAndSendAnomalyEmail
      (evaluationHost (fun _ => Except.ok
        (some ⟨["browser"], ["users"], some [⟨["Chrome"], ["150"]⟩], 1⟩)))
      TriggerArgument.metadata
      (evaluationWorld (some (evaluationSelections "oneTime" none)))).2.activeSheet.length = 3 ∧
    (writeReportsToSheetAndSendAnomalyEmail
      (evaluationHost (fun _ => Except.ok
        (some ⟨["browser"], ["users"], some [⟨["Chrome"], ["150"]⟩], 1⟩)))
      TriggerArgument.absent
      (evaluationWorld (some (evaluationSelections "oneTime" none)))).2.requests = [] ∧
    (writeReportsToSheetAndSendAnomalyEmail
      (evaluationHost (fun _ => Except.ok
        (some ⟨["browser"], ["users"], some [⟨["Chrome"], ["150"]⟩], 1⟩)))
      TriggerArgument.absent
      (evaluationWorld (some (evaluationSelections "oneTime" none)))).2.activeSheet = [] := by
  refine ⟨?_, ?_, ?_, ?_⟩ <;> decide!

/-- C30: for every recurring selections payload (a property selected, `dates`
present) whose `recurringOption` is neither `"hourly"` nor `"daily"`, for example
absent, `validateSelectionsAndFetchData` sends no request and returns the object
with `report1: null, report2: null` and `dateRanges: null`, and
`writeReportsToSheet` returns `success = false` with the text of the error `'Missing
report data for recurring report'` as message. -/
theorem recurring_without_option (host : Host α) (selections : Selections) (world : World α)
    (propertyId : String) (dates : Dates)
    (hproperty : world.properties.selectedPropertyId = some propertyId)
    (hnonempty : propertyId ≠ "")
    (htype : selections.reportType = "recurring")
    (hdates : selections.dates = some dates)
    (hhourly : dates.recurringOption ≠ some "hourly")
    (hdaily : dates.recurringOption ≠ some "daily") :
    (validateSelectionsAndFetchData host (some selections) world).2.requests = world.requests ∧
    (∃ result : ValidationResult α,
      (validateSelectionsAndFetchData host (some selections) world).1 = Except.ok result ∧
      result.reports = ReportData.missing ∧ result.dateRanges = []) ∧
    (writeReportsToSheet host (some selections) world).1
      = { success := false
          message := (newError "Missing report data for recurring report").toString } ∧
    (writeReportsToSheet host (some selections) world).1.message
      = "Error: Missing report data for recurring report" ∧
    (writeReportsToSheet host (some selections) world).2.requests = world.requests := by
  have hval : validateSelectionsAndFetchData host (some selections) world
      = (Except.ok
          { reports := ReportData.missing
            varianceThreshold := selections.variance
            zScoreThreshold := selections.zScoreThreshold
            dateRanges := [] },
          saveThresholds selections world) := by
    unfold validateSelectionsAndFetchData
    simp only [hproperty, hnonempty, if_false, htype, if_true, hdates, hhourly, hdaily]
    rfl
  have hwrite : writeReportsToSheet host (some selections) world
      = ({ success := false
           message := (newError "Missing report data for recurring report").toString },
          { saveThresholds selections world with
            properties :=
              { (saveThresholds selections world).properties with
                latestSheetName := some ("Report " ++ host.timeStamp) } }) := by
    unfold writeReportsToSheet writeReportsToSheetBody
    rw [hval]
    simp only [reportRows, htype, if_true]
  refine ⟨?_, ⟨_, by rw [hval], rfl, rfl⟩, ?_, ?_, ?_⟩
  · rw [hval]
    rfl
  · rw [hwrite]
  · rw [hwrite]
    rfl
  · rw [hwrite]
    rfl

/-- Witness of C30: a recurring payload without `recurringOption`. -/
theorem recurring_without_option_witness :
    (evaluationWorld none).properties.selectedPropertyId = some "189677427" ∧
    (evaluationSelections "recurring" none).reportType = "recurring" ∧
    (validateSelectionsAndFetchData (evaluationHost echoService)
      (some (evaluationSelections "recurring" none)) (evaluationWorld none)).2.requests = [] ∧
    (writeReportsToSheet (evaluationHost echoService)
      (some (evaluationSelections "recurring" none)) (evaluationWorld none)).1
      = { success := false, message := "Error: Missing report data for recurring report" } :=
  ⟨rfl, rfl,
    (recurring_without_option (evaluationHost echoService)
      (evaluationSelections "recurring" none) (evaluationWorld none) "189677427"
      { range1 := some { startDate := "2024-11-01", endDate := "2024-11-30" }
        range2 := some { startDate := "2024-12-01", endDate := "2024-12-31" }
        recurringOption := none }
      rfl (by decide) rfl rfl (by decide) (by decide)).1,
    (recurring_without_option (evaluationHost echoService)
      (evaluationSelections "recurring" none) (evaluationWorld none) "189677427"
      { range1 := some { startDate := "2024-11-01", endDate := "2024-11-30" }
        range2 := some { startDate := "2024-12-01", endDate := "2024-12-31" }
        recurringOption := none }
      rfl (by decide) rfl rfl (by decide) (by decide)).2.2.1⟩

end OrchestrationTheorems

section KeyTheorems

/-! ## The dimension key -/

theorem intercalate_go_data (sep : String) (l : List String) :
    ∀ acc : String,
      (String.intercalate.go acc sep l).data = acc.data ++ l.flatMap (fun a => sep.data ++ a.data) := by
  induction l with
  | nil => intro acc; simp [String.intercalate.go]
  | cons a rest ih =>
    intro acc
    rw [String.intercalate.go, ih]
    simp [List.flatMap_cons, String.data_append]

theorem intercalate_cons_cons_data (sep a b : String) (rest : List String) :
    (String.intercalate sep (a :: b :: rest)).data
      = a.data ++ sep.data ++ (String.intercalate sep (b :: rest)).data := by
  simp only [String.intercalate, intercalate_go_data, List.flatMap_cons]
  simp

theorem intercalate_singleton_data (sep a : String) :
    (String.intercalate sep [a]).data = a.data := by
  simp [String.intercalate, String.intercalate.go]

/-- A value without the separator `"||"` inside and without `"|"` at its end is
determined by a text that starts with it followed by the separator. -/
theorem separator_split (a : List Char) :
    ∀ (b r1 r2 : List Char),
      ¬ (['|', '|'] <:+: a) → a.getLast? ≠ some '|' →
      ¬ (['|', '|'] <:+: b) → b.getLast? ≠ some '|' →
      a ++ '|' :: '|' :: r1 = b ++ '|' :: '|' :: r2 → a = b := by
  induction a with
  | nil =>
    intro b r1 r2 _ _ hb1 hb2 h
    cases b with
    | nil => rfl
    | cons c b' =>
      exfalso
      simp only [List.nil_append, List.cons_append, List.cons.injEq] at h
      obtain ⟨hc, h⟩ := h
      cases b' with
      | nil =>
        apply hb2
        rw [← hc]
        rfl
      | cons d b'' =>
        simp only [List.cons_append, List.cons.injEq] at h
        obtain ⟨hd, _⟩ := h
        apply hb1
        rw [← hc, ← hd]
        exact ⟨[], b'', rfl⟩
  | cons x a' ih =>
    intro b r1 r2 ha1 ha2 hb1 hb2 h
    cases b with
    | nil =>
      exfalso
      simp only [List.nil_append, List.cons_append, List.cons.injEq] at h
      obtain ⟨hx, h⟩ := h
      cases a' with
      | nil =>
        apply ha2
        rw [hx]
        rfl
      | cons d a'' =>
        simp only [List.cons_append, List.cons.injEq] at h
        obtain ⟨hd, _⟩ := h
        apply ha1
        rw [hx, hd]
        exact ⟨[], a'', rfl⟩
    | cons y b' =>
      simp only [List.cons_append, List.cons.injEq] at h
      obtain ⟨hxy, h⟩ := h
      subst hxy
      have hta1 : ¬ (['|', '|'] <:+: a') := fun hin => ha1 (hin.trans (List.infix_cons List.infix_rfl))
      have htb1 : ¬ (['|', '|'] <:+: b') := fun hin => hb1 (hin.trans (List.infix_cons List.infix_rfl))
      have hta2 : a'.getLast? ≠ some '|' := by
        cases a' with
        | nil => simp
        | cons d a'' => simpa [List.getLast?_cons_cons] using ha2
      have htb2 : b'.getLast? ≠ some '|' := by
        cases b' with
        | nil => simp
        | cons d b'' => simpa [List.getLast?_cons_cons] using hb2
      rw [ih b' r1 r2 hta1 hta2 htb1 htb2 h]

theorem intercalate_injective :
    ∀ (values1 values2 : List String), values1.length = values2.length →
      (∀ v ∈ values1, ¬ (['|', '|'] <:+: v.data) ∧ v.data.getLast? ≠ some '|') →
      (∀ v ∈ values2, ¬ (['|', '|'] <:+: v.data) ∧ v.data.getLast? ≠ some '|') →
      String.intercalate "||" values1 = String.intercalate "||" values2 → values1 = values2 := by
  intro values1
  induction values1 with
  | nil =>
    intro values2 hlen _ _ _
    cases values2 with
    | nil => rfl
    | cons b t => simp at hlen
  | cons a t1 ih =>
    intro values2 hlen h1 h2 hkey
    cases values2 with
    | nil => simp at hlen
    | cons b t2 =>
      simp only [List.length_cons, Nat.add_right_cancel_iff] at hlen
      have hdata := congrArg String.data hkey
      cases t1 with
      | nil =>
        cases t2 with
        | nil =>
          rw [intercalate_singleton_data, intercalate_singleton_data] at hdata
          rw [String.ext hdata]
        | cons b' t2' => simp at hlen
      | cons a' t1' =>
        cases t2 with
        | nil => simp at hlen
        | cons b' t2' =>
          rw [intercalate_cons_cons_data, intercalate_cons_cons_data] at hdata
          have hsep : ("||" : String).data = ['|', '|'] := rfl
          rw [hsep, List.append_assoc, List.append_assoc] at hdata
          simp only [List.cons_append, List.nil_append] at hdata
          have hab : a.data = b.data :=
            separator_split a.data b.data _ _
              (h1 a (List.mem_cons_self _ _)).1 (h1 a (List.mem_cons_self _ _)).2
              (h2 b (List.mem_cons_self _ _)).1 (h2 b (List.mem_cons_self _ _)).2 hdata
          rw [hab] at hdata
          have hrest := List.append_cancel_left hdata
          simp only [List.cons.injEq, true_and] at hrest
          have htail := ih (b' :: t2') hlen
            (fun v hv => h1 v (List.mem_cons_of_mem _ hv))
            (fun v hv => h2 v (List.mem_cons_of_mem _ hv)) (String.ext hrest)
          rw [String.ext hab, htail]

/-- C19, as amended: for every two rows that have at least `dimensionCount` values,
whose dimension values neither contain the string `"||"` nor end with `"|"`, the
dimension keys (the first `dimensionCount` row values joined with `"||"`) are equal
only if the two sequences of dimension values are equal. -/
theorem dimensionKey_injective (dimensionCount : Nat) (row1 row2 : List String)
    (hlen1 : dimensionCount ≤ row1.length) (hlen2 : dimensionCount ≤ row2.length)
    (hvalues1 : ∀ v ∈ row1.take dimensionCount,
      ¬ (("||" : String).data <:+: v.data) ∧ v.data.getLast? ≠ some '|')
    (hvalues2 : ∀ v ∈ row2.take dimensionCount,
      ¬ (("||" : String).data <:+: v.data) ∧ v.data.getLast? ≠ some '|')
    (hkey : dimensionKey dimensionCount row1 = dimensionKey dimensionCount row2) :
    row1.take dimensionCount = row2.take dimensionCount := by
  apply intercalate_injective _ _ _ hvalues1 hvalues2 hkey
  rw [List.length_take, List.length_take]
  omega

/-- Witness of C19: two rows with the dimension values `"Chrome"`, `"a|b"`. -/
theorem dimensionKey_injective_witness :
    2 ≤ ["Chrome", "a|b", "10"].length ∧ 2 ≤ ["Chrome", "a|b", "25"].length ∧
    dimensionKey 2 ["Chrome", "a|b", "10"] = dimensionKey 2 ["Chrome", "a|b", "25"] ∧
    ["Chrome", "a|b", "10"].take 2 = ["Chrome", "a|b", "25"].take 2 :=
  ⟨by decide, by decide, by decide,
    dimensionKey_injective 2 ["Chrome", "a|b", "10"] ["Chrome", "a|b", "25"] (by decide) (by decide)
      (by decide) (by decide) (by decide)⟩

/-- C19, counterexample: the dimension values `"a|", "b"` and `"a", "|b"` do not
contain the string `"||"`, yet both rows have the dimension key `"a|||b"`. -/
theorem dimensionKey_collision :
    (∀ v ∈ ["a|", "b"], ¬ (("||" : String).data <:+: v.data)) ∧
    (∀ v ∈ ["a", "|b"], ¬ (("||" : String).data <:+: v.data)) ∧
    dimensionKey 2 ["a|", "b", "1"] = dimensionKey 2 ["a", "|b", "1"] ∧
    ["a|", "b", "1"].take 2 ≠ ["a", "|b", "1"].take 2 := by
  refine ⟨by decide, by decide, by decide, by decide⟩

end KeyTheorems

section FrameTheorems

variable {α : Type} [LinearOrderedField α]

/-! ## Historical rows with a key that no current row has -/

theorem collectReports_eq_foldl (parseFloat : String → Option α) (dc mc : Nat)
    (historicalFetches : List (Option Report)) :
    ∀ store : HistoricalStore α,
      collectReports parseFloat dc mc store
          (historicalFetches.map (fun report => if hasRows report then report else none))
        = (historicalRowsOf historicalFetches).foldl (collectRow parseFloat dc mc) store := by
  induction historicalFetches with
  | nil => intro store; rfl
  | cons report rest ih =>
    intro store
    have hcons : ∀ (head : Option Report) (tail : List (Option Report)) (st : HistoricalStore α),
        collectReports parseFloat dc mc st (head :: tail)
          = collectReports parseFloat dc mc
            (match head with
              | some r =>
                if r.rows.length > 0 then r.rows.foldl (collectRow parseFloat dc mc) st else st
              | none => st) tail := fun _ _ _ => rfl
    have hrows : historicalRowsOf (report :: rest)
        = (match report with
            | some r => if r.rows.length > 0 then r.rows else []
            | none => []) ++ historicalRowsOf rest := by
      simp [historicalRowsOf, List.flatMap_cons]
    rw [List.map_cons, hcons, ih, hrows, List.foldl_append]
    cases report with
    | none => rfl
    | some r =>
      by_cases hlen : r.rows.length > 0
      · simp [hasRows, hlen]
      · have hnil : r.rows = [] := by
          cases hr : r.rows with
          | nil => rfl
          | cons x t => rw [hr] at hlen; simp at hlen
        simp [hasRows, hnil]

theorem collectRow_of_absent (parseFloat : String → Option α) (dc mc : Nat)
    (store : HistoricalStore α) (row : List String)
    (h : store.byKey (dimensionKey dc row) = none) :
    collectRow parseFloat dc mc store row = store := by
  unfold collectRow
  rw [h]

theorem foldl_collectRow_filter (parseFloat : String → Option α) (dc mc : Nat)
    (p : List String → Bool) (rows : List (List String)) :
    ∀ store : HistoricalStore α,
      (∀ row ∈ rows, p row = false → store.byKey (dimensionKey dc row) = none) →
      rows.foldl (collectRow parseFloat dc mc) store
        = (rows.filter p).foldl (collectRow parseFloat dc mc) store := by
  induction rows with
  | nil => intro store _; rfl
  | cons row rest ih =>
    intro store h
    have hrest : ∀ st : HistoricalStore α, st.byKey = store.byKey →
        ∀ r ∈ rest, p r = false → st.byKey (dimensionKey dc r) = none := by
      intro st hst r hr hp
      rw [hst]
      exact h r (List.mem_cons_of_mem _ hr) hp
    by_cases hp : p row = true
    · rw [List.filter_cons_of_pos hp, List.foldl_cons, List.foldl_cons]
      exact ih _ (hrest _ (collectRow_byKey parseFloat dc mc store row))
    · have hp' : p row = false := by simpa using hp
      rw [List.filter_cons_of_neg hp, List.foldl_cons,
        collectRow_of_absent parseFloat dc mc store row (h row (List.mem_cons_self _ _) hp')]
      exact ih store (hrest store rfl)

/-- The hourly store after the collection depends on the historical tables only
through their relevant rows. -/
theorem hourly_store_relevant (parseFloat : String → Option α) (dc mc : Nat)
    (currentRows : List (List String)) (historicalFetches : List (Option Report)) :
    collectReports parseFloat dc mc (initStore dc mc currentRows)
        (historicalFetches.map (fun report => if hasRows report then report else none))
      = (relevantRows dc currentRows historicalFetches).foldl (collectRow parseFloat dc mc)
          (initStore dc mc currentRows) := by
  rw [collectReports_eq_foldl]
  unfold relevantRows
  apply foldl_collectRow_filter
  intro row _ hp
  apply foldl_initRow_none
  · rfl
  · intro current hcurrent hkey
    have := List.any_eq_false.mp hp current hcurrent
    simp [hkey] at this

theorem cellSamples_relevant (parseFloat : String → Option α) (dc : Nat)
    (currentRows : List (List String)) (historicalFetches : List (Option Report))
    (current : List String) (hcurrent : current ∈ currentRows) (i : Nat) :
    cellSamples parseFloat dc (historicalRowsOf historicalFetches) (dimensionKey dc current) i
      = cellSamples parseFloat dc (relevantRows dc currentRows historicalFetches)
          (dimensionKey dc current) i := by
  unfold cellSamples relevantRows
  rw [List.filter_filter]
  congr 1
  apply List.filter_congr
  intro row _
  by_cases hk : dimensionKey dc row = dimensionKey dc current
  · have hany : currentRows.any
        (fun c => dimensionKey dc c == dimensionKey dc row) = true := by
      rw [List.any_eq_true]
      exact ⟨current, hcurrent, by simp [hk]⟩
    rw [hany, Bool.and_true]
  · have hfalse : (dimensionKey dc row == dimensionKey dc current) = false := by
      simpa using hk
    rw [hfalse, Bool.false_and]

theorem groupedSamples_relevant (parseFloat : String → Option α) (dc mc : Nat)
    (currentRows : List (List String)) (historicalFetches : List (Option Report))
    (current : List String) (hcurrent : current ∈ currentRows) :
    groupedSamples parseFloat dc mc (historicalRowsOf historicalFetches) (dimensionKey dc current)
      = groupedSamples parseFloat dc mc (relevantRows dc currentRows historicalFetches)
          (dimensionKey dc current) := by
  unfold groupedSamples
  have hany : (historicalRowsOf historicalFetches).any
        (fun row => dimensionKey dc row == dimensionKey dc current)
      = (relevantRows dc currentRows historicalFetches).any
        (fun row => dimensionKey dc row == dimensionKey dc current) := by
    unfold relevantRows
    rw [Bool.eq_iff_iff, List.any_eq_true, List.any_eq_true]
    constructor
    · rintro ⟨row, hrow, hk⟩
      refine ⟨row, List.mem_filter.mpr ⟨hrow, ?_⟩, hk⟩
      rw [List.any_eq_true]
      have hk' : dimensionKey dc row = dimensionKey dc current := by simpa using hk
      exact ⟨current, hcurrent, by rw [hk']; simp⟩
    · rintro ⟨row, hrow, hk⟩
      exact ⟨row, (List.mem_filter.mp hrow).1, hk⟩
  rw [hany]
  split
  · congr 1
    apply List.map_congr_left
    intro i _
    exact cellSamples_relevant parseFloat dc currentRows historicalFetches current hcurrent i
  · rfl

/-- C20, as amended: in both recurring modes the output depends on the historical
tables only through the rows whose dimension key occurs in the current table: two
lists of historical tables with the same such rows (so also two lists that differ
by adding or removing rows with other keys in any table) give the same enriched
rows and the same `varianceData`; in hourly mode for all historical rows, in
daily mode for historical rows that have no more metric values than there are
metrics and keys that name no property inherited from `Object.prototype`, on
which the run succeeds.  In daily mode a historical row that the grouping loop
does not accept makes the run fail with a `TypeError`, whatever its key is. -/
theorem history_of_other_keys_ignored (sqrt : α → α) (parseFloat : String → Option α)
    (dimensions metrics : List String) (historicalFetches1 historicalFetches2 : List (Option Report)) :
    (∀ currentFetch : Option Report,
      relevantRows dimensions.length
          (hourlyBranch sqrt parseFloat dimensions metrics historicalFetches1
            currentFetch).report1.rows historicalFetches1
        = relevantRows dimensions.length
          (hourlyBranch sqrt parseFloat dimensions metrics historicalFetches1
            currentFetch).report1.rows historicalFetches2 →
      (hourlyBranch sqrt parseFloat dimensions metrics historicalFetches1 currentFetch).report2.rows
        = (hourlyBranch sqrt parseFloat dimensions metrics historicalFetches2
            currentFetch).report2.rows ∧
      (hourlyBranch sqrt parseFloat dimensions metrics historicalFetches1
          currentFetch).report2.varianceData
        = (hourlyBranch sqrt parseFloat dimensions metrics historicalFetches2
            currentFetch).report2.varianceData) ∧
    (∀ currentReport : Report, currentReport.rows ≠ [] →
      (∀ hrow ∈ historicalRowsOf historicalFetches1,
        (hrow.drop dimensions.length).length ≤ metrics.length) →
      (∀ hrow ∈ historicalRowsOf historicalFetches2,
        (hrow.drop dimensions.length).length ≤ metrics.length) →
      (∀ hrow ∈ historicalRowsOf historicalFetches1,
        inheritedName (dimensionKey dimensions.length hrow) = false) →
      (∀ hrow ∈ historicalRowsOf historicalFetches2,
        inheritedName (dimensionKey dimensions.length hrow) = false) →
      relevantRows dimensions.length currentReport.rows historicalFetches1
        = relevantRows dimensions.length currentReport.rows historicalFetches2 →
      ∃ result1 result2 : RecurringResult α,
        dailyBranch sqrt parseFloat dimensions metrics (some currentReport) historicalFetches1
          = Except.ok result1 ∧
        dailyBranch sqrt parseFloat dimensions metrics (some currentReport) historicalFetches2
          = Except.ok result2 ∧
        result1.report2.rows = result2.report2.rows ∧
        result1.report2.varianceData = result2.report2.varianceData) ∧
    (∀ currentReport : Report, currentReport.rows ≠ [] →
      (∃ hrow ∈ historicalRowsOf historicalFetches1,
        dailyRowAccepted dimensions.length metrics.length hrow = false) →
      dailyBranch sqrt parseFloat dimensions metrics (some currentReport) historicalFetches1
        = Except.error typeError) := by
  refine ⟨?_, ?_, ?_⟩
  · intro currentFetch hrel
    have hstore : ∀ historicalFetches : List (Option Report),
        hourlyBranch sqrt parseFloat dimensions metrics historicalFetches currentFetch
          = { report1 := (hourlyBranch sqrt parseFloat dimensions metrics historicalFetches1
                currentFetch).report1
              report2 :=
                { headers := (hourlyBranch sqrt parseFloat dimensions metrics historicalFetches1
                    currentFetch).report1.headers
                  dimensionHeaders := (hourlyBranch sqrt parseFloat dimensions metrics
                    historicalFetches1 currentFetch).report1.dimensionHeaders
                  rows := (hourlyBranch sqrt parseFloat dimensions metrics historicalFetches1
                    currentFetch).report1.rows.map (fun row => row.map Cell.str)
                  varianceData := (hourlyBranch sqrt parseFloat dimensions metrics
                    historicalFetches1 currentFetch).report1.rows.map
                    (fun row => (hourlyCalculatedVarianceData sqrt parseFloat dimensions.length
                      ((relevantRows dimensions.length
                        (hourlyBranch sqrt parseFloat dimensions metrics historicalFetches1
                          currentFetch).report1.rows historicalFetches).foldl
                        (collectRow parseFloat dimensions.length metrics.length)
                        (initStore dimensions.length metrics.length
                          (hourlyBranch sqrt parseFloat dimensions metrics historicalFetches1
                            currentFetch).report1.rows))
                      (hourlyBranch sqrt parseFloat dimensions metrics historicalFetches1
                        currentFetch).report1.rows
                      (dimensionKey dimensions.length row)).map VarianceEntry.records) } } := by
      intro historicalFetches
      rw [← hourly_store_relevant]
      rfl
    rw [hstore historicalFetches1, hstore historicalFetches2, hrel]
    exact ⟨rfl, rfl⟩
  · intro currentReport hne hwidth1 hwidth2 hown1 hown2 hrel
    refine ⟨_, _,
      dailyBranch_ok sqrt parseFloat dimensions metrics currentReport historicalFetches1 hne
        hwidth1 hown1,
      dailyBranch_ok sqrt parseFloat dimensions metrics currentReport historicalFetches2 hne
        hwidth2 hown2,
      ?_⟩
    have hcalc : ∀ k, (∃ row ∈ currentReport.rows, dimensionKey dimensions.length row = k) →
        dailyCalculatedVarianceData sqrt
            (groupedSamples parseFloat dimensions.length metrics.length
              (historicalRowsOf historicalFetches1)) k
          = dailyCalculatedVarianceData sqrt
            (groupedSamples parseFloat dimensions.length metrics.length
              (historicalRowsOf historicalFetches2)) k := by
      rintro k ⟨row, hrow, hk⟩
      subst hk
      unfold dailyCalculatedVarianceData
      rw [groupedSamples_relevant parseFloat dimensions.length metrics.length currentReport.rows
          historicalFetches1 row hrow,
        groupedSamples_relevant parseFloat dimensions.length metrics.length currentReport.rows
          historicalFetches2 row hrow, hrel]
    obtain ⟨hrows, hfinal⟩ := dailyEnhanceRows_congr parseFloat dimensions.length
      (fun k => ∃ row ∈ currentReport.rows, dimensionKey dimensions.length row = k)
      currentReport.rows (fun row hrow => ⟨row, hrow, rfl⟩) _ _ hcalc
    refine ⟨hrows, ?_⟩
    apply List.map_congr_left
    intro row hrow
    unfold dailyLookup
    rw [hfinal _ ⟨row, hrow, rfl⟩]
  · rintro currentReport hne ⟨hrow, hmem, hrejected⟩
    have hall : (historicalRowsOf historicalFetches1).all
        (dailyRowAccepted dimensions.length metrics.length) = false := by
      rw [List.all_eq_false]
      exact ⟨hrow, hmem, by simp [hrejected]⟩
    rw [dailyBranch_eq sqrt parseFloat dimensions metrics currentReport historicalFetches1 hne,
      hall]
    rfl

/-- Witness of C20: the historical row `["Safari", "7"]`, whose key is not in the
current table `[["Chrome", "10"]]`, is removed. -/
theorem history_of_other_keys_ignored_witness :
    relevantRows ["browser"].length
        (hourlyBranch Rat.sqrt parseNatural ["browser"] ["users"]
          [some ⟨["browser", "users"], ["browser"], [["Chrome", "1"], ["Safari", "7"]], 2⟩]
          (some ⟨["browser", "users"], ["browser"], [["Chrome", "10"]], 1⟩)).report1.rows
        [some ⟨["browser", "users"], ["browser"], [["Chrome", "1"], ["Safari", "7"]], 2⟩]
      = relevantRows ["browser"].length
        (hourlyBranch Rat.sqrt parseNatural ["browser"] ["users"]
          [some ⟨["browser", "users"], ["browser"], [["Chrome", "1"], ["Safari", "7"]], 2⟩]
          (some ⟨["browser", "users"], ["browser"], [["Chrome", "10"]], 1⟩)).report1.rows
        [some ⟨["browser", "users"], ["browser"], [["Chrome", "1"]], 1⟩] ∧
    (hourlyBranch Rat.sqrt parseNatural ["browser"] ["users"]
        [some ⟨["browser", "users"], ["browser"], [["Chrome", "1"], ["Safari", "7"]], 2⟩]
        (some ⟨["browser", "users"], ["browser"], [["Chrome", "10"]], 1⟩)).report2.varianceData
      = (hourlyBranch Rat.sqrt parseNatural ["browser"] ["users"]
        [some ⟨["browser", "users"], ["browser"], [["Chrome", "1"]], 1⟩]
        (some ⟨["browser", "users"], ["browser"], [["Chrome", "10"]], 1⟩)).report2.varianceData ∧
    (∀ hrow ∈ historicalRowsOf
        [some ⟨["browser", "users"], ["browser"], [["Chrome", "1"], ["Safari", "7"]], 2⟩],
      (hrow.drop ["browser"].length).length ≤ ["users"].length ∧
      inheritedName (dimensionKey ["browser"].length hrow) = false) ∧
    (∃ result1 result2 : RecurringResult ℚ,
      dailyBranch Rat.sqrt parseNatural ["browser"] ["users"]
          (some ⟨["browser", "users"], ["browser"], [["Chrome", "10"]], 1⟩)
          [some ⟨["browser", "users"], ["browser"], [["Chrome", "1"], ["Safari", "7"]], 2⟩]
        = Except.ok result1 ∧
      dailyBranch Rat.sqrt parseNatural ["browser"] ["users"]
          (some ⟨["browser", "users"], ["browser"], [["Chrome", "10"]], 1⟩)
          [some ⟨["browser", "users"], ["browser"], [["Chrome", "1"]], 1⟩]
        = Except.ok result2 ∧
      result1.report2.rows = result2.report2.rows ∧
      result1.report2.varianceData = result2.report2.varianceData) :=
  ⟨by decide,
    ((history_of_other_keys_ignored Rat.sqrt parseNatural ["browser"] ["users"]
      [some ⟨["browser", "users"], ["browser"], [["Chrome", "1"], ["Safari", "7"]], 2⟩]
      [some ⟨["browser", "users"], ["browser"], [["Chrome", "1"]], 1⟩]).1
      (some ⟨["browser", "users"], ["browser"], [["Chrome", "10"]], 1⟩) (by decide)).2,
    by decide,
    (history_of_other_keys_ignored Rat.sqrt parseNatural ["browser"] ["users"]
      [some ⟨["browser", "users"], ["browser"], [["Chrome", "1"], ["Safari", "7"]], 2⟩]
      [some ⟨["browser", "users"], ["browser"], [["Chrome", "1"]], 1⟩]).2.1
      ⟨["browser", "users"], ["browser"], [["Chrome", "10"]], 1⟩
      (by decide) (by decide) (by decide) (by decide) (by decide) (by decide)⟩

/-- C20, counterexample: in the daily branch with the current table
`[["Chrome", "10"]]`, the run succeeds on the history `[["Chrome", "1"]]` and
raises a `TypeError` when the row `["constructor", "7"]`, whose key is not in the
current table, is added to the history: `historicalData["constructor"]` is the
inherited function, so no sample arrays are created for the key and the push of
line 1438 fails. -/
theorem inherited_history_key_not_ignored :
    relevantRows 1 [["Chrome", "10"]]
        [some ⟨["eventName", "eventCount"], ["eventName"], [["Chrome", "1"]], 1⟩]
      = relevantRows 1 [["Chrome", "10"]]
        [some ⟨["eventName", "eventCount"], ["eventName"],
          [["Chrome", "1"], ["constructor", "7"]], 2⟩] ∧
    (∃ result : RecurringResult ℚ,
      dailyBranch Rat.sqrt parseNatural ["eventName"] ["eventCount"]
          (some ⟨["eventName", "eventCount"], ["eventName"], [["Chrome", "10"]], 1⟩)
          [some ⟨["eventName", "eventCount"], ["eventName"], [["Chrome", "1"]], 1⟩]
        = Except.ok result) ∧
    dailyBranch Rat.sqrt parseNatural ["eventName"] ["eventCount"]
        (some ⟨["eventName", "eventCount"], ["eventName"], [["Chrome", "10"]], 1⟩)
        [some ⟨["eventName", "eventCount"], ["eventName"],
          [["Chrome", "1"], ["constructor", "7"]], 2⟩]
      = Except.error typeError := by
  refine ⟨by decide, ?_, ?_⟩
  · exact ⟨_, dailyBranch_ok Rat.sqrt parseNatural ["eventName"] ["eventCount"]
      ⟨["eventName", "eventCount"], ["eventName"], [["Chrome", "10"]], 1⟩
      [some ⟨["eventName", "eventCount"], ["eventName"], [["Chrome", "1"]], 1⟩]
      (by decide) (by decide) (by decide)⟩
  · have hall : (historicalRowsOf
        [some ⟨["eventName", "eventCount"], ["eventName"],
          [["Chrome", "1"], ["constructor", "7"]], 2⟩]).all
        (dailyRowAccepted (["eventName"] : List String).length
          (["eventCount"] : List String).length) = false := by
      decide
    rw [dailyBranch_eq Rat.sqrt parseNatural ["eventName"] ["eventCount"]
      ⟨["eventName", "eventCount"], ["eventName"], [["Chrome", "10"]], 1⟩ _ (by decide), hall]
    rfl


/-- The hourly branch on a current fetch without rows is the hourly branch on the
current fetch `null`. -/
theorem hourlyBranch_of_no_rows (sqrt : α → α) (parseFloat : String → Option α)
    (dimensions metrics : List String) (historicalFetches : List (Option Report))
    (currentFetch : Option Report) (hempty : hasRows currentFetch = false) :
    hourlyBranch sqrt parseFloat dimensions metrics historicalFetches currentFetch
      = hourlyBranch sqrt parseFloat dimensions metrics historicalFetches none := by
  cases currentFetch with
  | none => rfl
  | some report =>
    simp only [hasRows, decide_eq_false_iff_not, not_lt, Nat.le_zero_eq] at hempty
    simp only [hourlyBranch, hempty, if_true]

/-- C29: in hourly recurring mode, when the current fetch has no row, so that the
placeholder row is synthesized, and no historical row has the dimension key of
the placeholder row (every dimension value `"No Data"`), `varianceData` holds for
the row one record per metric with `currentValue` 0, `historicalMean` 0, `stdDev`
0, `zScore` 0 and `variancePercent` 0 (`parseFloat("0")` being `0`); the z-score
written to the sheet is `0` for every metric and the sheet row has no anomaly
under any z-score threshold `T ≥ 0`. -/
theorem placeholder_row_statistics (sqrt : α → α) (parseFloat toNumber : String → Option α)
    (dimensions metrics : List String) (historicalFetches : List (Option Report))
    (currentFetch : Option Report)
    (hempty : hasRows currentFetch = false)
    (hparse : parseFloat "0" = some 0)
    (habsent : ∀ hrow ∈ historicalRowsOf historicalFetches,
      dimensionKey dimensions.length hrow
        ≠ dimensionKey dimensions.length
          (List.replicate dimensions.length "No Data" ++ List.replicate metrics.length "0")) :
    (hourlyBranch sqrt parseFloat dimensions metrics historicalFetches currentFetch).report1.rows
      = [List.replicate dimensions.length "No Data" ++ List.replicate metrics.length "0"] ∧
    (hourlyBranch sqrt parseFloat dimensions metrics historicalFetches
      currentFetch).report2.varianceData
      = [some (VarianceEntry.records (List.replicate metrics.length
          ({ currentValue := some 0
             historicalMean := 0
             stdDev := 0
             zScore := some 0
             variancePercent := some 0
             values := none } : CellStatistics α)))] ∧
    (∀ j : Nat, writtenZScore
      (hourlyBranch sqrt parseFloat dimensions metrics historicalFetches
        currentFetch).report2.varianceData 0 j = 0) ∧
    ∀ T P : α, 0 ≤ T →
      hasAnomaly toNumber true dimensions.length metrics.length T P
        (recurringDataRow parseFloat dimensions.length
          (hourlyBranch sqrt parseFloat dimensions metrics historicalFetches
            currentFetch).report2.varianceData 0
          (List.replicate dimensions.length "No Data" ++ List.replicate metrics.length "0"))
        = false := by
  have hzero : parseOrZero parseFloat (some "0") = 0 := by
    simp [parseOrZero, hparse]
  have hnil : ∀ i, historicalValues
      (collectReports parseFloat dimensions.length metrics.length
        (initStore dimensions.length metrics.length
          [List.replicate dimensions.length "No Data" ++ List.replicate metrics.length "0"])
        (historicalFetches.map (fun report => if hasRows report then report else none)))
      (dimensionKey dimensions.length
        (List.replicate dimensions.length "No Data" ++ List.replicate metrics.length "0")) i
      = [] := by
    intro i
    apply historicalValues_of_absent_key
    exact absent_of_historicalRowsOf dimensions.length historicalFetches _ habsent
  have hdrop : (List.replicate dimensions.length "No Data"
      ++ List.replicate metrics.length "0").drop dimensions.length
      = List.replicate metrics.length "0" := by
    rw [List.drop_append_of_le_length (by simp)]
    simp
  have hstats : rowStatistics sqrt parseFloat dimensions.length
      (collectReports parseFloat dimensions.length metrics.length
        (initStore dimensions.length metrics.length
          [List.replicate dimensions.length "No Data" ++ List.replicate metrics.length "0"])
        (historicalFetches.map (fun report => if hasRows report then report else none)))
      (List.replicate dimensions.length "No Data" ++ List.replicate metrics.length "0")
      = List.replicate metrics.length
          ({ currentValue := some 0
             historicalMean := 0
             stdDev := 0
             zScore := some 0
             variancePercent := some 0
             values := none } : CellStatistics α) := by
    unfold rowStatistics
    simp only [hnil, hourlyStatistics_nil, hdrop]
    rw [enum_map_of_snd
      (fun v : String =>
        ({ currentValue := some (parseOrZero parseFloat (some v))
           historicalMean := 0
           stdDev := 0
           zScore := some (if parseOrZero parseFloat (some v) = 0 then 0
             else if parseOrZero parseFloat (some v) > 0 then 10 else -10)
           variancePercent := some (if parseOrZero parseFloat (some v) = 0 then 0 else 100)
           values := none } : CellStatistics α)) (List.replicate metrics.length "0")]
    rw [List.map_replicate]
    simp only [hzero, if_true]
  have hdata : (hourlyBranch sqrt parseFloat dimensions metrics historicalFetches
      currentFetch).report2.varianceData
      = [some (VarianceEntry.records (List.replicate metrics.length
          ({ currentValue := some 0
             historicalMean := 0
             stdDev := 0
             zScore := some 0
             variancePercent := some 0
             values := none } : CellStatistics α)))] := by
    rw [hourlyBranch_of_no_rows sqrt parseFloat dimensions metrics historicalFetches
      currentFetch hempty]
    simp only [hourlyBranch, placeholderReport, hourlyCalculatedVarianceData, List.foldl_cons,
      List.foldl_nil, List.map_cons, List.map_nil, Function.update_same, Option.map_some']
    rw [hstats]
  have hwritten : ∀ j : Nat, writtenZScore
      (hourlyBranch sqrt parseFloat dimensions metrics historicalFetches
        currentFetch).report2.varianceData 0 j = 0 := by
    intro j
    rw [hdata]
    unfold writtenZScore
    by_cases hj : j < metrics.length
    · simp [VarianceEntry.recordAt, List.getElem?_replicate, hj]
    · simp [VarianceEntry.recordAt, List.getElem?_replicate, hj]
  refine ⟨?_, hdata, hwritten, ?_⟩
  · rw [hourlyBranch_of_no_rows sqrt parseFloat dimensions metrics historicalFetches
      currentFetch hempty]
    rfl
  · intro T P hT
    unfold hasAnomaly
    simp only [if_true]
    rw [List.any_eq_false]
    intro j hj
    rw [recurringDataRow_zScore_cell parseFloat _ _ _ metrics.length _ (by simp) j
      (List.mem_range.mp hj), hwritten]
    simp only [exceeds, cellNumber, abs_zero, gt_iff_lt, decide_eq_true_eq, not_lt]
    exact hT

/-- Witness of C29: the current fetch is `null` and the only historical row is a
row of the key `"Chrome"`. -/
theorem placeholder_row_statistics_witness :
    hasRows none = false ∧
    parseNatural "0" = some 0 ∧
    (hourlyBranch Rat.sqrt parseNatural ["browser"] ["users", "sessions"]
      [some ⟨["browser", "users", "sessions"], ["browser"], [["Chrome", "1", "2"]], 1⟩]
      none).report2.varianceData
      = [some (VarianceEntry.records
          ([⟨some 0, 0, 0, some 0, some 0, none⟩, ⟨some 0, 0, 0, some 0, some 0, none⟩] :
            List (CellStatistics ℚ)))] :=
  ⟨rfl, by decide!,
    (placeholder_row_statistics Rat.sqrt parseNatural parseNatural ["browser"]
      ["users", "sessions"]
      [some ⟨["browser", "users", "sessions"], ["browser"], [["Chrome", "1", "2"]], 1⟩]
      none rfl (by decide!) (by decide)).2.1⟩

end FrameTheorems

section MailTheorems

variable {α : Type} [LinearOrderedField α]

/-- On a sheet with more than three rows `createAnomalyReportHTML` returns the
result of the loop over the rows from sheet row 4 on. -/
theorem createAnomalyReportHTML_of_long (toNumber : String → Option α)
    (parseInt : String → Option Nat) (properties : DocumentProperties)
    (data : List (List (Cell α))) (hlong : 3 < data.length) :
    createAnomalyReportHTML toNumber parseInt properties data
      = AnomalyResult.report
        { anomalyCount := ((data.drop 3).filter
            (anomalousRow toNumber parseInt properties data)).length
          renderedRows := ((data.drop 3).filter
            (anomalousRow toNumber parseInt properties data)).take 20 } := by
  have hnot : ¬ data.length ≤ 3 := by omega
  have hscan := scanRows_eq_filter toNumber (isRecurringHeader (data.getD 1 []))
    (detectDimensionCount parseInt (data.getD 1 []) (data.getD 2 []) properties.dimensionCount)
    (((data.getD 1 []).length
      - detectDimensionCount parseInt (data.getD 1 []) (data.getD 2 []) properties.dimensionCount) / 3)
    (numberOr toNumber properties.zScoreThreshold 3)
    (numberOr toNumber properties.varianceThreshold 10) (data.drop 3)
  unfold createAnomalyReportHTML
  simp only [hnot, if_false, ite_self]
  congr 1
  cases hresult : scanRows toNumber (isRecurringHeader (data.getD 1 []))
    (detectDimensionCount parseInt (data.getD 1 []) (data.getD 2 []) properties.dimensionCount)
    (((data.getD 1 []).length
      - detectDimensionCount parseInt (data.getD 1 []) (data.getD 2 []) properties.dimensionCount) / 3)
    (numberOr toNumber properties.zScoreThreshold 3)
    (numberOr toNumber properties.varianceThreshold 10) (data.drop 3) with
  | mk count rendered =>
    rw [hresult] at hscan
    obtain ⟨h1, h2⟩ := hscan
    simp only at h1 h2
    rw [h1, h2]
    rfl

/-- On a sheet with more than three rows `sendAnomalyEmail` sends a mail exactly
when a row from sheet row 4 on has an anomaly. -/
theorem sendAnomalyEmail_of_long (host : Host α) (world : World α)
    (hlong : 3 < world.activeSheet.length) :
    ((∃ row ∈ world.activeSheet.drop 3,
        anomalousRow host.toNumber host.parseInt world.properties world.activeSheet row = true) →
      ∃ mail, (sendAnomalyEmail host world).emails = world.emails ++ [mail]) ∧
    ((∀ row ∈ world.activeSheet.drop 3,
        anomalousRow host.toNumber host.parseInt world.properties world.activeSheet row = false) →
      sendAnomalyEmail host world = world) := by
  unfold sendAnomalyEmail
  rw [createAnomalyReportHTML_of_long _ _ _ _ hlong]
  simp only []
  constructor
  · rintro ⟨row, hrow, hflag⟩
    have hpos : ((world.activeSheet.drop 3).filter
        (anomalousRow host.toNumber host.parseInt world.properties world.activeSheet)).length ≠ 0 := by
      intro hzero
      have hnil := List.length_eq_zero.mp hzero
      have hmem : row ∈ (world.activeSheet.drop 3).filter
          (anomalousRow host.toNumber host.parseInt world.properties world.activeSheet) :=
        List.mem_filter.mpr ⟨hrow, hflag⟩
      rw [hnil] at hmem
      exact List.not_mem_nil _ hmem
    rw [if_neg hpos]
    exact ⟨_, rfl⟩
  · intro hnone
    have hnil : (world.activeSheet.drop 3).filter
        (anomalousRow host.toNumber host.parseInt world.properties world.activeSheet) = [] := by
      rw [List.filter_eq_nil_iff]
      intro row hrow
      rw [hnone row hrow]
      decide
    rw [hnil]
    rfl

/-- On a sheet with three or fewer rows `createAnomalyReportHTML` returns its
string and `sendAnomalyEmail` sends a mail. -/
theorem sendAnomalyEmail_of_short (host : Host α) (world : World α)
    (hshort : world.activeSheet.length ≤ 3) :
    (sendAnomalyEmail host world).emails
      = world.emails ++ [AnomalyResult.text "<p>No anomaly data available.</p>"] := by
  unfold sendAnomalyEmail createAnomalyReportHTML
  simp only [hshort, if_true]

/-- C25: the evaluation at the failing input.  The active sheet is the one-time
report of one data row, current `10` against previous `10`, so three rows with
the difference `0` and no anomalous row; `createAnomalyReportHTML` returns the
string of line 2225 and `sendAnomalyEmail` sends a mail. -/
theorem mail_sent_for_short_sheet :
    getValues (writeOneTimeReportToSheet parseNatural "2024/11/01-2024/11/30"
        "2024/12/01-2024/12/31"
        ⟨["browser", "users"], ["browser"], [["Chrome", "10"]], 1⟩
        ⟨["browser", "users"], ["browser"], [["Chrome", "10"]], 1⟩)
      = [[Cell.str "Dimensions", Cell.str "2024/11/01-2024/11/30",
            Cell.str "2024/12/01-2024/12/31", Cell.str "Difference (%)"],
          [Cell.str "browser", Cell.str "users", Cell.str "users", Cell.str "users"],
          [Cell.str "Chrome", Cell.num 10, Cell.num 10, Cell.num 0]] ∧
    (sendAnomalyEmail (evaluationHost (fun _ => Except.ok none))
        { evaluationWorld none with
          activeSheet := getValues (writeOneTimeReportToSheet parseNatural
            "2024/11/01-2024/11/30" "2024/12/01-2024/12/31"
            ⟨["browser", "users"], ["browser"], [["Chrome", "10"]], 1⟩
            ⟨["browser", "users"], ["browser"], [["Chrome", "10"]], 1⟩) }).emails
      = [AnomalyResult.text "<p>No anomaly data available.</p>"] ∧
    (sendAnomalyEmail (evaluationHost (fun _ => Except.ok none)) (evaluationWorld none)).emails
      = [AnomalyResult.text "<p>No anomaly data available.</p>"] := by
  refine ⟨?_, ?_, ?_⟩ <;> decide!

/-- C26: for every sheet with more than three rows, `createAnomalyReportHTML`
returns its report object; the rendered rows are the first 20 of the rows
from sheet row 4 on that have an anomaly, in sheet order, so `min 20 anomalyCount`
rows, and `anomalyCount` is the number of the rows with an anomaly, each row
counted once whatever the number of its anomalous metrics, so at most the number
of the rows scanned. -/
theorem rendered_anomaly_rows (toNumber : String → Option α) (parseInt : String → Option Nat)
    (properties : DocumentProperties) (data : List (List (Cell α)))
    (hlong : 3 < data.length) :
    ∃ report : AnomalyReport α,
      createAnomalyReportHTML toNumber parseInt properties data = AnomalyResult.report report ∧
      report.anomalyCount
        = ((data.drop 3).filter (anomalousRow toNumber parseInt properties data)).length ∧
      report.renderedRows
        = ((data.drop 3).filter (anomalousRow toNumber parseInt properties data)).take 20 ∧
      report.renderedRows.length = min 20 report.anomalyCount ∧
      report.anomalyCount ≤ data.length - 3 := by
  refine ⟨_, createAnomalyReportHTML_of_long toNumber parseInt properties data hlong,
    rfl, rfl, ?_, ?_⟩
  · simp only [List.length_take]
  · have := List.length_filter_le (anomalousRow toNumber parseInt properties data) (data.drop 3)
    simpa [List.length_drop] using this

/-- Witness of C26: a sheet of three data rows, the first with two anomalous
metrics, the third with one; two rows are counted and rendered. -/
theorem rendered_anomaly_rows_witness :
    3 < evaluationSheet.length ∧
    ∃ report : AnomalyReport ℚ,
      createAnomalyReportHTML parseNatural String.toNat?
          ⟨some "1", some "10", some "3", some "2", some "1", none, none⟩ evaluationSheet
        = AnomalyResult.report report ∧
      report.anomalyCount = 2 ∧
      report.renderedRows
        = [[Cell.str "Chrome", Cell.num 10, Cell.num 2, Cell.num 8, Cell.num 20, Cell.num 2,
              Cell.num 9],
            [Cell.str "Safari", Cell.num 5, Cell.num 5, Cell.num 0, Cell.num 1, Cell.num 9,
              Cell.num (-4)]] := by
  refine ⟨by decide, ?_⟩
  obtain ⟨report, h1, h2, h3, _⟩ :=
    rendered_anomaly_rows parseNatural String.toNat?
      ⟨some "1", some "10", some "3", some "2", some "1", none, none⟩ evaluationSheet
      (by decide)
  refine ⟨report, h1, ?_, ?_⟩
  · rw [h2]
    decide!
  · rw [h3]
    decide!

end MailTheorems

section AnalyticsTheorems

variable {α : Type} [LinearOrderedField α]

/-! ## The hour column and the date ranges -/

/-- C22: for every API response with rows in which `"hour"` is found at index `h`
of the dimension headers, `formatGA4Response` with `options.hourly = true`
returns the dimension headers and the headers without that entry and every row
(dimension values followed by metric values) with exactly the element at index
`h` removed: the elements before `h` stay in place, the later ones move down by
one.  Without `options.hourly` every row is returned as its dimension values
followed by its metric values. -/
theorem formatGA4Response_hour_column (response : ApiResponse) (apiRows : List ApiRow)
    (hour : Option Nat) (h : Nat)
    (hrows : response.rows = some apiRows)
    (hindex : response.dimensionHeaders.indexOf "hour" = h)
    (hbound : h < response.dimensionHeaders.length) :
    response.dimensionHeaders[h]? = some "hour" ∧
    formatGA4Response (some response) { hourly := true, hour := hour }
      = some
        { headers := response.dimensionHeaders.eraseIdx h ++ response.metricHeaders
          dimensionHeaders := response.dimensionHeaders.eraseIdx h
          rows := apiRows.map
            (fun row => (row.dimensionValues ++ row.metricValues).eraseIdx h)
          rowCount := response.rowCount } ∧
    (∀ (row : List String) (j : Nat),
      (row.eraseIdx h)[j]? = if j < h then row[j]? else row[j + 1]?) ∧
    formatGA4Response (some response) { hourly := false, hour := hour }
      = some
        { headers := response.dimensionHeaders ++ response.metricHeaders
          dimensionHeaders := response.dimensionHeaders
          rows := apiRows.map (fun row => row.dimensionValues ++ row.metricValues)
          rowCount := response.rowCount } := by
  have hmem : "hour" ∈ response.dimensionHeaders := by
    rw [← hindex] at hbound
    exact List.indexOf_lt_length.mp hbound
  refine ⟨?_, ?_, ?_, ?_⟩
  · rw [← hindex, List.getElem?_eq_getElem (by rw [hindex]; exact hbound)]
    simp
  · have hcontains : response.dimensionHeaders.contains "hour" = true := by
      simpa using hmem
    simp only [formatGA4Response, hrows, Bool.true_and, hcontains, if_true, hindex,
      List.map_map]
    rfl
  · intro row j
    exact List.getElem?_eraseIdx row h j
  · simp only [formatGA4Response, hrows, Bool.false_and]
    rfl

/-- Witness of C22: the headers `["browser", "hour"]` and one row. -/
theorem formatGA4Response_hour_column_witness :
    formatGA4Response
        (some
          { dimensionHeaders := ["browser", "hour"]
            metricHeaders := ["users"]
            rows := some [{ dimensionValues := ["Chrome", "9"], metricValues := ["5"] }]
            rowCount := 1 })
        { hourly := true, hour := some 9 }
      = some
        { headers := ["browser", "users"]
          dimensionHeaders := ["browser"]
          rows := [["Chrome", "5"]]
          rowCount := 1 } :=
  (formatGA4Response_hour_column
    { dimensionHeaders := ["browser", "hour"]
      metricHeaders := ["users"]
      rows := some [{ dimensionValues := ["Chrome", "9"], metricValues := ["5"] }]
      rowCount := 1 }
    [{ dimensionValues := ["Chrome", "9"], metricValues := ["5"] }] (some 9) 1 rfl
    (by decide) (by decide)).2.1

/-- When `"hour"` is not among the requested dimensions, the hourly request asks
for `"hour"` first and, on an answer with the headers of the request, the table
returned by `getGA4Report` has the requested dimension names as dimension headers
and every row without its first value, so with one dimension value per requested
dimension. -/
theorem getGA4Report_hour_hidden
    (runReport : ApiRequest → Except JsError (Option ApiResponse)) (propertyId : String)
    (dimensions metrics : List String) (dateRange : DateRange) (hour : Nat)
    (response : ApiResponse) (apiRows : List ApiRow)
    (hnot : "hour" ∉ dimensions)
    (hanswer : runReport
      (buildRequest propertyId dimensions metrics dateRange { hourly := true, hour := some hour })
      = Except.ok (some response))
    (hheaders : response.dimensionHeaders
      = (buildRequest propertyId dimensions metrics dateRange
          { hourly := true, hour := some hour }).dimensions)
    (hrows : response.rows = some apiRows)
    (hvalues : ∀ row ∈ apiRows, row.dimensionValues.length = dimensions.length + 1) :
    (buildRequest propertyId dimensions metrics dateRange
      { hourly := true, hour := some hour }).dimensions = "hour" :: dimensions ∧
    getGA4Report runReport propertyId dimensions metrics dateRange
        { hourly := true, hour := some hour }
      = some
        { headers := dimensions ++ response.metricHeaders
          dimensionHeaders := dimensions
          rows := apiRows.map (fun row => row.dimensionValues.tail ++ row.metricValues)
          rowCount := response.rowCount } ∧
    ∀ row ∈ apiRows, row.dimensionValues.tail.length = dimensions.length := by
  have hany : dimensions.any (fun d => d == "hour") = false := by
    rw [Bool.eq_false_iff]
    intro hcontra
    rw [List.any_eq_true] at hcontra
    obtain ⟨d, hd, heq⟩ := hcontra
    have : d = "hour" := by simpa using heq
    exact hnot (this ▸ hd)
  have hrequest : (buildRequest propertyId dimensions metrics dateRange
      { hourly := true, hour := some hour }).dimensions = "hour" :: dimensions := by
    simp [buildRequest, hany]
  have hresponse : response.dimensionHeaders = "hour" :: dimensions := by
    rw [hheaders, hrequest]
  refine ⟨hrequest, ?_, ?_⟩
  · have hmap : apiRows.map
          (fun row => (row.dimensionValues ++ row.metricValues).eraseIdx 0)
        = apiRows.map (fun row => row.dimensionValues.tail ++ row.metricValues) := by
      apply List.map_congr_left
      intro row hrow
      have hlen := hvalues row hrow
      cases hd : row.dimensionValues with
      | nil => rw [hd] at hlen; simp at hlen
      | cons v rest => rfl
    simp only [getGA4Report, hanswer, formatGA4Response, hrows, hresponse, Bool.true_and,
      List.map_map]
    rw [← hmap]
    simp [List.indexOf_cons]
  · intro row hrow
    rw [List.length_tail, hvalues row hrow]
    rfl

/-- C23: the evaluation at the failing input.  The requested dimensions are
`["hour", "browser"]` and the service answers with one header and one value per
requested dimension; the request is sent with the dimensions as requested, and
the returned table has the dimension headers `["browser"]` and one dimension
value in its row, where two dimensions were requested.  For the requested
dimensions `["browser"]` the same service gives the dimension headers
`["browser"]`. -/
theorem requested_hour_is_stripped :
    (buildRequest "189677427" ["hour", "browser"] ["users"]
      { startDate := "2024-12-01", endDate := "2024-12-01" }
      { hourly := true, hour := some 9 }).dimensions = ["hour", "browser"] ∧
    getGA4Report echoService "189677427" ["hour", "browser"] ["users"]
        { startDate := "2024-12-01", endDate := "2024-12-01" }
        { hourly := true, hour := some 9 }
      = some
        { headers := ["browser", "users"]
          dimensionHeaders := ["browser"]
          rows := [["value of browser", "5"]]
          rowCount := 1 } ∧
    getGA4Report echoService "189677427" ["browser"] ["users"]
        { startDate := "2024-12-01", endDate := "2024-12-01" }
        { hourly := true, hour := some 9 }
      = some
        { headers := ["browser", "users"]
          dimensionHeaders := ["browser"]
          rows := [["value of browser", "5"]]
          rowCount := 1 } := by
  refine ⟨?_, ?_, ?_⟩
  · decide
  · decide
  · decide

/-- C24: in both recurring modes, with `yesterday` the day before the run, the
historical date ranges are exactly four, the `k`-th (`k = 1..4`) being the single
day (`startDate = endDate`) `7 * k` days before `yesterday`, a day with the same
remainder modulo 7, so the same weekday; the current date range is the single day
`yesterday`.  These are the date ranges of the requests sent (hourly: the four
historical ones, then the current one; daily: the current one, then, when it has
rows, the four historical ones) and the date ranges of the result returned. -/
theorem recurring_date_ranges (host : Host α) (selections : Selections) (world : World α)
    (propertyId : String) (dates : Dates) (dimensions metrics : List String)
    (hproperty : world.properties.selectedPropertyId = some propertyId)
    (hnonempty : propertyId ≠ "")
    (htype : selections.reportType = "recurring")
    (hdates : selections.dates = some dates)
    (hdimensions : selections.dimensions = some dimensions)
    (hmetrics : selections.metrics = some metrics) :
    historicalDateRanges host (host.today - 1) 4
      = [singleDay host (host.today - 1 - 7 * 1), singleDay host (host.today - 1 - 7 * 2),
          singleDay host (host.today - 1 - 7 * 3), singleDay host (host.today - 1 - 7 * 4)] ∧
    (∀ k : Int, (singleDay host (host.today - 1 - 7 * k)).startDate
        = (singleDay host (host.today - 1 - 7 * k)).endDate ∧
      (host.today - 1 - 7 * k) % 7 = (host.today - 1) % 7) ∧
    (dates.recurringOption = some "hourly" →
      ((validateSelectionsAndFetchData host (some selections) world).2.requests.map
          (fun request => request.dateRanges)
        = world.requests.map (fun request => request.dateRanges)
          ++ (historicalDateRanges host (host.today - 1) 4).map (fun dateRange => [dateRange])
          ++ [[singleDay host (host.today - 1)]]) ∧
      ∃ result, (validateSelectionsAndFetchData host (some selections) world).1
          = Except.ok result ∧
        result.dateRanges
          = singleDay host (host.today - 1) :: historicalDateRanges host (host.today - 1) 4) ∧
    (dates.recurringOption = some "daily" →
      hasRows (getGA4Report host.runReport propertyId dimensions metrics
        (singleDay host (host.today - 1)) { hourly := false, hour := none }) = true →
      ((validateSelectionsAndFetchData host (some selections) world).2.requests.map
          (fun request => request.dateRanges)
        = world.requests.map (fun request => request.dateRanges)
          ++ [[singleDay host (host.today - 1)]]
          ++ (historicalDateRanges host (host.today - 1) 4).map (fun dateRange => [dateRange])) ∧
      ∀ result, (validateSelectionsAndFetchData host (some selections) world).1
          = Except.ok result →
        result.dateRanges
          = singleDay host (host.today - 1) :: historicalDateRanges host (host.today - 1) 4) := by
  have hbuild : ∀ (options : FetchOptions) (dateRange : DateRange),
      (buildRequest propertyId dimensions metrics dateRange options).dateRanges = [dateRange] := by
    intro options dateRange
    unfold buildRequest
    cases options.hour with
    | none => rfl
    | some hour =>
      cases options.hourly with
      | false => rfl
      | true => rfl
  refine ⟨?_, ?_, ?_, ?_⟩
  · simp [historicalDateRanges, List.range_succ]
  · intro k
    refine ⟨rfl, ?_⟩
    omega
  · intro hoption
    unfold validateSelectionsAndFetchData
    simp only [hproperty, hnonempty, if_false, htype, if_true, hdates, hoption]
    unfold validateHourly
    simp only [hdimensions, hmetrics, fetchReports_eq, fetchReport, saveCounts, saveThresholds]
    refine ⟨?_, _, rfl, rfl⟩
    simp [hbuild, Function.comp_def]
  · intro hoption hrows
    have hne : ¬ (some "daily" = some "hourly") := by decide
    unfold validateSelectionsAndFetchData
    simp only [hproperty, hnonempty, if_false, htype, if_true, hdates, hoption, hne]
    unfold validateDaily
    simp only [hdimensions, hmetrics, fetchReports_eq, fetchReport, saveCounts, saveThresholds,
      hrows, if_true]
    refine ⟨?_, ?_⟩
    · simp [hbuild, Function.comp_def]
    · intro result hresult
      cases hbranch : dailyBranch host.sqrt host.parseFloat dimensions metrics
          (getGA4Report host.runReport propertyId dimensions metrics
            (singleDay host (host.today - 1)) { hourly := false, hour := none })
          (List.map
            (fun dateRange =>
              getGA4Report host.runReport propertyId dimensions metrics dateRange
                { hourly := false, hour := none })
            (historicalDateRanges host (host.today - 1) 4)) with
      | error e =>
        rw [hbranch] at hresult
        cases hresult
      | ok value =>
        rw [hbranch] at hresult
        simp only [Except.map] at hresult
        cases hresult
        rfl

/-- Witness of C24: the run of day 20000 asks for the days 19992, 19985, 19978 and
19971, then for the day 19999. -/
theorem recurring_date_ranges_witness :
    (evaluationWorld none).properties.selectedPropertyId = some "189677427" ∧
    (evaluationSelections "recurring" (some "hourly")).reportType = "recurring" ∧
    historicalDateRanges (evaluationHost (fun _ => Except.ok none)) (20000 - 1) 4
      = [{ startDate := "19992", endDate := "19992" }, { startDate := "19985", endDate := "19985" },
          { startDate := "19978", endDate := "19978" },
          { startDate := "19971", endDate := "19971" }] ∧
    (validateSelectionsAndFetchData (evaluationHost (fun _ => Except.ok none))
        (some (evaluationSelections "recurring" (some "hourly")))
        (evaluationWorld none)).2.requests.map (fun request => request.dateRanges)
      = [[{ startDate := "19992", endDate := "19992" }],
          [{ startDate := "19985", endDate := "19985" }],
          [{ startDate := "19978", endDate := "19978" }],
          [{ startDate := "19971", endDate := "19971" }],
          [{ startDate := "19999", endDate := "19999" }]] :=
  ⟨rfl, rfl,
    (recurring_date_ranges (evaluationHost (fun _ => Except.ok none))
      (evaluationSelections "recurring" (some "hourly")) (evaluationWorld none) "189677427"
      { range1 := some { startDate := "2024-11-01", endDate := "2024-11-30" }
        range2 := some { startDate := "2024-12-01", endDate := "2024-12-31" }
        recurringOption := some "hourly" }
      ["browser"] ["users"] rfl (by decide) rfl rfl rfl rfl).1,
    ((recurring_date_ranges (evaluationHost (fun _ => Except.ok none))
      (evaluationSelections "recurring" (some "hourly")) (evaluationWorld none) "189677427"
      { range1 := some { startDate := "2024-11-01", endDate := "2024-11-30" }
        range2 := some { startDate := "2024-12-01", endDate := "2024-12-31" }
        recurringOption := some "hourly" }
      ["browser"] ["users"] rfl (by decide) rfl rfl rfl rfl).2.2.1 rfl).1⟩

end AnalyticsTheorems

section DeviationTheorems

variable {α : Type} [LinearOrderedField α]

/-! ## The standard deviation and the clamp -/

/-- A sum of squared differences from `m` is not negative. -/
theorem sum_squares_nonneg (m : α) (S : List α) :
    0 ≤ (S.map (fun x => (x - m) ^ 2)).sum := by
  apply List.sum_nonneg
  intro y hy
  obtain ⟨x, _, rfl⟩ := List.mem_map.mp hy
  exact sq_nonneg _

/-- A sum of squared differences from `m` is `0` exactly when every element is `m`. -/
theorem sum_squares_eq_zero_iff (m : α) (S : List α) :
    (S.map (fun x => (x - m) ^ 2)).sum = 0 ↔ ∀ x ∈ S, x = m := by
  induction S with
  | nil => simp
  | cons a rest ih =>
    rw [List.map_cons, List.sum_cons,
      add_eq_zero_iff_of_nonneg (sq_nonneg _) (sum_squares_nonneg m rest), ih]
    simp only [List.mem_cons, forall_eq_or_imp]
    rw [sq_eq_zero_iff, sub_eq_zero]

/-- The sum of a list all of whose elements are `v`. -/
theorem sum_of_constant (v : α) (S : List α) (h : ∀ x ∈ S, x = v) :
    S.sum = (S.length : α) * v := by
  induction S with
  | nil => simp
  | cons a rest ih =>
    rw [List.sum_cons, ih (fun x hx => h x (List.mem_cons_of_mem _ hx)),
      h a (List.mem_cons_self _ _)]
    simp only [List.length_cons, Nat.cast_add, Nat.cast_one]
    ring

/-- Every element of a non-empty list is its arithmetic mean exactly when all its
elements are equal. -/
theorem all_eq_mean_iff (S : List α) (h : S ≠ []) :
    (∀ x ∈ S, x = S.sum / (S.length : α)) ↔ ∀ x ∈ S, ∀ y ∈ S, x = y := by
  constructor
  · intro hmean x hx y hy
    rw [hmean x hx, hmean y hy]
  · intro hall x hx
    have hlen : (S.length : α) ≠ 0 := by
      have : 0 < S.length := List.length_pos.mpr h
      exact_mod_cast this.ne'
    rw [sum_of_constant x S (fun y hy => hall y hy x hx)]
    field_simp

/-- The standard deviation of the hourly branch, for at least two samples, in
terms of the mean of the hourly branch. -/
theorem hourlyStdDev_of_two (sqrt : α → α) (S : List α) (h : 2 ≤ S.length) :
    hourlyStdDev sqrt S
      = sqrt ((S.map (fun x => (x - hourlyMean S) ^ 2)).sum / ((S.length : α) - 1)) := by
  have h1 : S.length > 1 := by omega
  simp only [hourlyStdDev, h1, if_true]
  congr 2
  rw [foldl_add_map_eq_sum]
  congr 1
  apply List.map_congr_left
  intro x _
  ring

/-- The standard deviation of the daily branch, for a non-empty sample list, in
terms of the mean of the daily branch. -/
theorem dailyStdDev_of_nonempty (sqrt : α → α) (S : List α) (h : S ≠ []) :
    dailyStdDev sqrt S
      = sqrt ((S.map (fun x => (x - dailyMean S) ^ 2)).sum / (S.length : α)) := by
  have hpos : S.length > 0 := List.length_pos.mpr h
  simp [dailyStdDev, hpos, foldl_add_eq_sum]

/-- For a square root that is not negative and vanishes only at `0`, the standard
deviation of the hourly branch is not negative, and for at least two samples it
is `0` exactly when every sample is the mean. -/
theorem hourlyStdDev_zero_iff (sqrt : α → α) (hnonneg : ∀ x, 0 ≤ sqrt x)
    (hzero : ∀ x, 0 ≤ x → (sqrt x = 0 ↔ x = 0)) (S : List α) :
    0 ≤ hourlyStdDev sqrt S ∧
    (2 ≤ S.length → (hourlyStdDev sqrt S = 0 ↔ ∀ x ∈ S, x = hourlyMean S)) := by
  constructor
  · unfold hourlyStdDev
    simp only
    split
    · exact hnonneg _
    · exact le_refl _
  · intro h
    have hpos : (0 : α) < (S.length : α) - 1 := by
      have : (2 : α) ≤ (S.length : α) := by exact_mod_cast h
      linarith
    rw [hourlyStdDev_of_two sqrt S h,
      hzero _ (div_nonneg (sum_squares_nonneg _ S) hpos.le),
      div_eq_zero_iff, sum_squares_eq_zero_iff]
    constructor
    · rintro (hsum | hlen)
      · exact hsum
      · exact absurd hlen hpos.ne'
    · exact fun hsum => Or.inl hsum

/-- For a square root that is not negative and vanishes only at `0`, the standard
deviation of the daily branch is not negative, and for a non-empty sample list it
is `0` exactly when every sample is the mean. -/
theorem dailyStdDev_zero_iff (sqrt : α → α) (hnonneg : ∀ x, 0 ≤ sqrt x)
    (hzero : ∀ x, 0 ≤ x → (sqrt x = 0 ↔ x = 0)) (S : List α) :
    0 ≤ dailyStdDev sqrt S ∧
    (S ≠ [] → (dailyStdDev sqrt S = 0 ↔ ∀ x ∈ S, x = dailyMean S)) := by
  constructor
  · exact hnonneg _
  · intro h
    have hpos : (0 : α) < (S.length : α) := by
      have : 0 < S.length := List.length_pos.mpr h
      exact_mod_cast this
    rw [dailyStdDev_of_nonempty sqrt S h,
      hzero _ (div_nonneg (sum_squares_nonneg _ S) hpos.le),
      div_eq_zero_iff, sum_squares_eq_zero_iff]
    constructor
    · rintro (hsum | hlen)
      · exact hsum
      · exact absurd hlen hpos.ne'
    · exact fun hsum => Or.inl hsum

/-- C28: over the real numbers with the real square root, the standard deviation
of both branches is never negative.  For every sample list with at least two
samples in the hourly branch (sample formula), and every non-empty sample list in
the daily branch (population formula), `stdDev = 0` if and only if every sample
equals the mean, which is the case exactly when all samples are equal; the
z-score is then `+10` or `-10` when the current value differs from the mean
and `0` when it equals it, and when the samples are not all equal `stdDev` is
positive and the z-score is the quotient `(c - mean) / stdDev`. -/
theorem stdDev_zero_iff_constant (S : List ℝ) (c : ℝ) :
    (0 ≤ (hourlyStatistics Real.sqrt S c).stdDev ∧ 0 ≤ (dailyStatistics Real.sqrt S).stdDev) ∧
    (2 ≤ S.length →
      ((hourlyStatistics Real.sqrt S c).stdDev = 0
        ↔ ∀ x ∈ S, x = (hourlyStatistics Real.sqrt S c).historicalMean) ∧
      ((∀ x ∈ S, x = (hourlyStatistics Real.sqrt S c).historicalMean)
        ↔ ∀ x ∈ S, ∀ y ∈ S, x = y) ∧
      ((∀ x ∈ S, ∀ y ∈ S, x = y) → c ≠ (hourlyStatistics Real.sqrt S c).historicalMean →
        (hourlyStatistics Real.sqrt S c).zScore
          = some (if c > (hourlyStatistics Real.sqrt S c).historicalMean then 10 else -10)) ∧
      ((∀ x ∈ S, ∀ y ∈ S, x = y) → c = (hourlyStatistics Real.sqrt S c).historicalMean →
        (hourlyStatistics Real.sqrt S c).zScore = some 0) ∧
      (¬ (∀ x ∈ S, ∀ y ∈ S, x = y) →
        0 < (hourlyStatistics Real.sqrt S c).stdDev ∧
        (hourlyStatistics Real.sqrt S c).zScore
          = some ((c - (hourlyStatistics Real.sqrt S c).historicalMean)
              / (hourlyStatistics Real.sqrt S c).stdDev))) ∧
    (S ≠ [] →
      ((dailyStatistics Real.sqrt S).stdDev = 0
        ↔ ∀ x ∈ S, x = (dailyStatistics Real.sqrt S).historicalMean) ∧
      ((∀ x ∈ S, x = (dailyStatistics Real.sqrt S).historicalMean)
        ↔ ∀ x ∈ S, ∀ y ∈ S, x = y) ∧
      ((∀ x ∈ S, ∀ y ∈ S, x = y) → c ≠ (dailyStatistics Real.sqrt S).historicalMean →
        (dailyEnhanceCell (some (dailyStatistics Real.sqrt S)) c).1.2
          = (if c > (dailyStatistics Real.sqrt S).historicalMean then 10 else -10)) ∧
      ((∀ x ∈ S, ∀ y ∈ S, x = y) → c = (dailyStatistics Real.sqrt S).historicalMean →
        (dailyEnhanceCell (some (dailyStatistics Real.sqrt S)) c).1.2 = 0) ∧
      (¬ (∀ x ∈ S, ∀ y ∈ S, x = y) →
        0 < (dailyStatistics Real.sqrt S).stdDev ∧
        (dailyEnhanceCell (some (dailyStatistics Real.sqrt S)) c).1.2
          = (c - (dailyStatistics Real.sqrt S).historicalMean)
              / (dailyStatistics Real.sqrt S).stdDev)) := by
  have hhourly := hourlyStdDev_zero_iff Real.sqrt Real.sqrt_nonneg
    (fun x hx => Real.sqrt_eq_zero hx) S
  have hdaily := dailyStdDev_zero_iff Real.sqrt Real.sqrt_nonneg
    (fun x hx => Real.sqrt_eq_zero hx) S
  refine ⟨⟨hhourly.1, hdaily.1⟩, ?_, ?_⟩
  · intro h
    have hne : S ≠ [] := by
      intro h0
      simp [h0] at h
    have hiff := hhourly.2 h
    have hall : (∀ x ∈ S, x = hourlyMean S) ↔ ∀ x ∈ S, ∀ y ∈ S, x = y := by
      rw [hourlyMean_eq_sum_div S hne]
      exact all_eq_mean_iff S hne
    refine ⟨hiff, hall, ?_, ?_, ?_⟩
    · intro hconst hc
      have hs : hourlyStdDev Real.sqrt S = 0 := hiff.mpr (hall.mpr hconst)
      have hc' : c ≠ hourlyMean S := hc
      simp [hourlyStatistics, hourlyZScore, hs, hc']
    · intro hconst hc
      have hs : hourlyStdDev Real.sqrt S = 0 := hiff.mpr (hall.mpr hconst)
      have hc' : c = hourlyMean S := hc
      simp [hourlyStatistics, hourlyZScore, hs, ← hc']
    · intro hvary
      have hs : hourlyStdDev Real.sqrt S ≠ 0 := fun h0 => hvary (hall.mp (hiff.mp h0))
      have hpos : 0 < hourlyStdDev Real.sqrt S := lt_of_le_of_ne hhourly.1 (Ne.symm hs)
      refine ⟨hpos, ?_⟩
      simp [hourlyStatistics, hourlyZScore, hpos, isFinite, isNaN]
  · intro hne
    have hiff := hdaily.2 hne
    have hall : (∀ x ∈ S, x = dailyMean S) ↔ ∀ x ∈ S, ∀ y ∈ S, x = y := by
      rw [dailyMean_eq_sum_div S hne]
      exact all_eq_mean_iff S hne
    refine ⟨hiff, hall, ?_, ?_, ?_⟩
    · intro hconst hc
      have hs : dailyStdDev Real.sqrt S = 0 := hiff.mpr (hall.mpr hconst)
      have hc' : c ≠ dailyMean S := hc
      simp [dailyEnhanceCell, dailyStatistics, dailyZScore, hs, hc', isFinite, isNaN]
    · intro hconst hc
      have hs : dailyStdDev Real.sqrt S = 0 := hiff.mpr (hall.mpr hconst)
      have hc' : c = dailyMean S := hc
      simp [dailyEnhanceCell, dailyStatistics, dailyZScore, hs, ← hc', isFinite, isNaN]
    · intro hvary
      have hs : dailyStdDev Real.sqrt S ≠ 0 := fun h0 => hvary (hall.mp (hiff.mp h0))
      have hpos : 0 < dailyStdDev Real.sqrt S := lt_of_le_of_ne hdaily.1 (Ne.symm hs)
      refine ⟨hpos, ?_⟩
      simp [dailyEnhanceCell, dailyStatistics, dailyZScore, hpos, isFinite, isNaN]

/-- Witness of C28: the constant history `[5, 5, 5, 5]` and the current value `7`
give the standard deviation `0` and the z-score `+10` in the hourly branch. -/
theorem stdDev_zero_iff_constant_witness :
    2 ≤ ([5, 5, 5, 5] : List ℝ).length ∧
    (hourlyStatistics Real.sqrt [5, 5, 5, 5] 7).stdDev = 0 ∧
    (hourlyStatistics Real.sqrt [5, 5, 5, 5] 7).zScore = some 10 := by
  have hlen : 2 ≤ ([5, 5, 5, 5] : List ℝ).length := by decide
  have hconst : ∀ x ∈ ([5, 5, 5, 5] : List ℝ), ∀ y ∈ ([5, 5, 5, 5] : List ℝ), x = y := by
    intro x hx y hy
    simp only [List.mem_cons, List.mem_singleton, List.not_mem_nil, or_false, or_self] at hx hy
    rw [hx, hy]
  have hmean : (hourlyStatistics Real.sqrt [5, 5, 5, 5] 7).historicalMean = 5 := by
    norm_num [hourlyStatistics, hourlyMean]
  obtain ⟨h1, h2, h3, _, _⟩ := (stdDev_zero_iff_constant [5, 5, 5, 5] 7).2.1 hlen
  refine ⟨hlen, h1.mpr (h2.mpr hconst), ?_⟩
  rw [h3 hconst (by rw [hmean]; norm_num), hmean]
  norm_num

end DeviationTheorems

section PermutationTheorems

variable {α : Type} [LinearOrderedField α]

/-! ## The order of the historical tables -/

theorem collectRow_length (parseFloat : String → Option α) (dc mc : Nat)
    (store : HistoricalStore α) (row : List String) :
    (collectRow parseFloat dc mc store row).arrays.length = store.arrays.length := by
  unfold collectRow
  cases hk : store.byKey (dimensionKey dc row) with
  | none => rfl
  | some refs =>
    exact foldl_push_length refs (fun i => parseOrZero parseFloat row[dc + i]?)
      (List.range mc) store

/-- A historical row whose key refers to the array object `a` appends the values
of its `mc` metrics to that array. -/
theorem collectRow_shared (parseFloat : String → Option α) (dc mc : Nat)
    (store : HistoricalStore α) (row : List String) (a : Nat)
    (hkey : store.byKey (dimensionKey dc row) = some (List.replicate mc a))
    (ha : a < store.arrays.length) :
    (collectRow parseFloat dc mc store row).arrays.getD a []
      = store.arrays.getD a []
        ++ (List.range mc).map (fun i => parseOrZero parseFloat row[dc + i]?) := by
  unfold collectRow
  rw [hkey]
  exact foldl_push_shared mc a (fun i => parseOrZero parseFloat row[dc + i]?)
    (List.range mc) store (fun i hi => List.mem_range.mp hi) ha

theorem sharedSamples_cons (parseFloat : String → Option α) (dc mc : Nat)
    (row : List String) (rest : List (List String)) (key : String) :
    sharedSamples parseFloat dc mc (row :: rest) key
      = (if dimensionKey dc row = key then
          (List.range mc).map (fun i => parseOrZero parseFloat row[dc + i]?)
        else []) ++ sharedSamples parseFloat dc mc rest key := by
  unfold sharedSamples
  by_cases h : dimensionKey dc row = key
  · rw [List.filter_cons_of_pos (by simp [h]), List.flatMap_cons]
    simp only [h, if_true]
  · rw [List.filter_cons_of_neg (by simp [h])]
    simp only [h, if_false, List.nil_append]

/-- The loop over the historical rows appends to the array object `a` of the key
`k` the values of the rows with that key. -/
theorem foldl_collectRow_shared (parseFloat : String → Option α) (dc mc : Nat)
    (k : String) (a : Nat) :
    ∀ (rows : List (List String)) (store : HistoricalStore α),
      store.byKey k = some (List.replicate mc a) → a < store.arrays.length →
      (∀ k' refs', store.byKey k' = some refs' → a ∈ refs' → k' = k) →
      (rows.foldl (collectRow parseFloat dc mc) store).arrays.getD a []
        = store.arrays.getD a [] ++ sharedSamples parseFloat dc mc rows k := by
  intro rows
  induction rows with
  | nil => intro store _ _ _; simp [sharedSamples]
  | cons row rest ih =>
    intro store hk ha hsep
    rw [List.foldl_cons, sharedSamples_cons]
    have hb := collectRow_byKey parseFloat dc mc store row
    rw [ih (collectRow parseFloat dc mc store row) (by rw [hb]; exact hk)
      (by rw [collectRow_length]; exact ha) (by rw [hb]; exact hsep)]
    by_cases hrow : dimensionKey dc row = k
    · rw [collectRow_shared parseFloat dc mc store row a (by rw [hrow]; exact hk) ha]
      simp only [hrow, if_true, List.append_assoc]
    · rw [collectRow_getD parseFloat dc mc store row a
        (fun refs hrefs hmem => hrow (hsep _ refs hrefs hmem))]
      simp only [hrow, if_false, List.nil_append]

/-- The sample list that the hourly branch looks up for a cell: for a key of the
store and a metric index below `mc`, the values of all the metrics of the
historical rows with the key; the empty list otherwise. -/
theorem historicalValues_eq_shared (parseFloat : String → Option α) (dc mc : Nat)
    (currentRows : List (List String)) (historicalFetches : List (Option Report))
    (key : String) (i : Nat) :
    historicalValues
        (collectReports parseFloat dc mc (initStore dc mc currentRows)
          (historicalFetches.map (fun report => if hasRows report then report else none))) key i
      = (match (initStore dc mc currentRows : HistoricalStore α).byKey key with
          | some _ =>
            if i < mc then sharedSamples parseFloat dc mc (historicalRowsOf historicalFetches) key
            else []
          | none => []) := by
  have hfresh : FreshStore (initStore dc mc currentRows : HistoricalStore α) :=
    freshStore_initStore dc mc currentRows
  unfold historicalValues
  rw [collectReports_byKey]
  cases hk : (initStore dc mc currentRows : HistoricalStore α).byKey key with
  | none => rfl
  | some refs =>
    obtain ⟨a, hrefs⟩ := initStore_shape dc mc currentRows key refs hk
    subst hrefs
    simp only
    by_cases hi : i < mc
    · have hmem : a ∈ List.replicate mc a := List.mem_replicate.mpr ⟨by omega, rfl⟩
      rw [List.getElem?_replicate_of_lt hi]
      simp only [hi, if_true]
      rw [collectReports_eq_foldl,
        foldl_collectRow_shared parseFloat dc mc key a _ _ hk
          (hfresh.bound key _ a hk hmem)
          (fun k' refs' hk' hmem' => hfresh.separate k' key refs' _ a hk' hk hmem' hmem),
        hfresh.empty a]
      rfl
    · rw [List.getElem?_replicate]
      simp only [hi, if_false]

theorem hourlyMean_perm (S S' : List α) (h : S.Perm S') : hourlyMean S = hourlyMean S' := by
  simp only [hourlyMean, foldl_add_eq_sum, h.sum_eq, h.length_eq]

theorem hourlyStdDev_perm (sqrt : α → α) (S S' : List α) (h : S.Perm S') :
    hourlyStdDev sqrt S = hourlyStdDev sqrt S' := by
  simp only [hourlyStdDev, hourlyMean_perm S S' h, h.length_eq]
  rw [foldl_add_map_eq_sum (fun val => (val - hourlyMean S') * (val - hourlyMean S')) S,
    foldl_add_map_eq_sum (fun val => (val - hourlyMean S') * (val - hourlyMean S')) S',
    (h.map _).sum_eq]

/-- The record of the hourly branch depends on the sample list up to the order of
the samples. -/
theorem hourlyStatistics_perm (sqrt : α → α) (S S' : List α) (h : S.Perm S') (c : α) :
    hourlyStatistics sqrt S c = hourlyStatistics sqrt S' c := by
  simp only [hourlyStatistics, hourlyMean_perm S S' h, hourlyStdDev_perm sqrt S S' h]

theorem dailyMean_perm (S S' : List α) (h : S.Perm S') : dailyMean S = dailyMean S' := by
  simp only [dailyMean, foldl_add_eq_sum, h.sum_eq, h.length_eq]

theorem dailyStdDev_perm (sqrt : α → α) (S S' : List α) (h : S.Perm S') :
    dailyStdDev sqrt S = dailyStdDev sqrt S' := by
  simp only [dailyStdDev, dailyMean_perm S S' h, foldl_add_eq_sum, List.length_map,
    h.length_eq, (h.map _).sum_eq]

/-- The record of the daily branch depends on the sample list, its property
`values` apart, up to the order of the samples. -/
theorem dailyStatistics_perm (sqrt : α → α) (S S' : List α) (h : S.Perm S') :
    withoutSamples (dailyStatistics sqrt S) = withoutSamples (dailyStatistics sqrt S') := by
  simp only [withoutSamples, dailyStatistics, dailyMean_perm S S' h, dailyStdDev_perm sqrt S S' h]

theorem historicalRowsOf_perm (fetches fetches' : List (Option Report))
    (h : fetches.Perm fetches') :
    (historicalRowsOf fetches).Perm (historicalRowsOf fetches') :=
  List.Perm.flatMap_right _ h

theorem sharedSamples_perm (parseFloat : String → Option α) (dc mc : Nat)
    (rows rows' : List (List String)) (h : rows.Perm rows') (key : String) :
    (sharedSamples parseFloat dc mc rows key).Perm (sharedSamples parseFloat dc mc rows' key) :=
  List.Perm.flatMap_right _ (h.filter _)

theorem cellSamples_perm (parseFloat : String → Option α) (dc : Nat)
    (rows rows' : List (List String)) (h : rows.Perm rows') (key : String) (i : Nat) :
    (cellSamples parseFloat dc rows key i).Perm (cellSamples parseFloat dc rows' key i) :=
  (h.filter _).filterMap _

/-- The sample lists that the hourly branch looks up after two orders of the
historical fetches are permutations of each other. -/
theorem historicalValues_perm (parseFloat : String → Option α) (dc mc : Nat)
    (currentRows : List (List String)) (fetches fetches' : List (Option Report))
    (h : fetches.Perm fetches') (key : String) (i : Nat) :
    (historicalValues
        (collectReports parseFloat dc mc (initStore dc mc currentRows)
          (fetches.map (fun report => if hasRows report then report else none))) key i).Perm
      (historicalValues
        (collectReports parseFloat dc mc (initStore dc mc currentRows)
          (fetches'.map (fun report => if hasRows report then report else none))) key i) := by
  rw [historicalValues_eq_shared, historicalValues_eq_shared]
  cases (initStore dc mc currentRows : HistoricalStore α).byKey key with
  | none => exact List.Perm.refl _
  | some refs =>
    simp only
    split
    · exact sharedSamples_perm parseFloat dc mc _ _ (historicalRowsOf_perm _ _ h) key
    · exact List.Perm.refl _

/-- The result of the hourly branch does not depend on the order of the historical
fetches. -/
theorem hourlyBranch_perm (sqrt : α → α) (parseFloat : String → Option α)
    (dimensions metrics : List String) (fetches fetches' : List (Option Report))
    (currentFetch : Option Report) (h : fetches.Perm fetches') :
    hourlyBranch sqrt parseFloat dimensions metrics fetches currentFetch
      = hourlyBranch sqrt parseFloat dimensions metrics fetches' currentFetch := by
  have hstats : ∀ (currentRows : List (List String)) (row : List String),
      rowStatistics sqrt parseFloat dimensions.length
          (collectReports parseFloat dimensions.length metrics.length
            (initStore dimensions.length metrics.length currentRows)
            (fetches.map (fun report => if hasRows report then report else none))) row
        = rowStatistics sqrt parseFloat dimensions.length
          (collectReports parseFloat dimensions.length metrics.length
            (initStore dimensions.length metrics.length currentRows)
            (fetches'.map (fun report => if hasRows report then report else none))) row := by
    intro currentRows row
    unfold rowStatistics
    apply List.map_congr_left
    intro p _
    exact hourlyStatistics_perm sqrt _ _
      (historicalValues_perm parseFloat dimensions.length metrics.length currentRows
        fetches fetches' h _ _) _
  have hcalc : ∀ currentRows : List (List String),
      hourlyCalculatedVarianceData sqrt parseFloat dimensions.length
          (collectReports parseFloat dimensions.length metrics.length
            (initStore dimensions.length metrics.length currentRows)
            (fetches.map (fun report => if hasRows report then report else none))) currentRows
        = hourlyCalculatedVarianceData sqrt parseFloat dimensions.length
          (collectReports parseFloat dimensions.length metrics.length
            (initStore dimensions.length metrics.length currentRows)
            (fetches'.map (fun report => if hasRows report then report else none)))
          currentRows := by
    intro currentRows
    unfold hourlyCalculatedVarianceData
    simp only [hstats]
  simp only [hourlyBranch, hcalc]

theorem dailyEnhanceCell_withoutSamples (entry : Option (CellStatistics α)) (c : α) :
    dailyEnhanceCell (entry.map withoutSamples) c
      = ((dailyEnhanceCell entry c).1, (dailyEnhanceCell entry c).2.map withoutSamples) := by
  cases entry with
  | none => rfl
  | some e => rfl

/-- The enhancement of one metric value reads the mean and the standard deviation
of the record and assigns its z-score: it commutes with the removal of the sample
lists. -/
theorem dailyEnhanceMetric_statisticsOf (parseFloat : String → Option α) (key : String)
    (out : List (Cell α)) (calculated : String → Option (List (CellStatistics α)))
    (p : Nat × String) :
    dailyEnhanceMetric parseFloat key (out, statisticsOf calculated) p
      = ((dailyEnhanceMetric parseFloat key (out, calculated) p).1,
          statisticsOf (dailyEnhanceMetric parseFloat key (out, calculated) p).2) := by
  have hentry : (statisticsOf calculated key).bind (fun stats => stats[p.1]?)
      = ((calculated key).bind (fun stats => stats[p.1]?)).map withoutSamples := by
    unfold statisticsOf
    cases calculated key with
    | none => rfl
    | some stats => simp [List.getElem?_map]
  rw [dailyEnhanceMetric_eq, dailyEnhanceMetric_eq]
  simp only [hentry, dailyEnhanceCell_withoutSamples]
  cases hresult : (dailyEnhanceCell ((calculated key).bind (fun stats => stats[p.1]?))
      (parseOrZero parseFloat (some p.2))).2 with
  | none => rfl
  | some e =>
    simp only [Option.map_some', statisticsOf_update]
    congr 2
    unfold statisticsOf
    cases calculated key with
    | none => rfl
    | some stats => simp [List.map_set]

theorem foldl_dailyEnhanceMetric_statisticsOf (parseFloat : String → Option α) (key : String)
    (l : List (Nat × String)) :
    ∀ (out : List (Cell α)) (calculated : String → Option (List (CellStatistics α))),
      l.foldl (dailyEnhanceMetric parseFloat key) (out, statisticsOf calculated)
        = ((l.foldl (dailyEnhanceMetric parseFloat key) (out, calculated)).1,
            statisticsOf (l.foldl (dailyEnhanceMetric parseFloat key) (out, calculated)).2) := by
  induction l with
  | nil => intro out calculated; rfl
  | cons p rest ih =>
    intro out calculated
    rw [List.foldl_cons, List.foldl_cons, dailyEnhanceMetric_statisticsOf, ih]

theorem dailyEnhanceRow_statisticsOf (parseFloat : String → Option α) (dc : Nat)
    (calculated : String → Option (List (CellStatistics α))) (row : List String) :
    dailyEnhanceRow parseFloat dc (statisticsOf calculated) row
      = ((dailyEnhanceRow parseFloat dc calculated row).1,
          statisticsOf (dailyEnhanceRow parseFloat dc calculated row).2) := by
  unfold dailyEnhanceRow
  exact foldl_dailyEnhanceMetric_statisticsOf parseFloat _ _ _ _

/-- The enhancement of the current rows commutes with the removal of the sample
lists: the enhanced rows are the same and the records keep their statistics. -/
theorem dailyEnhanceRows_statisticsOf (parseFloat : String → Option α) (dc : Nat)
    (rows : List (List String)) :
    ∀ calculated : String → Option (List (CellStatistics α)),
      dailyEnhanceRows parseFloat dc (statisticsOf calculated) rows
        = ((dailyEnhanceRows parseFloat dc calculated rows).1,
            statisticsOf (dailyEnhanceRows parseFloat dc calculated rows).2) := by
  induction rows with
  | nil => intro calculated; rfl
  | cons row rest ih =>
    intro calculated
    rw [dailyEnhanceRows_cons, dailyEnhanceRows_cons, dailyEnhanceRow_statisticsOf]
    simp only [ih]

/-- The records of the daily branch for two orders of the historical rows have
the same statistics. -/
theorem dailyCalculatedVarianceData_perm (sqrt : α → α) (parseFloat : String → Option α)
    (dc mc : Nat) (rows rows' : List (List String)) (h : rows.Perm rows') :
    statisticsOf (dailyCalculatedVarianceData sqrt (groupedSamples parseFloat dc mc rows))
      = statisticsOf
        (dailyCalculatedVarianceData sqrt (groupedSamples parseFloat dc mc rows')) := by
  funext key
  have hany : rows.any (fun row => dimensionKey dc row == key)
      = rows'.any (fun row => dimensionKey dc row == key) := by
    rw [Bool.eq_iff_iff, List.any_eq_true, List.any_eq_true]
    constructor
    · rintro ⟨row, hrow, hk⟩
      exact ⟨row, h.mem_iff.mp hrow, hk⟩
    · rintro ⟨row, hrow, hk⟩
      exact ⟨row, h.mem_iff.mpr hrow, hk⟩
  unfold statisticsOf dailyCalculatedVarianceData groupedSamples
  rw [hany]
  split
  · simp only [Option.map_some', List.map_map, Option.some.injEq]
    apply List.map_congr_left
    intro i _
    exact dailyStatistics_perm sqrt _ _ (cellSamples_perm parseFloat dc rows rows' h key i)
  · rfl

/-- The result of the daily branch on accepted historical rows, for two orders of
the historical fetches: the same enhanced rows and the same statistics. -/
theorem dailyEnhanced_perm (sqrt : α → α) (parseFloat : String → Option α) (dc mc : Nat)
    (currentRows : List (List String)) (fetches fetches' : List (Option Report))
    (hperm : fetches.Perm fetches') :
    (dailyEnhanceRows parseFloat dc
        (dailyCalculatedVarianceData sqrt
          (groupedSamples parseFloat dc mc (ownKeyRows dc (historicalRowsOf fetches))))
        currentRows).1
      = (dailyEnhanceRows parseFloat dc
        (dailyCalculatedVarianceData sqrt
          (groupedSamples parseFloat dc mc (ownKeyRows dc (historicalRowsOf fetches'))))
        currentRows).1 ∧
    (currentRows.map
        (fun row => dailyLookup (dailyEnhanceRows parseFloat dc
          (dailyCalculatedVarianceData sqrt
            (groupedSamples parseFloat dc mc (ownKeyRows dc (historicalRowsOf fetches))))
          currentRows).2 (dimensionKey dc row))).map (Option.map statisticsOfEntry)
      = (currentRows.map
        (fun row => dailyLookup (dailyEnhanceRows parseFloat dc
          (dailyCalculatedVarianceData sqrt
            (groupedSamples parseFloat dc mc (ownKeyRows dc (historicalRowsOf fetches'))))
          currentRows).2 (dimensionKey dc row))).map (Option.map statisticsOfEntry) := by
  have hrowsPerm : (ownKeyRows dc (historicalRowsOf fetches)).Perm
      (ownKeyRows dc (historicalRowsOf fetches')) :=
    (historicalRowsOf_perm fetches fetches' hperm).filter _
  have hcalc := dailyCalculatedVarianceData_perm sqrt parseFloat dc mc _ _ hrowsPerm
  have h1 := dailyEnhanceRows_statisticsOf parseFloat dc currentRows
    (dailyCalculatedVarianceData sqrt
      (groupedSamples parseFloat dc mc (ownKeyRows dc (historicalRowsOf fetches))))
  have h2 := dailyEnhanceRows_statisticsOf parseFloat dc currentRows
    (dailyCalculatedVarianceData sqrt
      (groupedSamples parseFloat dc mc (ownKeyRows dc (historicalRowsOf fetches'))))
  rw [hcalc] at h1
  rw [h1] at h2
  refine ⟨(Prod.mk.inj h2).1, ?_⟩
  simp only [List.map_map]
  apply List.map_congr_left
  intro row _
  simp only [Function.comp_apply, dailyLookup_statisticsOf]
  rw [(Prod.mk.inj h2).2]

/-- C21: in both recurring modes, over every ordered field with a square root
function (so over the real numbers), the statistics do not depend on the order of
the historical tables.  For two lists of historical fetches that are permutations
of each other, the hourly branch returns the same result, so the same
`historicalMean`, `stdDev`, `zScore` and `variancePercent` for every cell.  The
daily branch raises the same error for both or succeeds for both, and then with
the same current table, the same enhanced rows (current value, mean and z-score
of every cell) and values of `varianceData` that agree on every property but the
sample list `values`; it succeeds for a current table with rows when the grouping
loop accepts every historical row. -/
theorem statistics_order_independent (sqrt : α → α) (parseFloat : String → Option α)
    (dimensions metrics : List String) (fetches fetches' : List (Option Report))
    (hperm : fetches.Perm fetches') :
    (∀ currentFetch : Option Report,
      hourlyBranch sqrt parseFloat dimensions metrics fetches currentFetch
        = hourlyBranch sqrt parseFloat dimensions metrics fetches' currentFetch) ∧
    (∀ currentFetch : Option Report,
      (∀ error : JsError,
        dailyBranch sqrt parseFloat dimensions metrics currentFetch fetches = Except.error error ↔
          dailyBranch sqrt parseFloat dimensions metrics currentFetch fetches'
            = Except.error error) ∧
      ∀ result result' : RecurringResult α,
        dailyBranch sqrt parseFloat dimensions metrics currentFetch fetches = Except.ok result →
        dailyBranch sqrt parseFloat dimensions metrics currentFetch fetches' = Except.ok result' →
        result.report1 = result'.report1 ∧
        result.report2.rows = result'.report2.rows ∧
        result.report2.varianceData.map (Option.map statisticsOfEntry)
          = result'.report2.varianceData.map (Option.map statisticsOfEntry)) ∧
    (∀ currentReport : Report, currentReport.rows ≠ [] →
      (historicalRowsOf fetches).all (dailyRowAccepted dimensions.length metrics.length) = true →
      ∃ result result' : RecurringResult α,
        dailyBranch sqrt parseFloat dimensions metrics (some currentReport) fetches
          = Except.ok result ∧
        dailyBranch sqrt parseFloat dimensions metrics (some currentReport) fetches'
          = Except.ok result') := by
  have hall : (historicalRowsOf fetches).all (dailyRowAccepted dimensions.length metrics.length)
      = (historicalRowsOf fetches').all (dailyRowAccepted dimensions.length metrics.length) :=
    all_perm _ _ _ (historicalRowsOf_perm fetches fetches' hperm)
  refine ⟨fun currentFetch =>
    hourlyBranch_perm sqrt parseFloat dimensions metrics fetches fetches' currentFetch hperm,
    ?_, ?_⟩
  · intro currentFetch
    by_cases hcurrent : hasRows currentFetch = true
    · obtain ⟨currentReport, hsome, hrows⟩ : ∃ currentReport : Report,
          currentFetch = some currentReport ∧ currentReport.rows ≠ [] := by
        cases currentFetch with
        | none => simp [hasRows] at hcurrent
        | some report =>
          refine ⟨report, rfl, ?_⟩
          intro hnil
          simp [hasRows, hnil] at hcurrent
      subst hsome
      rw [dailyBranch_eq sqrt parseFloat dimensions metrics currentReport fetches hrows,
        dailyBranch_eq sqrt parseFloat dimensions metrics currentReport fetches' hrows, ← hall]
      obtain ⟨hrowsEq, hdataEq⟩ := dailyEnhanced_perm sqrt parseFloat dimensions.length
        metrics.length currentReport.rows fetches fetches' hperm
      by_cases haccepted : (historicalRowsOf fetches).all
          (dailyRowAccepted dimensions.length metrics.length) = true
      · simp only [haccepted, if_true]
        refine ⟨fun error => ⟨fun h => Except.noConfusion h, fun h => Except.noConfusion h⟩, ?_⟩
        intro result result' hresult hresult'
        cases hresult
        cases hresult'
        exact ⟨rfl, hrowsEq, hdataEq⟩
      · simp only [haccepted, Bool.false_eq_true, if_false]
        refine ⟨fun _ => trivial, ?_⟩
        intro result result' hresult
        exact Except.noConfusion hresult
    · have hempty : hasRows currentFetch = false := by simpa using hcurrent
      rw [dailyBranch_of_no_rows sqrt parseFloat dimensions metrics currentFetch fetches hempty,
        dailyBranch_of_no_rows sqrt parseFloat dimensions metrics currentFetch fetches' hempty]
      refine ⟨fun error => Iff.rfl, ?_⟩
      intro result result' hresult
      exact Except.noConfusion hresult
  · intro currentReport hrows haccepted
    rw [dailyBranch_eq sqrt parseFloat dimensions metrics currentReport fetches hrows,
      dailyBranch_eq sqrt parseFloat dimensions metrics currentReport fetches' hrows, ← hall,
      haccepted]
    exact ⟨_, _, rfl, rfl⟩

/-- Witness of C21: two historical tables fetched in the two orders, in the hourly
and in the daily branch. -/
theorem statistics_order_independent_witness :
    ([some ⟨["browser", "users"], ["browser"], [["Chrome", "1"]], 1⟩,
        some ⟨["browser", "users"], ["browser"], [["Chrome", "3"], ["Edge", "4"]], 2⟩] :
        List (Option Report)).Perm
      [some ⟨["browser", "users"], ["browser"], [["Chrome", "3"], ["Edge", "4"]], 2⟩,
        some ⟨["browser", "users"], ["browser"], [["Chrome", "1"]], 1⟩] ∧
    hourlyBranch Rat.sqrt parseNatural ["browser"] ["users"]
        [some ⟨["browser", "users"], ["browser"], [["Chrome", "1"]], 1⟩,
          some ⟨["browser", "users"], ["browser"], [["Chrome", "3"], ["Edge", "4"]], 2⟩]
        (some ⟨["browser", "users"], ["browser"], [["Chrome", "10"]], 1⟩)
      = hourlyBranch Rat.sqrt parseNatural ["browser"] ["users"]
        [some ⟨["browser", "users"], ["browser"], [["Chrome", "3"], ["Edge", "4"]], 2⟩,
          some ⟨["browser", "users"], ["browser"], [["Chrome", "1"]], 1⟩]
        (some ⟨["browser", "users"], ["browser"], [["Chrome", "10"]], 1⟩) ∧
    (historicalRowsOf
        [some ⟨["browser", "users"], ["browser"], [["Chrome", "1"]], 1⟩,
          some ⟨["browser", "users"], ["browser"], [["Chrome", "3"], ["Edge", "4"]], 2⟩]).all
      (dailyRowAccepted (["browser"] : List String).length (["users"] : List String).length)
      = true ∧
    ∃ result result' : RecurringResult ℚ,
      dailyBranch Rat.sqrt parseNatural ["browser"] ["users"]
          (some ⟨["browser", "users"], ["browser"], [["Chrome", "10"]], 1⟩)
          [some ⟨["browser", "users"], ["browser"], [["Chrome", "1"]], 1⟩,
            some ⟨["browser", "users"], ["browser"], [["Chrome", "3"], ["Edge", "4"]], 2⟩]
        = Except.ok result ∧
      dailyBranch Rat.sqrt parseNatural ["browser"] ["users"]
          (some ⟨["browser", "users"], ["browser"], [["Chrome", "10"]], 1⟩)
          [some ⟨["browser", "users"], ["browser"], [["Chrome", "3"], ["Edge", "4"]], 2⟩,
            some ⟨["browser", "users"], ["browser"], [["Chrome", "1"]], 1⟩]
        = Except.ok result' ∧
      result.report2.rows = result'.report2.rows ∧
      result.report2.varianceData.map (Option.map statisticsOfEntry)
        = result'.report2.varianceData.map (Option.map statisticsOfEntry) := by
  have hperm : ([some ⟨["browser", "users"], ["browser"], [["Chrome", "1"]], 1⟩,
      some ⟨["browser", "users"], ["browser"], [["Chrome", "3"], ["Edge", "4"]], 2⟩] :
      List (Option Report)).Perm
      [some ⟨["browser", "users"], ["browser"], [["Chrome", "3"], ["Edge", "4"]], 2⟩,
        some ⟨["browser", "users"], ["browser"], [["Chrome", "1"]], 1⟩] :=
    List.Perm.swap _ _ _
  have hclaim := statistics_order_independent Rat.sqrt parseNatural ["browser"] ["users"] _ _
    hperm
  refine ⟨hperm, hclaim.1 _, by decide, ?_⟩
  obtain ⟨result, result', hresult, hresult'⟩ := hclaim.2.2
    ⟨["browser", "users"], ["browser"], [["Chrome", "10"]], 1⟩ (by decide) (by decide)
  exact ⟨result, result', hresult, hresult',
    ((hclaim.2.1 (some ⟨["browser", "users"], ["browser"], [["Chrome", "10"]], 1⟩)).2
      result result' hresult hresult').2⟩

end PermutationTheorems

end Hackathon
